import Mathlib

/-!
Verification development for the parametric color-grading engine
(OKLab conversion, reference fitter, look applier, halation stage,
heuristics adapter).  Numbers are modelled as real numbers; byte buffers
as functions from indices to naturals.  Every definition mirrors the
corresponding source function; theorems at the end settle the spec claims.
-/

set_option maxHeartbeats 1000000

noncomputable section

open Real

/-- Image buffer: row-major RGBA bytes (4 per pixel), dimensions width × height.
Mirrors the DOM ImageData handed to the engine. -/
structure ImageData where
  width : ℕ
  height : ℕ
  data : ℕ → ℕ

/-- OKLab components: L (lightness), a (green-red), b (blue-yellow). -/
structure Oklab where
  L : ℝ
  a : ℝ
  b : ℝ

/-- An sRGB byte triple produced by oklabToSrgb8 (each mathematically in 0..255). -/
structure Rgb8 where
  r : ℤ
  g : ℤ
  b : ℤ

/-- Cube root (Math.cbrt).  Sign-preserving; the engine only applies it to
nonnegative cone responses. -/
def cbrt (x : ℝ) : ℝ := if x < 0 then -((-x) ^ ((1 : ℝ) / 3)) else x ^ ((1 : ℝ) / 3)

/-- sRGB channel 0-255 to linear 0-1 (srgb8ToLinear in oklab.ts). -/
def srgb8ToLinear (c : ℕ) : ℝ :=
  let c01 : ℝ := c / 255
  if c01 ≤ 0.04045 then c01 / 12.92 else ((c01 + 0.055) / 1.055) ^ (2.4 : ℝ)

/-- Unrounded value of linearToSrgb8 before the 0..255 scaling and rounding:
`c <= 0.0031308 ? c * 12.92 : 1.055 * c ** (1 / 2.4) - 0.055`. -/
def linearToSrgb8Val (c : ℝ) : ℝ :=
  if c ≤ 0.0031308 then c * 12.92 else 1.055 * c ^ ((1 : ℝ) / 2.4) - 0.055

/-- Linear 0-1 to sRGB channel 0-255 (linearToSrgb8 in oklab.ts):
`Math.round(Math.max(0, Math.min(255, v * 255)))`. -/
def linearToSrgb8 (c : ℝ) : ℤ :=
  round (max 0 (min 255 (linearToSrgb8Val c * 255)))

/-- sRGB (0-255) to OKLab (srgb8ToOklab in oklab.ts). -/
def srgb8ToOklab (r g b : ℕ) : Oklab :=
  let lr := srgb8ToLinear r
  let lg := srgb8ToLinear g
  let lb := srgb8ToLinear b
  let l := 0.4122214708 * lr + 0.5363325363 * lg + 0.0514459929 * lb
  let m := 0.2119034982 * lr + 0.6806995451 * lg + 0.1073969566 * lb
  let s := 0.0883024619 * lr + 0.2817188376 * lg + 0.6299787005 * lb
  let lc := cbrt l
  let mc := cbrt m
  let sc := cbrt s
  { L := 0.2104542553 * lc + 0.793617785 * mc - 0.0040720468 * sc
    a := 1.9779984951 * lc - 2.428592205 * mc + 0.4505937099 * sc
    b := 0.0259040371 * lc + 0.7827717662 * mc - 0.808675766 * sc }

/-- OKLab to sRGB (0-255) (oklabToSrgb8 in oklab.ts). -/
def oklabToSrgb8 (L a b : ℝ) : Rgb8 :=
  let lc := L + 0.3963377774 * a + 0.2158037573 * b
  let mc := L - 0.1055613458 * a - 0.0638541728 * b
  let sc := L - 0.0894841775 * a - 1.291485548 * b
  let l := lc * lc * lc
  let m := mc * mc * mc
  let s := sc * sc * sc
  let lr := 4.0767416621 * l - 3.3077115913 * m + 0.2309699292 * s
  let lg := -1.2684380046 * l + 2.6097574011 * m - 0.3413193965 * s
  let lb := -0.0041960863 * l - 0.7034186147 * m + 1.707614701 * s
  { r := linearToSrgb8 lr
    g := linearToSrgb8 lg
    b := linearToSrgb8 lb }

/-! Parametric grading engine (match.ts): LookParams data model. -/

/-- Multi-segment tone curve: L_in -> L_out at anchors. -/
structure ToneCurveParams where
  L_in : List ℝ
  L_out : List ℝ

/-- Multi-segment tint: a/b per luminance band. -/
structure TintByLParams where
  L_anchors : List ℝ
  a : List ℝ
  b : List ℝ

/-- Per-band saturation/density from reference. -/
structure SaturationByLParams where
  L_anchors : List ℝ
  scale : List ℝ

/-- Per-band strengths/values for the 5 fixed colour bands. -/
structure ColorBandStrengths where
  lowerShadow : ℝ
  upperShadow : ℝ
  mid : ℝ
  lowerHigh : ℝ
  upperHigh : ℝ

/-- Manual per-band overrides (hue/sat/luma) layered on the 5-band match. -/
structure ColorBandOverrides where
  hue : ColorBandStrengths
  sat : ColorBandStrengths
  luma : ColorBandStrengths

/-- Reference-side statistics for 5-band colour matching. -/
structure ColorMatchBandStats where
  refA : List ℝ
  refB : List ℝ
  refC : List ℝ

/-- Lift/gamma/gain tone model. -/
structure ToneParams where
  lift : ℝ
  gamma : ℝ
  gain : ℝ

/-- Rolloff / density model for chroma. -/
structure SaturationParams where
  shadowRolloff : ℝ
  highlightRolloff : ℝ
  shadowColorDensity : ℝ
  highlightColorDensity : ℝ

/-- An (a, b) tint pair. -/
structure TintAB where
  a : ℝ
  b : ℝ

/-- Highlight fill (bloom/density) parameters for the halation stage. -/
structure HighlightFill where
  strength : ℝ
  warmth : Option ℝ

/-- JSON-serializable grading parameters (LookParams in match.ts).  Optional
fields of the TS interface are modelled with Option; the apply-side
destructuring defaults are applied via getD at the use sites, exactly as the
source destructures them. -/
structure LookParams where
  tone : ToneParams
  toneCurve : Option ToneCurveParams
  saturation : SaturationParams
  warmth : ℝ
  tint : ℝ
  shadowTint : TintAB
  highlightTint : TintAB
  shadowContrast : ℝ
  tintByL : Option TintByLParams
  saturationByL : Option SaturationByLParams
  refSaturation : Option ℝ
  colorDensity : Option ℝ
  microContrastMid : Option ℝ
  lumaStrength : Option ℝ
  colorStrength : Option ℝ
  refMidL : Option ℝ
  refBlackL : Option ℝ
  exposureStrength : Option ℝ
  blackStrength : Option ℝ
  blackRange : Option ℝ
  colorBandStrengths : Option ColorBandStrengths
  colorMatchBands : Option ColorMatchBandStats
  colorBandOverrides : Option ColorBandOverrides
  highlightFill : Option HighlightFill

/-- Identity / neutral params (defaultLookParams in match.ts). -/
def defaultLookParams : LookParams where
  tone := ⟨0, 1, 1⟩
  toneCurve := none
  saturation := ⟨0, 0, 1, 1⟩
  warmth := 0
  tint := 0
  shadowTint := ⟨0, 0⟩
  highlightTint := ⟨0, 0⟩
  shadowContrast := 1
  tintByL := none
  saturationByL := none
  refSaturation := none
  colorDensity := some 1
  microContrastMid := some 0
  lumaStrength := some 1
  colorStrength := some 1
  refMidL := some 0.5
  refBlackL := some 0.05
  exposureStrength := some 1
  blackStrength := some 1
  blackRange := some 0.6
  colorBandStrengths := some ⟨1, 1, 1, 1, 1⟩
  colorMatchBands := none
  colorBandOverrides := none
  highlightFill := none

/-- Chroma in OKLab: C = sqrt(a^2 + b^2). -/
def chroma (a b : ℝ) : ℝ := Real.sqrt (a * a + b * b)

/-- Clamp to the unit interval.  The source writes this as explicit
`if (x < 0) x = 0; else if (x > 1) x = 1;` blocks. -/
def clamp01 (x : ℝ) : ℝ := max 0 (min 1 x)

/-- Scan of the piecewiseLinear search loop: the first segment i with
L_in[i] <= L <= L_in[i+1] is interpolated; falling off the end returns the
last output anchor. -/
def piecewiseLinearScan (L : ℝ) (Lin Lout : List ℝ) (i : ℕ) : ℝ :=
  if _h : i + 1 < Lin.length then
    if Lin.getD i 0 ≤ L ∧ L ≤ Lin.getD (i + 1) 0 then
      let t := (L - Lin.getD i 0) / (Lin.getD (i + 1) 0 - Lin.getD i 0)
      Lout.getD i 0 + t * (Lout.getD (i + 1) 0 - Lout.getD i 0)
    else piecewiseLinearScan L Lin Lout (i + 1)
  else Lout.getD (Lin.length - 1) 0
termination_by Lin.length - i

/-- Piecewise linear interpolation (piecewiseLinear in match.ts). -/
def piecewiseLinear (L : ℝ) (Lin Lout : List ℝ) : ℝ :=
  if Lin.length = 0 then L
  else if L ≤ Lin.getD 0 0 then Lout.getD 0 0
  else if Lin.getD (Lin.length - 1) 0 ≤ L then Lout.getD (Lin.length - 1) 0
  else piecewiseLinearScan L Lin Lout 0

/-- Interpolate a/b tint from tintByL at given L (band-centered falloff). -/
def interpolateTintByL (L : ℝ) (tb : TintByLParams) : TintAB :=
  let n := tb.L_anchors.length
  if n = 0 then ⟨0, 0⟩ else
  let bandHalfWidth : ℝ := 0.65 / n
  let w : ℕ → ℝ := fun i => max 0 (1 - |L - tb.L_anchors.getD i 0| / bandHalfWidth)
  let sumA := ∑ i ∈ Finset.range n, if 0 < w i then w i * tb.a.getD i 0 else 0
  let sumB := ∑ i ∈ Finset.range n, if 0 < w i then w i * tb.b.getD i 0 else 0
  let sumW := ∑ i ∈ Finset.range n, if 0 < w i then w i else 0
  if sumW < 1e-9 then
    let i := if L ≤ tb.L_anchors.getD 0 0 then 0 else n - 1
    ⟨tb.a.getD i 0, tb.b.getD i 0⟩
  else ⟨sumA / sumW, sumB / sumW⟩

/-- Interpolate saturation scale from saturationByL at given L.  Same search
loop as piecewiseLinear, over (L_anchors, scale), defaulting to 1 when empty. -/
def interpolateSaturationByL (L : ℝ) (sat : SaturationByLParams) : ℝ :=
  let n := sat.L_anchors.length
  if n = 0 then 1
  else if L ≤ sat.L_anchors.getD 0 0 then sat.scale.getD 0 0
  else if sat.L_anchors.getD (n - 1) 0 ≤ L then sat.scale.getD (n - 1) 0
  else piecewiseLinearScan L sat.L_anchors sat.scale 0

/-- Saturation rolloff scale as function of L. -/
def satScale (L shadowRolloff highlightRolloff : ℝ) : ℝ :=
  max 0 (1 - shadowRolloff * (1 - L) ^ 2 - highlightRolloff * L ^ 2)

/-- Color density scale: boost in shadows, reduce in highlights. -/
def colorDensityScale (L shadowColorDensity highlightColorDensity : ℝ) : ℝ :=
  let shadowW := (1 - L) ^ 2
  let highlightW := L ^ 2
  1 + (shadowColorDensity - 1) * shadowW + (highlightColorDensity - 1) * highlightW

/-- Shadow contrast (power on toe) before main LGG. -/
def applyShadowContrast (L shadowContrast : ℝ) : ℝ :=
  if shadowContrast = 1 ∨ 0.4 ≤ L then L
  else ((L / 0.4) ^ (shadowContrast : ℝ)) * 0.4

/-- Lift-gamma-gain on L. -/
def applyLGG (L lift gamma gain : ℝ) : ℝ :=
  let v := max 0.001 (min 1 (L * gain + lift))
  v ^ (gamma : ℝ)

/-! Statistics helpers of the Applier. -/

/-- Ascending numeric sort, as done by the JS sort((a, b) => a - b) calls. -/
def sortAsc (l : List ℝ) : List ℝ := l.insertionSort (· ≤ ·)

/-- Pixel indices of d that pass the alpha >= 128 mask, in order. -/
def maskedPixels (d : ℕ → ℕ) (nPix : ℕ) : List ℕ :=
  (List.range nPix).filter (fun pix => 128 ≤ d (4 * pix + 3))

/-- OKLab L of a pixel of a byte buffer. -/
def pixelL (d : ℕ → ℕ) (pix : ℕ) : ℝ :=
  (srgb8ToOklab (d (4 * pix)) (d (4 * pix + 1)) (d (4 * pix + 2))).L

/-- Median source L over alpha >= 128 pixels (sourceMidL in match.ts). -/
def sourceMidL (d : ℕ → ℕ) (nPix : ℕ) : ℝ :=
  let Ls := (maskedPixels d nPix).map (pixelL d)
  if Ls.length = 0 then 0.5
  else (sortAsc Ls).getD (Nat.floor ((Ls.length : ℝ) * 0.5)) 0.5

/-- Low-percentile (5th) source L over alpha >= 128 pixels (sourceBlackL). -/
def sourceBlackL (d : ℕ → ℕ) (nPix : ℕ) : ℝ :=
  let Ls := (maskedPixels d nPix).map (pixelL d)
  if Ls.length = 0 then 0.05
  else (sortAsc Ls).getD (Nat.floor ((Ls.length : ℝ) * 0.05)) 0.05

/-- Percentile of L from a grid restricted to mask (percentileFromLGrid). -/
def percentileFromLGrid (Lgrid : ℕ → ℝ) (mask : ℕ → Bool) (n : ℕ) (p : ℝ) : ℝ :=
  let vals := ((List.range n).filter (fun i => mask i)).map Lgrid
  if vals.length = 0 then 0
  else (sortAsc vals).getD (Nat.floor (max 0 (min 1 p) * ((vals.length : ℝ) - 1))) 0

/-- Separable 5-tap Gaussian blur on a luminance grid (gaussianBlur5).
Buffers are functions of the flat index; x/y are recovered as in the loops. -/
def gaussianBlur5 (src : ℕ → ℝ) (width height : ℕ) : ℕ → ℝ :=
  let tmp : ℕ → ℝ := fun idx =>
    let y := idx / width
    let x := idx % width
    let xm2 := x - 2
    let xm1 := x - 1
    let xp1 := if width ≤ x + 1 then width - 1 else x + 1
    let xp2 := if width ≤ x + 2 then width - 1 else x + 2
    (src (y * width + xm2) * 1 + src (y * width + xm1) * 4 + src (y * width + x) * 6 +
        src (y * width + xp1) * 4 + src (y * width + xp2) * 1) / 16
  fun idx =>
    let y := idx / width
    let x := idx % width
    let ym2 := y - 2
    let ym1 := y - 1
    let yp1 := if height ≤ y + 1 then height - 1 else y + 1
    let yp2 := if height ≤ y + 2 then height - 1 else y + 2
    (tmp (ym2 * width + x) * 1 + tmp (ym1 * width + x) * 4 + tmp (y * width + x) * 6 +
        tmp (yp1 * width + x) * 4 + tmp (yp2 * width + x) * 1) / 16

/-- Heavier film-like blur: two passes of the 5-tap kernel (gaussianBlurFilm). -/
def gaussianBlurFilm (src : ℕ → ℝ) (width height : ℕ) : ℕ → ℝ :=
  gaussianBlur5 (gaussianBlur5 src width height) width height

/-! applyLook: clamped parameter values (the Math.max/Math.min clamps performed
at the top of applyLook before any use of the raw params). -/

/-- lumaS: lumaStrength clamped into [0, 2]. -/
def lumaSOf (p : LookParams) : ℝ := max 0 (min 2 (p.lumaStrength.getD 1))

/-- colorS: colorStrength clamped into [0, 2]. -/
def colorSOf (p : LookParams) : ℝ := max 0 (min 2 (p.colorStrength.getD 1))

/-- clampedRefMidL: refMidL clamped into [0, 1]. -/
def clampedRefMidL (p : LookParams) : ℝ := max 0 (min 1 (p.refMidL.getD 0.5))

/-- clampedExposureStrength: exposureStrength clamped into [0, 2]. -/
def clampedExposureStrength (p : LookParams) : ℝ :=
  max 0 (min 2 (p.exposureStrength.getD 1))

/-- clampedRefBlack: refBlackL clamped into [0, 0.2]. -/
def clampedRefBlack (p : LookParams) : ℝ := max 0 (min 0.2 (p.refBlackL.getD 0.05))

/-- clampedBlackStrength: blackStrength clamped into [0, 8]. -/
def clampedBlackStrength (p : LookParams) : ℝ := max 0 (min 8 (p.blackStrength.getD 1))

/-- exposureDelta: strength-scaled, clamped ideal shift of the median L, with
up to 30% overshoot above strength 1. -/
def exposureDelta (src : ImageData) (p : LookParams) : ℝ :=
  let srcMidL := sourceMidL src.data (src.width * src.height)
  let idealDeltaRaw := clampedRefMidL p - srcMidL
  let idealDelta := max (-0.6) (min 0.6 idealDeltaRaw)
  if clampedExposureStrength p ≤ 1 then clampedExposureStrength p * idealDelta
  else idealDelta * (1 + 0.3 * (clampedExposureStrength p - 1))

/-- blackDelta: clampedBlackStrength * (clampedRefBlack - srcBlack). -/
def blackDelta (src : ImageData) (p : LookParams) : ℝ :=
  clampedBlackStrength p *
    (clampedRefBlack p - sourceBlackL src.data (src.width * src.height))

/-- useToneCurve gate: toneCurve present with nonempty anchor lists. -/
def useToneCurve (p : LookParams) : Bool :=
  match p.toneCurve with
  | none => false
  | some tc => tc.L_in.length != 0 && tc.L_out.length != 0

/-- useTintByL gate. -/
def useTintByL (p : LookParams) : Bool :=
  match p.tintByL with
  | none => false
  | some tb => tb.L_anchors.length != 0

/-- useSaturationByL gate. -/
def useSaturationByL (p : LookParams) : Bool :=
  match p.saturationByL with
  | none => false
  | some sb => sb.L_anchors.length != 0 && sb.scale.length != 0

/-- useColorBands gate: all three reference band stat arrays have length 5. -/
def useColorBands (p : LookParams) : Bool :=
  match p.colorMatchBands with
  | none => false
  | some cmb => cmb.refA.length == 5 && cmb.refB.length == 5 && cmb.refC.length == 5

/-! applyLook: per-pixel buffers of stage A. -/

/-- Alpha byte of a pixel. -/
def alphaBuf (src : ImageData) (pix : ℕ) : ℕ := src.data (4 * pix + 3)

/-- Opacity mask: alpha >= 128. -/
def maskOf (src : ImageData) (pix : ℕ) : Bool := 128 ≤ alphaBuf src pix

/-- OKLab value of a source pixel. -/
def pixelLab (src : ImageData) (pix : ℕ) : Oklab :=
  srgb8ToOklab (src.data (4 * pix)) (src.data (4 * pix + 1)) (src.data (4 * pix + 2))

/-- Source a buffer (0 for masked-out pixels). -/
def aBuf (src : ImageData) (pix : ℕ) : ℝ :=
  if maskOf src pix then (pixelLab src pix).a else 0

/-- Source b buffer (0 for masked-out pixels). -/
def bBuf (src : ImageData) (pix : ℕ) : ℝ :=
  if maskOf src pix then (pixelLab src pix).b else 0

/-- Stage A0 output: exposure-shifted L, clamped to [0,1] (L_src buffer). -/
def LsrcBuf (src : ImageData) (p : LookParams) (pix : ℕ) : ℝ :=
  if maskOf src pix then clamp01 ((pixelLab src pix).L + exposureDelta src p) else 0

/-- LGG path of the tone stage (shadow contrast then lift/gamma/gain). -/
def lggPath (p : LookParams) (Lexp : ℝ) : ℝ :=
  applyLGG (applyShadowContrast Lexp p.shadowContrast) p.tone.lift p.tone.gamma p.tone.gain

/-- Tone-mapped L buffer (L_tone): reference curve in absolute L space when a
toneCurve is present, otherwise shadow-contrast + LGG. -/
def LtoneBuf (src : ImageData) (p : LookParams) (pix : ℕ) : ℝ :=
  if maskOf src pix then
    let Lexp := LsrcBuf src p pix
    match p.toneCurve with
    | some tc =>
      if tc.L_in.length ≠ 0 ∧ tc.L_out.length ≠ 0 then
        clamp01 (piecewiseLinear Lexp tc.L_in tc.L_out)
      else lggPath p Lexp
    | none => lggPath p Lexp
  else 0

/-- lumaBlend: lumaS up to 1, then 30% overshoot above. -/
def lumaBlendOf (p : LookParams) : ℝ :=
  if lumaSOf p ≤ 1 then lumaSOf p else 1 + 0.3 * (lumaSOf p - 1)

/-- Stage A3 output: luma blend between L_src and the tone-mapped L.  The
blend loop is skipped (keeping the tone-mapped value) when |lumaBlend| <= 1e-3. -/
def LlumaA3Buf (src : ImageData) (p : LookParams) (idx : ℕ) : ℝ :=
  if 1e-3 < |lumaBlendOf p| then
    clamp01 (LsrcBuf src p idx + lumaBlendOf p * (LtoneBuf src p idx - LsrcBuf src p idx))
  else LtoneBuf src p idx

/-- Clamp of blackRange into the black-pull ceiling: max(0.1, min(0.95, r)). -/
def baseShadowCeilingOf (blackRange : ℝ) : ℝ := max 0.1 (min 0.95 blackRange)

/-- Per-value pull of stage A4: below the shadow ceiling, add
bDelta * weight with the linear or quadratic falloff weight, clamped. -/
def stageA4Pull (bDelta shadowCeiling : ℝ) (wide : Bool) (L : ℝ) : ℝ :=
  if L ≤ shadowCeiling then
    let tShadow := L / shadowCeiling
    let weight := if wide then 1 - tShadow else (1 - tShadow) * (1 - tShadow)
    clamp01 (L + bDelta * weight)
  else L

/-- Wide-shadow flag of stage A4: aggressive pull toward a very low anchor. -/
def stageA4Wide (bDelta cRefBlack : ℝ) : Bool :=
  decide (bDelta < 0 ∧ cRefBlack < 0.02)

/-- Shadow ceiling of stage A4: the base ceiling, widened by 0.2 (capped at
0.95) when the wide flag is set. -/
def stageA4Ceiling (bDelta cRefBlack blackRange : ℝ) : ℝ :=
  if stageA4Wide bDelta cRefBlack then
    min 0.95 (baseShadowCeilingOf blackRange + 0.2)
  else baseShadowCeilingOf blackRange

/-- The pulled luma buffer of stage A4, before the safety renormalization. -/
def stageA4Pulled (mask : ℕ → Bool) (bDelta cRefBlack blackRange : ℝ)
    (Lin : ℕ → ℝ) : ℕ → ℝ := fun idx =>
  if mask idx then
    stageA4Pull bDelta (stageA4Ceiling bDelta cRefBlack blackRange)
      (stageA4Wide bDelta cRefBlack) (Lin idx)
  else Lin idx

/-- Stage A4: black/shadow alignment with safety normalization, as a function
of the incoming luma buffer and the data the stage reads. -/
def stageA4 (nPix : ℕ) (mask : ℕ → Bool) (bDelta cRefBlack blackRange : ℝ)
    (Lin : ℕ → ℝ) : ℕ → ℝ :=
  if 1e-3 < |bDelta| then
    let pulled := stageA4Pulled mask bDelta cRefBlack blackRange Lin
    let p5Before := percentileFromLGrid Lin mask nPix 0.05
    let p5After := percentileFromLGrid pulled mask nPix 0.05
    let minAllowed := max 0 (cRefBlack - 0.03)
    if p5After < minAllowed ∧ minAllowed < p5Before then
      if 1e-5 < |p5After - p5Before| then
        let al := max 0 (min 1 ((minAllowed - p5Before) / (p5After - p5Before)))
        fun idx =>
          if mask idx then clamp01 (Lin idx + al * (pulled idx - Lin idx))
          else pulled idx
      else pulled
    else pulled
  else Lin

/-- Stage A4 output buffer inside applyLook. -/
def LlumaA4Buf (src : ImageData) (p : LookParams) : ℕ → ℝ :=
  stageA4 (src.width * src.height) (maskOf src) (blackDelta src p) (clampedRefBlack p)
    (p.blackRange.getD 0.6) (LlumaA3Buf src p)

/-- Stage A5: actuance / microcontrast on the final luma (L_final buffer). -/
def LfinalBuf (src : ImageData) (p : LookParams) : ℕ → ℝ :=
  let nPix := src.width * src.height
  let Lluma := LlumaA4Buf src p
  if 0 < p.microContrastMid.getD 0 then
    let blurred := gaussianBlurFilm Lluma src.width src.height
    let inMids : ℕ → Prop := fun idx =>
      maskOf src idx = true ∧ 0.25 ≤ Lluma idx ∧ Lluma idx ≤ 0.75
    let sumSq := ∑ idx ∈ Finset.range nPix,
      if inMids idx then (Lluma idx - blurred idx) ^ 2 else 0
    let count := ((List.range nPix).filter (fun idx => decide (inMids idx))).length
    let srcRms := if 0 < count then Real.sqrt (sumSq / count) else 0
    let gain :=
      if 1e-6 < srcRms then max 0.5 (min 2 (p.microContrastMid.getD 0 / srcRms)) else 1
    fun idx =>
      if maskOf src idx then clamp01 (blurred idx + gain * (Lluma idx - blurred idx))
      else 0
  else Lluma

/-! applyLook stage B: colour mapping using the final L. -/

/-- Fixed anchors of the 5 colour bands. -/
def COLOR_BAND_ANCHORS : List ℝ := [0.08, 0.25, 0.5, 0.7, 0.9]

/-- Raw (unnormalized) triangular weight of band k at lightness L. -/
def bandWeightRaw (L : ℝ) (k : ℕ) : ℝ :=
  let anchors := COLOR_BAND_ANCHORS
  let center := anchors.getD k 0
  let left := if k = 0 then 0 else anchors.getD (k - 1) 0
  let right := if k = 4 then 1 else anchors.getD (k + 1) 0
  let width := max 1e-3 (max (center - left) (right - center))
  let t := 1 - |L - center| / width
  if 0 < t then t else 0

/-- Triangular band weights over the 5 fixed anchors, normalized to sum 1 when
the raw sum exceeds 1e-6 (bandWeights; identical code appears in the fitter
and in applyLook). -/
def bandWeights (L : ℝ) : List ℝ :=
  let w := (List.range 5).map (bandWeightRaw L)
  let sum := w.sum
  if 1e-6 < sum then w.map (· / sum) else w

/-- Per-band strength selector (the k === 0 ? lowerShadow : ... chains). -/
def bandStrengthAt (bands : ColorBandStrengths) (k : ℕ) : ℝ :=
  if k = 0 then bands.lowerShadow
  else if k = 1 then bands.upperShadow
  else if k = 2 then bands.mid
  else if k = 3 then bands.lowerHigh
  else bands.upperHigh

/-- bandValue helper of applyLook (per-band override values, defaulting to 0
when no values are supplied). -/
def bandValue (id : ℕ) (values : Option ColorBandStrengths) : ℝ :=
  match values with
  | none => 0
  | some v => bandStrengthAt v id

/-- Accumulated source band weight (stage B precomputation; skips wk <= 0). -/
def srcSumW (src : ImageData) (p : LookParams) (k : ℕ) : ℝ :=
  ∑ idx ∈ Finset.range (src.width * src.height),
    if maskOf src idx then
      (let wk := (bandWeights (LfinalBuf src p idx)).getD k 0
       if wk ≤ 0 then 0 else wk)
    else 0

/-- Accumulated source band a sum. -/
def srcSumA (src : ImageData) (p : LookParams) (k : ℕ) : ℝ :=
  ∑ idx ∈ Finset.range (src.width * src.height),
    if maskOf src idx then
      (let wk := (bandWeights (LfinalBuf src p idx)).getD k 0
       if wk ≤ 0 then 0 else wk * aBuf src idx)
    else 0

/-- Accumulated source band b sum. -/
def srcSumB (src : ImageData) (p : LookParams) (k : ℕ) : ℝ :=
  ∑ idx ∈ Finset.range (src.width * src.height),
    if maskOf src idx then
      (let wk := (bandWeights (LfinalBuf src p idx)).getD k 0
       if wk ≤ 0 then 0 else wk * bBuf src idx)
    else 0

/-- Accumulated source band chroma sum. -/
def srcSumC (src : ImageData) (p : LookParams) (k : ℕ) : ℝ :=
  ∑ idx ∈ Finset.range (src.width * src.height),
    if maskOf src idx then
      (let wk := (bandWeights (LfinalBuf src p idx)).getD k 0
       if wk ≤ 0 then 0 else wk * chroma (aBuf src idx) (bBuf src idx))
    else 0

/-- Per-band Δa/Δb and chroma ratio derived from reference and source band
stats (bandDeltaA/bandDeltaB/bandScaleC), with the length clamp and the
warm-band damping rule.  Returns (dA, dB, kC). -/
def bandMatch (src : ImageData) (p : LookParams) (cmb : ColorMatchBandStats)
    (k : ℕ) : ℝ × ℝ × ℝ :=
  let w := srcSumW src p k
  if w ≤ 1e-4 then (0, 0, 1)
  else
    let aSrc := srcSumA src p k / w
    let bSrc := srcSumB src p k / w
    let cSrc := srcSumC src p k / w
    let aRef := cmb.refA.getD k 0
    let bRef := cmb.refB.getD k 0
    let cRef := cmb.refC.getD k 0
    let dA0 := aRef - aSrc
    let dB0 := bRef - bSrc
    let len := Real.sqrt (dA0 ^ 2 + dB0 ^ 2)
    let dA1 := if 0.16 < len ∧ 1e-6 < len then dA0 * (0.16 / len) else dA0
    let dB1 := if 0.16 < len ∧ 1e-6 < len then dB0 * (0.16 / len) else dB0
    let dB2 :=
      if (-0.02 < aSrc ∧ 0.02 < bSrc ∧ -0.02 < aRef ∧ 0.02 < bRef) ∧ dB1 < 0
      then dB1 * 0.4 else dB1
    let kC :=
      if 1e-4 < cSrc ∧ 1e-4 < cRef then max 0.5 (min 1.8 (cRef / cSrc)) else 1
    (dA1, dB2, kC)

/-- Weighted numerator of Δa in the per-pixel 5-band blend (skips wk <= 0,
then multiplies by the user per-band strength). -/
def stageBNumA (src : ImageData) (p : LookParams) (cmb : ColorMatchBandStats)
    (L : ℝ) : ℝ :=
  ∑ k ∈ Finset.range 5,
    (let wk := (bandWeights L).getD k 0
     if wk ≤ 0 then 0 else
       (match p.colorBandStrengths with
        | some bands => wk * bandStrengthAt bands k
        | none => wk) * (bandMatch src p cmb k).1)

/-- Weighted numerator of Δb in the per-pixel 5-band blend. -/
def stageBNumB (src : ImageData) (p : LookParams) (cmb : ColorMatchBandStats)
    (L : ℝ) : ℝ :=
  ∑ k ∈ Finset.range 5,
    (let wk := (bandWeights L).getD k 0
     if wk ≤ 0 then 0 else
       (match p.colorBandStrengths with
        | some bands => wk * bandStrengthAt bands k
        | none => wk) * (bandMatch src p cmb k).2.1)

/-- Weighted numerator of the chroma ratio in the per-pixel 5-band blend. -/
def stageBNumC (src : ImageData) (p : LookParams) (cmb : ColorMatchBandStats)
    (L : ℝ) : ℝ :=
  ∑ k ∈ Finset.range 5,
    (let wk := (bandWeights L).getD k 0
     if wk ≤ 0 then 0 else
       (match p.colorBandStrengths with
        | some bands => wk * bandStrengthAt bands k
        | none => wk) * (bandMatch src p cmb k).2.2)

/-- Weight denominator of the per-pixel 5-band blend. -/
def stageBDen (src : ImageData) (p : LookParams) (L : ℝ) : ℝ :=
  ∑ k ∈ Finset.range 5,
    (let wk := (bandWeights L).getD k 0
     if wk ≤ 0 then 0 else
       match p.colorBandStrengths with
       | some bands => wk * bandStrengthAt bands k
       | none => wk)

/-- Chroma scale multiplied into the source (a, b) before the tint branches
(rolloff * density * colorDensity * sceneDensityScale(=1) * bandScale *
overallSat; zero when chroma is below 1e-8). -/
def stageBScale (p : LookParams) (L C : ℝ) : ℝ :=
  let s := satScale L p.saturation.shadowRolloff p.saturation.highlightRolloff
  let dScale := colorDensityScale L p.saturation.shadowColorDensity
    p.saturation.highlightColorDensity
  let bandScale0 :=
    match p.saturationByL with
    | some sb =>
      if sb.L_anchors.length ≠ 0 ∧ sb.scale.length ≠ 0 then
        interpolateSaturationByL L sb
      else 1
    | none => 1
  let overallSat := p.refSaturation.getD 1
  let bandScale := if overallSat < 1 ∧ 1 < bandScale0 then 1 else bandScale0
  if 1e-8 < C then s * dScale * p.colorDensity.getD 1 * 1 * bandScale * overallSat
  else 0

/-- Per-band colour strength factor in the tintByL branch (five overlapping
triangular bands across L). -/
def tintBandFactor (bands : ColorBandStrengths) (L : ℝ) : ℝ :=
  let ls := max 0 (min 1 L)
  let wLowerShadow :=
    if ls ≤ 0.3 then (if ls ≤ 0.15 then 1 - ls / 0.15 else max 0 ((0.3 - ls) / 0.15))
    else 0
  let wUpperShadow := if 0.1 ≤ ls ∧ ls ≤ 0.45 then 1 - |ls - 0.275| / 0.175 else 0
  let wMid := if 0.3 ≤ ls ∧ ls ≤ 0.7 then 1 - |ls - 0.5| / 0.2 else 0
  let wLowerHigh := if 0.5 ≤ ls ∧ ls ≤ 0.85 then 1 - |ls - 0.675| / 0.175 else 0
  let wUpperHigh :=
    if 0.7 ≤ ls then (if ls ≤ 0.85 then (ls - 0.7) / 0.15 else max 0 ((1 - ls) / 0.15))
    else 0
  let num := wLowerShadow * bands.lowerShadow + wUpperShadow * bands.upperShadow +
    wMid * bands.mid + wLowerHigh * bands.lowerHigh + wUpperHigh * bands.upperHigh
  let den := wLowerShadow + wUpperShadow + wMid + wLowerHigh + wUpperHigh
  if 1e-3 < den then num / den else 1

/-- Colour (a, b) after the three-way tint branch of stage B (before the
colorStrength blend and manual overrides). -/
def stageBChroma (src : ImageData) (p : LookParams) (pix : ℕ) : ℝ × ℝ :=
  let L := LfinalBuf src p pix
  let aSrc := aBuf src pix
  let bSrc := bBuf src pix
  let C := chroma aSrc bSrc
  let scale := stageBScale p L C
  let oa0 := aSrc * scale
  let ob0 := bSrc * scale
  if useColorBands p then
    match p.colorMatchBands with
    | some cmb =>
      let numA := stageBNumA src p cmb L
      let numB := stageBNumB src p cmb L
      let numC := stageBNumC src p cmb L
      let den := stageBDen src p L
      let oa1 :=
        if 1e-4 < den then
          let dA := numA / den
          let kC := numC / den
          let baseC := chroma aSrc bSrc
          let aMatch := aSrc + dA
          let bMatch := bSrc + numB / den
          let cMatch := chroma aMatch bMatch
          if 1e-5 < cMatch ∧ 1e-5 < baseC then
            aMatch * max 0.4 (min 2.2 (baseC * kC / cMatch))
          else aMatch
        else oa0
      let ob1 :=
        if 1e-4 < den then
          let dB := numB / den
          let kC := numC / den
          let baseC := chroma aSrc bSrc
          let aMatch := aSrc + numA / den
          let bMatch := bSrc + dB
          let cMatch := chroma aMatch bMatch
          if 1e-5 < cMatch ∧ 1e-5 < baseC then
            bMatch * max 0.4 (min 2.2 (baseC * kC / cMatch))
          else bMatch
        else ob0
      (oa1 + p.tint * 0.25, ob1 + p.warmth * 0.25)
    | none => (oa0, ob0)
  else if useTintByL p then
    match p.tintByL with
    | some tb =>
      let t := interpolateTintByL L tb
      let bandFactor :=
        match p.colorBandStrengths with
        | some bands => tintBandFactor bands L
        | none => 1
      let localContrast := 1 + 0.25 * min 1 (C / 0.08)
      let highlightFade := 1 - 0.15 * L * L
      let shadowMidBoost := 1 + 0.75 * (1 - L) ^ (0.585 : ℝ)
      (oa0 + bandFactor * t.a * localContrast * highlightFade * shadowMidBoost +
         p.tint * 0.35,
       ob0 + bandFactor * t.b * localContrast * highlightFade * shadowMidBoost +
         p.warmth * 0.35)
    | none => (oa0, ob0)
  else
    let shadowW := (1 - L) ^ 2
    let highlightW := L ^ 2
    (oa0 + p.tint + p.shadowTint.a * shadowW + p.highlightTint.a * highlightW,
     ob0 + p.warmth + p.shadowTint.b * shadowW + p.highlightTint.b * highlightW)

/-- Hue rotation angle from the aggregated hue override: the control value is
clamped into [-1, 1] then mapped to up to 30 degrees. -/
def hueThetaOf (hueControl : ℝ) : ℝ :=
  max (-1) (min 1 hueControl) * (Real.pi / 180 * 30)

/-- Saturation multiplier from the aggregated override delta, clamped into
[0.2, 2.5]. -/
def satMulOf (satControl : ℝ) : ℝ := max 0.2 (min 2.5 (1 + satControl))

/-- Luma offset from the aggregated override, clamped into [-0.2, 0.2]. -/
def lumaOffsetOf (lumaControl : ℝ) : ℝ := max (-0.2) (min 0.2 lumaControl)

/-- Stage B3: manual per-band overrides (hue rotation, saturation multiplier,
luma offset) on (L, a, b). -/
def overridesApply (p : LookParams) (L oa ob : ℝ) : ℝ × ℝ × ℝ :=
  match p.colorBandOverrides with
  | none => (L, oa, ob)
  | some ov =>
    let w := bandWeights L
    let hueControl := ∑ k ∈ Finset.range 5,
      (let wk := w.getD k 0
       if wk ≤ 0 then 0 else wk * bandValue k (some ov.hue))
    let satControl := ∑ k ∈ Finset.range 5,
      (let wk := w.getD k 0
       if wk ≤ 0 then 0 else wk * (bandValue k (some ov.sat) - 1))
    let lumaControl := ∑ k ∈ Finset.range 5,
      (let wk := w.getD k 0
       if wk ≤ 0 then 0 else wk * bandValue k (some ov.luma))
    let theta := hueThetaOf hueControl
    let oa1 := if 1e-4 < |theta| then oa * Real.cos theta - ob * Real.sin theta else oa
    let ob1 := if 1e-4 < |theta| then oa * Real.sin theta + ob * Real.cos theta else ob
    let satMul := satMulOf satControl
    let Cafter := chroma oa1 ob1
    let oa2 := if 1e-6 < Cafter ∧ 1e-3 < |satMul - 1| then oa1 * satMul else oa1
    let ob2 := if 1e-6 < Cafter ∧ 1e-3 < |satMul - 1| then ob1 * satMul else ob1
    let L2 :=
      if 1e-4 < |lumaControl| then max 0 (min 1 (L + lumaOffsetOf lumaControl))
      else L
    (L2, oa2, ob2)

/-- Final (L, a, b) of a pixel after stage B (tint branch, colorStrength blend
B2, manual overrides B3). -/
def stageBFinal (src : ImageData) (p : LookParams) (pix : ℕ) : ℝ × ℝ × ℝ :=
  let L := LfinalBuf src p pix
  let aSrc := aBuf src pix
  let bSrc := bBuf src pix
  let ab := stageBChroma src p pix
  let colorS := colorSOf p
  let oa2 := if 1e-3 < |colorS - 1| then aSrc + colorS * (ab.1 - aSrc) else ab.1
  let ob2 := if 1e-3 < |colorS - 1| then bSrc + colorS * (ab.2 - bSrc) else ab.2
  overridesApply p L oa2 ob2

/-- RGBA bytes written for a pixel: masked-out pixels get zero RGB and their
original alpha; others are converted back from OKLab. -/
def applyLookPixelBytes (src : ImageData) (p : LookParams) (pix : ℕ) :
    ℕ × ℕ × ℕ × ℕ :=
  let a := alphaBuf src pix
  if a < 128 then (0, 0, 0, a)
  else
    let Lab := stageBFinal src p pix
    let rgb := oklabToSrgb8 Lab.1 Lab.2.1 Lab.2.2
    (rgb.r.toNat, rgb.g.toNat, rgb.b.toNat, a)

/-- Apply LookParams to a source image; returns a fresh ImageData of the same
dimensions (applyLook in match.ts). -/
def applyLook (src : ImageData) (p : LookParams) : ImageData :=
  let nPix := src.width * src.height
  { width := src.width
    height := src.height
    data := fun i =>
      if i < 4 * nPix then
        let out := applyLookPixelBytes src p (i / 4)
        let c := i % 4
        if c = 0 then out.1
        else if c = 1 then out.2.1
        else if c = 2 then out.2.2.1
        else out.2.2.2
      else 0 }

/-! Reference fitter: the multi-segment tone curve fitted by
fitLookParamsFromReference (the toneCurve block; the fitter yields the
neutral defaultLookParams, with no toneCurve, when the reference has no
alpha >= 128 pixel). -/

/-- Fixed input anchors of the fitted 8-anchor tone curve. -/
def toneAnchors : List ℝ := [0, 0.05, 0.15, 0.3, 0.5, 0.7, 0.85, 1]

/-- Percentiles sampled for the fitted tone curve outputs. -/
def tonePercentiles : List ℝ := [0.02, 0.05, 0.15, 0.3, 0.5, 0.7, 0.85, 0.98]

/-- OKLab L values of the reference's alpha >= 128 pixels, in pixel order. -/
def refLs (ref : ImageData) : List ℝ :=
  (maskedPixels ref.data (ref.width * ref.height)).map (pixelL ref.data)

/-- The toneCurve value computed by fitLookParamsFromReference: outputs are
sampled from the sorted L array at fixed percentile indices and capped at the
highlight ceiling (0.95 when p95 > 0.92, else 1). -/
def fitToneCurve (ref : ImageData) : ToneCurveParams :=
  let Ls := refLs ref
  let m := Ls.length
  let Lsorted := sortAsc Ls
  let p95 := Lsorted.getD (Nat.floor ((m : ℝ) * 0.95)) 0.95
  let maxL : ℝ := if 0.92 < p95 then 0.95 else 1
  let Lout := (List.range toneAnchors.length).map (fun k =>
    let idx := Nat.floor (tonePercentiles.getD k 0.5 * (m : ℝ))
    let v := Lsorted.getD (min idx (m - 1)) (toneAnchors.getD k 0)
    min v maxL)
  { L_in := toneAnchors, L_out := Lout }

/-! Heuristics adapter (heuristicsAdapter.ts) and its data model. -/

/-- UI-facing match parameter set (LookParamsMatch in look-params.ts). -/
structure LookParamsMatch where
  lumaStrength : ℝ
  colorStrength : ℝ
  colorDensity : ℝ
  exposureStrength : ℝ
  blackStrength : ℝ
  blackRange : ℝ
  blackPoint : Option ℝ
  bandLowerShadow : ℝ
  bandUpperShadow : ℝ
  bandMid : ℝ
  bandLowerHigh : ℝ
  bandUpperHigh : ℝ
  bandLowerShadowHue : ℝ
  bandUpperShadowHue : ℝ
  bandMidHue : ℝ
  bandLowerHighHue : ℝ
  bandUpperHighHue : ℝ
  bandLowerShadowSat : ℝ
  bandUpperShadowSat : ℝ
  bandMidSat : ℝ
  bandLowerHighSat : ℝ
  bandUpperHighSat : ℝ
  bandLowerShadowLuma : ℝ
  bandUpperShadowLuma : ℝ
  bandMidLuma : ℝ
  bandLowerHighLuma : ℝ
  bandUpperHighLuma : ℝ
  highlightFillStrength : ℝ
  highlightFillWarmth : Option ℝ

/-- Mean delta and sample count for one learned bucket. -/
structure LearnedHeuristicsBucket where
  meanDelta : ℝ
  count : ℝ

/-- Learned heuristics for one match parameter. -/
structure ParamHeuristics where
  global : Option LearnedHeuristicsBucket
  buckets : List (String × LearnedHeuristicsBucket)

/-- Learned heuristics table: match parameter name to its bucket data. -/
def LearnedHeuristics := List (String × ParamHeuristics)

/-- Context buckets/scores used by the heuristics adapter. -/
structure MatchContext where
  sourceExposureBucket : Option String
  sourceExposureScore : Option ℝ
  sourceTypeBucket : Option String
  refExposureBucket : Option String
  refExposureScore : Option ℝ
  refColorBucket : Option String

/-- clamp helper of heuristicsAdapter.ts. -/
def clampValue (value lo hi : ℝ) : ℝ :=
  if value < lo then lo else if hi < value then hi else value

/-- Clamp a numeric match parameter into its declared range (clampMatchParam). -/
def clampMatchParam (key : String) (value : ℝ) : ℝ :=
  if key = "lumaStrength" ∨ key = "colorStrength" ∨ key = "exposureStrength" then
    clampValue value 0 2
  else if key = "colorDensity" then clampValue value 0.1 3
  else if key = "blackStrength" then clampValue value 0 8
  else if key = "blackRange" then clampValue value 0 1
  else if key = "blackPoint" then clampValue value 0 0.6
  else if key = "bandLowerShadow" ∨ key = "bandUpperShadow" ∨ key = "bandMid" ∨
      key = "bandLowerHigh" ∨ key = "bandUpperHigh" then clampValue value 0 3
  else if key = "bandLowerShadowHue" ∨ key = "bandUpperShadowHue" ∨
      key = "bandMidHue" ∨ key = "bandLowerHighHue" ∨ key = "bandUpperHighHue" then
    clampValue value (-1) 1
  else if key = "bandLowerShadowSat" ∨ key = "bandUpperShadowSat" ∨
      key = "bandMidSat" ∨ key = "bandLowerHighSat" ∨ key = "bandUpperHighSat" then
    clampValue value 0 2
  else if key = "bandLowerShadowLuma" ∨ key = "bandUpperShadowLuma" ∨
      key = "bandMidLuma" ∨ key = "bandLowerHighLuma" ∨ key = "bandUpperHighLuma" then
    clampValue value (-0.5) 0.5
  else if key = "highlightFillStrength" then clampValue value 0 1
  else if key = "highlightFillWarmth" then clampValue value (-1) 1
  else value

/-- Count-based regularisation factor count/(count+3), 0 for count <= 0. -/
def regulariseCount (count : ℝ) : ℝ :=
  if count ≤ 0 then 0 else count / (count + 3)

/-- Gaussian soft weight. -/
def gaussianWeight (score center sigma : ℝ) : ℝ :=
  Real.exp (-0.5 * ((score - center) / sigma) ^ 2)

/-- Exposure-axis centers for source buckets (all other bucket names map to 0). -/
def SOURCE_EXPOSURE_CENTERS (b : String) : ℝ :=
  if b = "exposure:under" then -1 else if b = "exposure:over" then 1 else 0

/-- Exposure-axis centers for reference buckets. -/
def REF_EXPOSURE_CENTERS (b : String) : ℝ :=
  if b = "ref_exposure:under" then -1 else if b = "ref_exposure:over" then 1 else 0

/-- Bucket list of the source-exposure axis. -/
def SOURCE_EXPOSURE_BUCKETS : List String :=
  ["exposure:under", "exposure:normal", "exposure:over"]

/-- Bucket list of the reference-exposure axis. -/
def REF_EXPOSURE_BUCKETS : List String :=
  ["ref_exposure:under", "ref_exposure:normal", "ref_exposure:over"]

/-- Hard one-hot fallback bucket, or uniform weights when none applies. -/
def hardOrUniform (buckets : List String) (fallback : Option String) :
    List (String × ℝ) :=
  match fallback with
  | some fb =>
    if buckets.contains fb then [(fb, 1)]
    else buckets.map (fun b => (b, 1 / (buckets.length : ℝ)))
  | none => buckets.map (fun b => (b, 1 / (buckets.length : ℝ)))

/-- Soft weights over exposure buckets for a given score (buildExposureWeights). -/
def buildExposureWeights (score : Option ℝ) (centers : String → ℝ)
    (buckets : List String) (fallback : Option String) : List (String × ℝ) :=
  match score with
  | none => hardOrUniform buckets fallback
  | some sc =>
    let raw := buckets.map (fun b => gaussianWeight sc (centers b) 0.7)
    let sum := raw.sum
    if sum < 1e-6 then hardOrUniform buckets fallback
    else buckets.zip (raw.map (· / sum))

/-- Bucket lookup in a parameter's learned table. -/
def bucketLookup (ph : ParamHeuristics) (name : String) :
    Option LearnedHeuristicsBucket :=
  ph.buckets.lookup name

/-- Total learned delta added onto one match parameter: global delta plus the
soft-weighted exposure axes plus the categorical buckets, each regularised. -/
def heuristicsDelta (ph : ParamHeuristics) (ctx : MatchContext) : ℝ :=
  let globalDelta :=
    match ph.global with
    | some g => g.meanDelta * regulariseCount g.count
    | none => 0
  let globalMeanForBuckets :=
    match ph.global with
    | some g => g.meanDelta
    | none => 0
  let axis := fun (weights : List (String × ℝ)) =>
    (weights.map (fun bw =>
      if bw.2 ≤ 0 then 0 else
        match bucketLookup ph bw.1 with
        | some bucket =>
          bw.2 * ((bucket.meanDelta - globalMeanForBuckets) * regulariseCount bucket.count)
        | none => 0)).sum
  let d1 :=
    if ctx.sourceExposureBucket.isSome ∨ ctx.sourceExposureScore.isSome then
      axis (buildExposureWeights ctx.sourceExposureScore SOURCE_EXPOSURE_CENTERS
        SOURCE_EXPOSURE_BUCKETS ctx.sourceExposureBucket)
    else 0
  let d2 :=
    if ctx.refExposureBucket.isSome ∨ ctx.refExposureScore.isSome then
      axis (buildExposureWeights ctx.refExposureScore REF_EXPOSURE_CENTERS
        REF_EXPOSURE_BUCKETS ctx.refExposureBucket)
    else 0
  let d3 :=
    match ctx.sourceTypeBucket with
    | some tb =>
      match bucketLookup ph tb with
      | some bucket =>
        (bucket.meanDelta - globalMeanForBuckets) * regulariseCount bucket.count
      | none => 0
    | none => 0
  let d4 :=
    match ctx.refColorBucket with
    | some cb =>
      match bucketLookup ph cb with
      | some bucket =>
        (bucket.meanDelta - globalMeanForBuckets) * regulariseCount bucket.count
      | none => 0
    | none => 0
  globalDelta + d1 + d2 + d3 + d4

/-- Adjustment of a single numeric match parameter: keys missing from the
learned table are left untouched (the loop's continue). -/
def adjustMatchParam (heuristics : LearnedHeuristics) (ctx : MatchContext)
    (key : String) (baseVal : ℝ) : ℝ :=
  match List.lookup key heuristics with
  | none => baseVal
  | some ph => clampMatchParam key (baseVal + heuristicsDelta ph ctx)

/-- Apply learned heuristics to a base match parameter set
(applyHeuristicsToMatch).  A null table is a no-op; otherwise every numeric
field present is adjusted through adjustMatchParam. -/
def applyHeuristicsToMatch (baseMatch : LookParamsMatch)
    (heuristics : Option LearnedHeuristics) (ctx : MatchContext) :
    LookParamsMatch :=
  match heuristics with
  | none => baseMatch
  | some h =>
    let adj := adjustMatchParam h ctx
    { lumaStrength := adj "lumaStrength" baseMatch.lumaStrength
      colorStrength := adj "colorStrength" baseMatch.colorStrength
      colorDensity := adj "colorDensity" baseMatch.colorDensity
      exposureStrength := adj "exposureStrength" baseMatch.exposureStrength
      blackStrength := adj "blackStrength" baseMatch.blackStrength
      blackRange := adj "blackRange" baseMatch.blackRange
      blackPoint := baseMatch.blackPoint.map (adj "blackPoint")
      bandLowerShadow := adj "bandLowerShadow" baseMatch.bandLowerShadow
      bandUpperShadow := adj "bandUpperShadow" baseMatch.bandUpperShadow
      bandMid := adj "bandMid" baseMatch.bandMid
      bandLowerHigh := adj "bandLowerHigh" baseMatch.bandLowerHigh
      bandUpperHigh := adj "bandUpperHigh" baseMatch.bandUpperHigh
      bandLowerShadowHue := adj "bandLowerShadowHue" baseMatch.bandLowerShadowHue
      bandUpperShadowHue := adj "bandUpperShadowHue" baseMatch.bandUpperShadowHue
      bandMidHue := adj "bandMidHue" baseMatch.bandMidHue
      bandLowerHighHue := adj "bandLowerHighHue" baseMatch.bandLowerHighHue
      bandUpperHighHue := adj "bandUpperHighHue" baseMatch.bandUpperHighHue
      bandLowerShadowSat := adj "bandLowerShadowSat" baseMatch.bandLowerShadowSat
      bandUpperShadowSat := adj "bandUpperShadowSat" baseMatch.bandUpperShadowSat
      bandMidSat := adj "bandMidSat" baseMatch.bandMidSat
      bandLowerHighSat := adj "bandLowerHighSat" baseMatch.bandLowerHighSat
      bandUpperHighSat := adj "bandUpperHighSat" baseMatch.bandUpperHighSat
      bandLowerShadowLuma := adj "bandLowerShadowLuma" baseMatch.bandLowerShadowLuma
      bandUpperShadowLuma := adj "bandUpperShadowLuma" baseMatch.bandUpperShadowLuma
      bandMidLuma := adj "bandMidLuma" baseMatch.bandMidLuma
      bandLowerHighLuma := adj "bandLowerHighLuma" baseMatch.bandLowerHighLuma
      bandUpperHighLuma := adj "bandUpperHighLuma" baseMatch.bandUpperHighLuma
      highlightFillStrength := adj "highlightFillStrength" baseMatch.highlightFillStrength
      highlightFillWarmth := baseMatch.highlightFillWarmth.map (adj "highlightFillWarmth") }

/-! Halation stage (halation.ts). -/

/-- Row-major RGBA frame, same layout as ImageData. -/
structure PixelFrameRGBA where
  width : ℕ
  height : ℕ
  data : ℕ → ℕ

/-- Parameters handed to pipeline stages; halation only reads
grading?.highlightFill. -/
structure PipelineParams where
  strength : Option ℝ
  grading : Option LookParams

/-- Percentile from an (ascending-sorted) value list (percentileFromSorted). -/
def percentileFromSorted (vals : List ℝ) (p : ℝ) : ℝ :=
  if vals.length = 0 then 1
  else
    let idx := Nat.floor (max 0 (min 1 p) * ((vals.length : ℝ) - 1))
    (sortAsc vals).getD idx ((sortAsc vals).getD (vals.length - 1) 1)

/-- Result of the box downscale. -/
structure Downscaled where
  L : ℕ → ℝ
  mask : ℕ → Bool
  w : ℕ
  h : ℕ

/-- Box downscale of an L/mask grid by a bounded integer factor (downscaleL). -/
def downscaleL (L : ℕ → ℝ) (mask : ℕ → Bool) (width height : ℕ) : Downscaled :=
  let scale := max 1 (min 4 (min (width / 64) (height / 64)))
  let w := max 1 (width / scale)
  let h := max 1 (height / scale)
  let cnt : ℕ → ℕ → ℕ := fun dy dx =>
    ∑ yy ∈ Finset.range scale, ∑ xx ∈ Finset.range scale,
      if dy * scale + yy < height ∧ dx * scale + xx < width ∧
          mask ((dy * scale + yy) * width + (dx * scale + xx)) then 1 else 0
  let sm : ℕ → ℕ → ℝ := fun dy dx =>
    ∑ yy ∈ Finset.range scale, ∑ xx ∈ Finset.range scale,
      if dy * scale + yy < height ∧ dx * scale + xx < width ∧
          mask ((dy * scale + yy) * width + (dx * scale + xx)) then
        L ((dy * scale + yy) * width + (dx * scale + xx))
      else 0
  { L := fun i => if 0 < cnt (i / w) (i % w) then sm (i / w) (i % w) / cnt (i / w) (i % w) else 0
    mask := fun i => 0 < cnt (i / w) (i % w)
    w := w
    h := h }

/-- Local variance (k x k window) on a grid restricted to mask (localVariance). -/
def localVariance (L : ℕ → ℝ) (mask : ℕ → Bool) (width height : ℕ) (k : ℕ) :
    ℕ → ℝ :=
  let half := (k - 1) / 2
  fun idx =>
    let y := idx / width
    let x := idx % width
    let nidx : ℕ → ℕ → ℕ := fun dy dx =>
      min (height - 1) (y + dy - half) * width + min (width - 1) (x + dx - half)
    let n : ℕ := ∑ dy ∈ Finset.range k, ∑ dx ∈ Finset.range k,
      if mask (nidx dy dx) then 1 else 0
    let sum := ∑ dy ∈ Finset.range k, ∑ dx ∈ Finset.range k,
      if mask (nidx dy dx) then L (nidx dy dx) else 0
    let sumSq := ∑ dy ∈ Finset.range k, ∑ dx ∈ Finset.range k,
      if mask (nidx dy dx) then L (nidx dy dx) * L (nidx dy dx) else 0
    if 1 < n then max 0 (sumSq / n - (sum / n) * (sum / n)) else 0

/-- Bilinear upsample of a float grid from (sw, sh) to (width, height).  Grid
reads are `src[...] ?? 0` in the source, modelled by the rd guard. -/
def upsampleBilinear (src : ℕ → ℝ) (sw sh width height : ℕ) : ℕ → ℝ :=
  fun i =>
    let rd : ℕ → ℝ := fun j => if j < sw * sh then src j else 0
    let y := i / width
    let x := i % width
    let fx : ℝ := if 1 < sw then ((width : ℝ) - 1) / ((sw : ℝ) - 1) else 0
    let fy : ℝ := if 1 < sh then ((height : ℝ) - 1) / ((sh : ℝ) - 1) else 0
    let sx : ℝ := if 1 < sw then (x : ℝ) / fx else 0
    let sy : ℝ := if 1 < sh then (y : ℝ) / fy else 0
    let x0 := Nat.floor sx
    let y0 := Nat.floor sy
    let x1 := min (sw - 1) (x0 + 1)
    let y1 := min (sh - 1) (y0 + 1)
    let tx := sx - x0
    let ty := sy - y0
    rd (y0 * sw + x0) * (1 - tx) * (1 - ty) + rd (y0 * sw + x1) * tx * (1 - ty) +
      rd (y1 * sw + x0) * (1 - tx) * ty + rd (y1 * sw + x1) * tx * ty

/-- Downscaled L/mask grids used by the halation stage for a frame. -/
def halationDown (frame : PixelFrameRGBA) : Downscaled :=
  downscaleL
    (fun pix => if 128 ≤ frame.data (4 * pix + 3) then pixelL frame.data pix else 0)
    (fun pix => 128 ≤ frame.data (4 * pix + 3)) frame.width frame.height

/-- Highlight threshold of the halation stage: max(0.85, p95 of downscaled L
over downscaled-mask cells). -/
def halationThreshold (frame : PixelFrameRGBA) : ℝ :=
  let dsc := halationDown frame
  let masked := ((List.range (dsc.w * dsc.h)).filter (fun i => dsc.mask i)).map dsc.L
  max 0.85 (percentileFromSorted masked 0.95)

/-- Halation stage (halation in halation.ts): highlight bloom gated by the
brightness percentile and local texture variance. -/
def halation (frame : PixelFrameRGBA) (params : PipelineParams) : PixelFrameRGBA :=
  match params.grading with
  | none => frame
  | some g =>
    match g.highlightFill with
    | none => frame
    | some hf =>
      if hf.strength ≤ 0 then frame
      else
        let nPix := frame.width * frame.height
        let strength := max 0 (min 1 hf.strength)
        let warmth := max (-1) (min 1 (hf.warmth.getD 0))
        let mask : ℕ → Bool := fun pix => 128 ≤ frame.data (4 * pix + 3)
        let Lf : ℕ → ℝ := fun pix => if mask pix then (pixelLab ⟨frame.width, frame.height, frame.data⟩ pix).L else 0
        let af : ℕ → ℝ := fun pix => if mask pix then (pixelLab ⟨frame.width, frame.height, frame.data⟩ pix).a else 0
        let bf : ℕ → ℝ := fun pix => if mask pix then (pixelLab ⟨frame.width, frame.height, frame.data⟩ pix).b else 0
        let dsc := halationDown frame
        let L_hi := halationThreshold frame
        let varianceDown := localVariance dsc.L dsc.mask dsc.w dsc.h 3
        let maxVar := ((List.range (dsc.w * dsc.h)).filter
          (fun i => dsc.mask i ∧ L_hi ≤ dsc.L i)).foldr
            (fun i acc => max (varianceDown i) acc) 0
        let varScale := if 1e-6 < maxVar then 1 / maxVar else 0
        let weightDown : ℕ → ℝ := fun i =>
          if ¬ dsc.mask i ∨ dsc.L i ≤ L_hi then 0
          else 0.3 + (1 - 0.3) * min 1 (varianceDown i * varScale)
        let weightFull := upsampleBilinear weightDown dsc.w dsc.h frame.width frame.height
        { width := frame.width
          height := frame.height
          data := fun i =>
            if i < 4 * nPix then
              let pix := i / 4
              let c := i % 4
              if c = 3 then frame.data i
              else if ¬ mask pix then frame.data i
              else
                let effectW := min 1 (strength * weightFull pix)
                if effectW ≤ 1e-6 then frame.data i
                else
                  let Lp0 := Lf pix + effectW * 0.04
                  let ap0 := af pix + effectW * warmth * 0.02
                  let bp0 := bf pix + effectW * warmth * 0.025
                  let C := Real.sqrt (ap0 * ap0 + bp0 * bp0)
                  let ratio := if 1e-6 < C then C * (1 - effectW * 0.4) / C else 1
                  let ap := ap0 * ratio
                  let bp := bp0 * ratio
                  let Lp := max 0 (min 1 Lp0)
                  let rgb := oklabToSrgb8 Lp ap bp
                  (if c = 0 then max 0 (min 255 rgb.r)
                   else if c = 1 then max 0 (min 255 rgb.g)
                   else max 0 (min 255 rgb.b)).toNat
            else 0 }

/-! Concrete inputs used to instantiate and refute claims. -/

/-- A 1x1 fully opaque black image. -/
def blackImage1 : ImageData := ⟨1, 1, fun i => if i = 3 then 255 else 0⟩

/-- A 1x1 fully transparent image with nonzero RGB bytes. -/
def transparentImage1 : ImageData :=
  ⟨1, 1, fun i => if i = 0 then 7 else if i = 1 then 20 else if i = 2 then 30 else 0⟩

/-- A 1x1 fully opaque white image. -/
def whiteImage1 : ImageData := ⟨1, 1, fun _ => 255⟩

/-- Neutral params with a constant tone curve at 0.3, lumaStrength 0 and
exposure matching disabled (probe of stage A3). -/
def C3params : LookParams := { defaultLookParams with
  toneCurve := some ⟨[0, 1], [0.3, 0.3]⟩
  lumaStrength := some 0
  exposureStrength := some 0
  blackStrength := some 0 }

/-- Neutral params with exposure and black matching disabled. -/
def identityParams : LookParams := { defaultLookParams with
  exposureStrength := some 0
  blackStrength := some 0 }

/-- Params driving stage A4 hard toward a deep black while carrying a raw
refBlackL above the engine's 0.2 cap (probe of the black-alignment bound). -/
def C4params : LookParams := { defaultLookParams with
  toneCurve := some ⟨[0, 1], [0.5, 0.5]⟩
  exposureStrength := some 0
  refBlackL := some 0.5
  blackStrength := some 8 }

/-- Pipeline params enabling halation at strength 1. -/
def C8params : PipelineParams :=
  ⟨none, some { defaultLookParams with highlightFill := some ⟨1, none⟩ }⟩

/-- The 1x1 opaque black frame for the halation probe. -/
def blackFrame1 : PixelFrameRGBA := ⟨1, 1, fun i => if i = 3 then 255 else 0⟩

/-! Theorems: shared helper lemmas, then the claim theorems. -/

theorem cbrt_of_nonneg {x : ℝ} (h : 0 ≤ x) : cbrt x = x ^ ((1 : ℝ) / 3) := by
  simp [cbrt, not_lt.mpr h]

theorem cbrt_zero : cbrt 0 = 0 := by
  rw [cbrt_of_nonneg le_rfl]
  exact Real.zero_rpow (by norm_num)

theorem cbrt_one : cbrt 1 = 1 := by
  rw [cbrt_of_nonneg zero_le_one]
  exact Real.one_rpow _

theorem srgb8ToLinear_zero : srgb8ToLinear 0 = 0 := by
  simp [srgb8ToLinear]
  norm_num

theorem srgb8ToOklab_zero : srgb8ToOklab 0 0 0 = ⟨0, 0, 0⟩ := by
  simp [srgb8ToOklab, srgb8ToLinear_zero, cbrt_zero]

theorem clamp_mem {lo hi : ℝ} (x : ℝ) (h : lo ≤ hi) :
    lo ≤ max lo (min hi x) ∧ max lo (min hi x) ≤ hi :=
  ⟨le_max_left _ _, max_le h (min_le_left _ _)⟩

/-- C7: for every base match parameter set and context, applying the
heuristics adapter with an absent (null/undefined) or empty learned table
returns the base match parameters unchanged, field for field. -/
theorem C7_heuristics_noop (base : LookParamsMatch) (ctx : MatchContext) :
    applyHeuristicsToMatch base none ctx = base ∧
    applyHeuristicsToMatch base (some []) ctx = base := by
  refine ⟨rfl, ?_⟩
  obtain ⟨l, c, d, e, bs, br, bp, b1, b2, b3, b4, b5, h1, h2, h3, h4, h5,
    s1, s2, s3, s4, s5, u1, u2, u3, u4, u5, hf, hw⟩ := base
  simp only [applyHeuristicsToMatch, adjustMatchParam, List.lookup_nil]
  cases bp <;> cases hw <;> rfl

/-- C5 counterexample: the claim says applyLook clamps colorDensity into
[0.1, 3] before use, but the stage-B chroma scale uses the raw value: with
colorDensity = 100 and neutral remaining params the multiplier applied to the
source chroma is exactly 100. -/
theorem C5_counterexample :
    stageBScale { defaultLookParams with colorDensity := some 100 } 0.5 0.1 = 100 ∧
    ¬ stageBScale { defaultLookParams with colorDensity := some 100 } 0.5 0.1 ≤ 3 := by
  have h : stageBScale { defaultLookParams with colorDensity := some 100 } 0.5 0.1 = 100 := by
    simp only [stageBScale, defaultLookParams, satScale, colorDensityScale]
    norm_num
  exact ⟨h, by rw [h]; norm_num⟩

/-- C5 amended: the clamps applyLook actually performs before use:
lumaStrength, colorStrength and exposureStrength into [0, 2], blackStrength
into [0, 8], refMidL into [0, 1], refBlackL into [0, 0.2], the black-pull
ceiling derived from blackRange into [0.1, 0.95] (hence within [0, 1]), the
aggregated hue override into plus-minus 30 degrees, the aggregated saturation
multiplier into [0.2, 2.5], and the aggregated luma offset into
plus-minus 0.2.  colorDensity and the per-band strengths are used unclamped. -/
theorem C5_clamp_amended (p : LookParams) (hueControl satControl lumaControl : ℝ) :
    (0 ≤ lumaSOf p ∧ lumaSOf p ≤ 2) ∧
    (0 ≤ colorSOf p ∧ colorSOf p ≤ 2) ∧
    (0 ≤ clampedExposureStrength p ∧ clampedExposureStrength p ≤ 2) ∧
    (0 ≤ clampedBlackStrength p ∧ clampedBlackStrength p ≤ 8) ∧
    (0 ≤ clampedRefMidL p ∧ clampedRefMidL p ≤ 1) ∧
    (0 ≤ clampedRefBlack p ∧ clampedRefBlack p ≤ 0.2) ∧
    (0 ≤ baseShadowCeilingOf (p.blackRange.getD 0.6) ∧
      baseShadowCeilingOf (p.blackRange.getD 0.6) ≤ 1) ∧
    |hueThetaOf hueControl| ≤ Real.pi / 6 ∧
    (0.2 ≤ satMulOf satControl ∧ satMulOf satControl ≤ 2.5) ∧
    |lumaOffsetOf lumaControl| ≤ 0.2 := by
  refine ⟨clamp_mem _ (by norm_num), clamp_mem _ (by norm_num),
    clamp_mem _ (by norm_num), clamp_mem _ (by norm_num),
    clamp_mem _ (by norm_num), clamp_mem _ (by norm_num), ?_, ?_, ?_, ?_⟩
  · have h := clamp_mem (p.blackRange.getD 0.6) (by norm_num : (0.1:ℝ) ≤ 0.95)
    rw [baseShadowCeilingOf]
    exact ⟨by linarith [h.1], by linarith [h.2]⟩
  · rw [hueThetaOf, abs_mul]
    have h1 : |max (-1) (min 1 hueControl)| ≤ 1 := by
      rw [abs_le]
      constructor
      · exact le_max_left _ _
      · exact max_le (by norm_num) (min_le_left _ _)
    have h2 : |Real.pi / 180 * 30| = Real.pi / 6 := by
      rw [abs_of_nonneg (by positivity)]
      ring
    rw [h2]
    calc |max (-1) (min 1 hueControl)| * (Real.pi / 6)
        ≤ 1 * (Real.pi / 6) := by
          exact mul_le_mul_of_nonneg_right h1 (by positivity)
      _ = Real.pi / 6 := one_mul _
  · exact clamp_mem _ (by norm_num)
  · rw [lumaOffsetOf, abs_le]
    constructor
    · exact le_max_left _ _
    · exact max_le (by norm_num) (min_le_left _ _)

/-! Claim C9: triangular band weights. -/

theorem ite_pos_eq_max (t : ℝ) : (if 0 < t then t else 0) = max 0 t := by
  rcases lt_or_le 0 t with h | h
  · rw [if_pos h, max_eq_right h.le]
  · rw [if_neg (not_lt.mpr h), max_eq_left h]

theorem bandWidth0 : max (1e-3 : ℝ) (max (0.08 - 0) (0.25 - 0.08)) = 0.17 := by
  rw [max_eq_right (show (0.08 : ℝ) - 0 ≤ 0.25 - 0.08 by norm_num),
    max_eq_right (show (1e-3 : ℝ) ≤ 0.25 - 0.08 by norm_num)]
  norm_num

theorem bandWidth1 : max (1e-3 : ℝ) (max (0.25 - 0.08) (0.5 - 0.25)) = 0.25 := by
  rw [max_eq_right (show (0.25 : ℝ) - 0.08 ≤ 0.5 - 0.25 by norm_num),
    max_eq_right (show (1e-3 : ℝ) ≤ 0.5 - 0.25 by norm_num)]
  norm_num

theorem bandWidth2 : max (1e-3 : ℝ) (max (0.5 - 0.25) (0.7 - 0.5)) = 0.25 := by
  rw [max_eq_left (show (0.7 : ℝ) - 0.5 ≤ 0.5 - 0.25 by norm_num),
    max_eq_right (show (1e-3 : ℝ) ≤ 0.5 - 0.25 by norm_num)]
  norm_num

theorem bandWidth3 : max (1e-3 : ℝ) (max (0.7 - 0.5) (0.9 - 0.7)) = 0.2 := by
  rw [max_eq_right (show (0.7 : ℝ) - 0.5 ≤ 0.9 - 0.7 by norm_num),
    max_eq_right (show (1e-3 : ℝ) ≤ 0.9 - 0.7 by norm_num)]
  norm_num

theorem bandWidth4 : max (1e-3 : ℝ) (max (0.9 - 0.7) (1 - 0.9)) = 0.2 := by
  rw [max_eq_left (show (1 : ℝ) - 0.9 ≤ 0.9 - 0.7 by norm_num),
    max_eq_right (show (1e-3 : ℝ) ≤ 0.9 - 0.7 by norm_num)]
  norm_num

theorem bandWeightRaw0 (L : ℝ) : bandWeightRaw L 0 = max 0 (1 - |L - 0.08| / 0.17) := by
  simp only [bandWeightRaw, COLOR_BAND_ANCHORS, List.getD_cons_zero, List.getD_cons_succ,
    ite_pos_eq_max]
  norm_num [bandWidth0]

theorem bandWeightRaw1 (L : ℝ) : bandWeightRaw L 1 = max 0 (1 - |L - 0.25| / 0.25) := by
  simp only [bandWeightRaw, COLOR_BAND_ANCHORS, List.getD_cons_zero, List.getD_cons_succ,
    ite_pos_eq_max]
  norm_num [bandWidth1]

theorem bandWeightRaw2 (L : ℝ) : bandWeightRaw L 2 = max 0 (1 - |L - 0.5| / 0.25) := by
  simp only [bandWeightRaw, COLOR_BAND_ANCHORS, List.getD_cons_zero, List.getD_cons_succ,
    ite_pos_eq_max]
  norm_num [bandWidth2]

theorem bandWeightRaw3 (L : ℝ) : bandWeightRaw L 3 = max 0 (1 - |L - 0.7| / 0.2) := by
  simp only [bandWeightRaw, COLOR_BAND_ANCHORS, List.getD_cons_zero, List.getD_cons_succ,
    ite_pos_eq_max]
  norm_num [bandWidth3]

theorem bandWeightRaw4 (L : ℝ) : bandWeightRaw L 4 = max 0 (1 - |L - 0.9| / 0.2) := by
  simp only [bandWeightRaw, COLOR_BAND_ANCHORS, List.getD_cons_zero, List.getD_cons_succ,
    ite_pos_eq_max]
  norm_num [bandWidth4]

theorem bandWeightRaw_nonneg (L : ℝ) (k : ℕ) : 0 ≤ bandWeightRaw L k := by
  simp only [bandWeightRaw, ite_pos_eq_max]
  exact le_max_left _ _

/-- C9: for every L in [0, 1], the five triangular band weights over the fixed
anchors 0.08/0.25/0.5/0.7/0.9 are each nonnegative, and they sum to 1 within
1e-6 (in fact exactly). -/
theorem C9_bandWeights (L : ℝ) (h0 : 0 ≤ L) (h1 : L ≤ 1) :
    (∀ w ∈ bandWeights L, 0 ≤ w) ∧ |(bandWeights L).sum - 1| ≤ 1e-6 := by
  have hlist : (List.range 5).map (bandWeightRaw L) =
      [bandWeightRaw L 0, bandWeightRaw L 1, bandWeightRaw L 2,
        bandWeightRaw L 3, bandWeightRaw L 4] := rfl
  have n0 := bandWeightRaw_nonneg L 0
  have n1 := bandWeightRaw_nonneg L 1
  have n2 := bandWeightRaw_nonneg L 2
  have n3 := bandWeightRaw_nonneg L 3
  have n4 := bandWeightRaw_nonneg L 4
  have hsum : ((List.range 5).map (bandWeightRaw L)).sum =
      bandWeightRaw L 0 + bandWeightRaw L 1 + bandWeightRaw L 2 +
        bandWeightRaw L 3 + bandWeightRaw L 4 := by
    rw [hlist]
    simp [List.sum_cons]
    ring
  have hs : 1e-6 < bandWeightRaw L 0 + bandWeightRaw L 1 + bandWeightRaw L 2 +
      bandWeightRaw L 3 + bandWeightRaw L 4 := by
    rcases le_or_lt L 0.08 with hc | hc
    · have e0 : |L - 0.08| = -(L - 0.08) := abs_of_nonpos (by linarith)
      have b0 : 1 - -(L - 0.08) / 0.17 ≤ bandWeightRaw L 0 := by
        rw [bandWeightRaw0, e0]; exact le_max_right _ _
      norm_num at b0 ⊢
      linarith
    rcases le_or_lt L 0.25 with hc2 | hc2
    · have e0 : |L - 0.08| = L - 0.08 := abs_of_nonneg (by linarith)
      have e1 : |L - 0.25| = -(L - 0.25) := abs_of_nonpos (by linarith)
      have b0 : 1 - (L - 0.08) / 0.17 ≤ bandWeightRaw L 0 := by
        rw [bandWeightRaw0, e0]; exact le_max_right _ _
      have b1 : 1 - -(L - 0.25) / 0.25 ≤ bandWeightRaw L 1 := by
        rw [bandWeightRaw1, e1]; exact le_max_right _ _
      norm_num at b0 b1 ⊢
      linarith
    rcases le_or_lt L 0.5 with hc3 | hc3
    · have e1 : |L - 0.25| = L - 0.25 := abs_of_nonneg (by linarith)
      have e2 : |L - 0.5| = -(L - 0.5) := abs_of_nonpos (by linarith)
      have b1 : 1 - (L - 0.25) / 0.25 ≤ bandWeightRaw L 1 := by
        rw [bandWeightRaw1, e1]; exact le_max_right _ _
      have b2 : 1 - -(L - 0.5) / 0.25 ≤ bandWeightRaw L 2 := by
        rw [bandWeightRaw2, e2]; exact le_max_right _ _
      norm_num at b1 b2 ⊢
      linarith
    rcases le_or_lt L 0.7 with hc4 | hc4
    · have e2 : |L - 0.5| = L - 0.5 := abs_of_nonneg (by linarith)
      have e3 : |L - 0.7| = -(L - 0.7) := abs_of_nonpos (by linarith)
      have b2 : 1 - (L - 0.5) / 0.25 ≤ bandWeightRaw L 2 := by
        rw [bandWeightRaw2, e2]; exact le_max_right _ _
      have b3 : 1 - -(L - 0.7) / 0.2 ≤ bandWeightRaw L 3 := by
        rw [bandWeightRaw3, e3]; exact le_max_right _ _
      norm_num at b2 b3 ⊢
      linarith
    rcases le_or_lt L 0.9 with hc5 | hc5
    · have e3 : |L - 0.7| = L - 0.7 := abs_of_nonneg (by linarith)
      have e4 : |L - 0.9| = -(L - 0.9) := abs_of_nonpos (by linarith)
      have b3 : 1 - (L - 0.7) / 0.2 ≤ bandWeightRaw L 3 := by
        rw [bandWeightRaw3, e3]; exact le_max_right _ _
      have b4 : 1 - -(L - 0.9) / 0.2 ≤ bandWeightRaw L 4 := by
        rw [bandWeightRaw4, e4]; exact le_max_right _ _
      norm_num at b3 b4 ⊢
      linarith
    · have e4 : |L - 0.9| = L - 0.9 := abs_of_nonneg (by linarith)
      have b4 : 1 - (L - 0.9) / 0.2 ≤ bandWeightRaw L 4 := by
        rw [bandWeightRaw4, e4]; exact le_max_right _ _
      norm_num at b4 ⊢
      linarith
  have hspos : (0 : ℝ) < bandWeightRaw L 0 + bandWeightRaw L 1 + bandWeightRaw L 2 +
      bandWeightRaw L 3 + bandWeightRaw L 4 := by linarith
  have hbw : bandWeights L =
      ((List.range 5).map (bandWeightRaw L)).map
        (· / (bandWeightRaw L 0 + bandWeightRaw L 1 + bandWeightRaw L 2 +
          bandWeightRaw L 3 + bandWeightRaw L 4)) := by
    simp only [bandWeights]
    rw [hsum, if_pos hs]
  constructor
  · intro w hw
    rw [hbw, hlist] at hw
    simp only [List.map_cons, List.map_nil, List.mem_cons, List.not_mem_nil, or_false] at hw
    rcases hw with h | h | h | h | h <;> rw [h] <;>
      exact div_nonneg (by assumption) hspos.le
  · rw [hbw, hlist]
    simp only [List.map_cons, List.map_nil, List.sum_cons, List.sum_nil]
    have : bandWeightRaw L 0 / (bandWeightRaw L 0 + bandWeightRaw L 1 + bandWeightRaw L 2 +
        bandWeightRaw L 3 + bandWeightRaw L 4) +
        (bandWeightRaw L 1 / (bandWeightRaw L 0 + bandWeightRaw L 1 + bandWeightRaw L 2 +
          bandWeightRaw L 3 + bandWeightRaw L 4) +
        (bandWeightRaw L 2 / (bandWeightRaw L 0 + bandWeightRaw L 1 + bandWeightRaw L 2 +
          bandWeightRaw L 3 + bandWeightRaw L 4) +
        (bandWeightRaw L 3 / (bandWeightRaw L 0 + bandWeightRaw L 1 + bandWeightRaw L 2 +
          bandWeightRaw L 3 + bandWeightRaw L 4) +
        (bandWeightRaw L 4 / (bandWeightRaw L 0 + bandWeightRaw L 1 + bandWeightRaw L 2 +
          bandWeightRaw L 3 + bandWeightRaw L 4) + 0)))) = 1 := by
      field_simp
      ring
    rw [this]
    norm_num

/-- Witness for C9 at L = 1/2. -/
theorem C9_bandWeights_witness :
    (0 : ℝ) ≤ 1/2 ∧ (1/2 : ℝ) ≤ 1 ∧
    ((∀ w ∈ bandWeights (1/2), 0 ≤ w) ∧ |(bandWeights (1/2)).sum - 1| ≤ 1e-6) :=
  ⟨by norm_num, by norm_num, C9_bandWeights (1/2) (by norm_num) (by norm_num)⟩

/-! Claim C3: the stage A3 luma blend. -/

theorem clamp01_of_mem {x : ℝ} (h0 : 0 ≤ x) (h1 : x ≤ 1) : clamp01 x = x := by
  rw [clamp01, min_eq_right h1, max_eq_right h0]

theorem clampedExposureStrength_zero (p : LookParams)
    (h : p.exposureStrength = some 0) : clampedExposureStrength p = 0 := by
  rw [clampedExposureStrength, h]
  norm_num

theorem exposureDelta_of_zero (src : ImageData) (p : LookParams)
    (h : p.exposureStrength = some 0) : exposureDelta src p = 0 := by
  rw [exposureDelta, clampedExposureStrength_zero p h]
  norm_num

theorem blackImage1_lab : pixelLab blackImage1 0 = ⟨0, 0, 0⟩ := by
  have h0 : blackImage1.data (4 * 0) = 0 := rfl
  have h1 : blackImage1.data (4 * 0 + 1) = 0 := rfl
  have h2 : blackImage1.data (4 * 0 + 2) = 0 := rfl
  rw [pixelLab, h0, h1, h2, srgb8ToOklab_zero]

theorem blackImage1_mask : maskOf blackImage1 0 = true := rfl

theorem C3_Lsrc : LsrcBuf blackImage1 C3params 0 = 0 := by
  rw [LsrcBuf]
  simp only [blackImage1_mask, if_true, blackImage1_lab,
    exposureDelta_of_zero blackImage1 C3params rfl]
  norm_num [clamp01]

theorem C3_Ltone : LtoneBuf blackImage1 C3params 0 = 0.3 := by
  have htc : C3params.toneCurve = some ⟨[0, 1], [0.3, 0.3]⟩ := rfl
  rw [LtoneBuf]
  simp only [blackImage1_mask, if_true, C3_Lsrc, htc]
  rw [if_pos (by norm_num)]
  rw [piecewiseLinear]
  norm_num
  exact clamp01_of_mem (by norm_num) (by norm_num)

theorem C3_lumaS : lumaSOf C3params = 0 := by
  have h : C3params.lumaStrength = some 0 := rfl
  rw [lumaSOf, h]
  norm_num

/-- C3 (code-bug exhibit): on a 1x1 opaque black source with a constant
tone curve at 0.3, exposure matching off and lumaStrength = 0, stage A3
leaves the tone-mapped luma 0.3 in the buffer (the blend loop is skipped when
|lumaBlend| <= 1e-3), while the documented interpolation
L_src + lumaStrength * (L_tone - L_src) yields the exposed source luma 0. -/
theorem C3_lumaBlend_bug :
    lumaSOf C3params = 0 ∧
    LlumaA3Buf blackImage1 C3params 0 = 0.3 ∧
    LsrcBuf blackImage1 C3params 0 + lumaSOf C3params *
      (LtoneBuf blackImage1 C3params 0 - LsrcBuf blackImage1 C3params 0) = 0 := by
  have hblend : lumaBlendOf C3params = 0 := by
    rw [lumaBlendOf, C3_lumaS]
    norm_num
  refine ⟨C3_lumaS, ?_, ?_⟩
  · rw [LlumaA3Buf, hblend]
    rw [if_neg (by norm_num)]
    exact C3_Ltone
  · rw [C3_Lsrc, C3_lumaS]
    ring

/-! Claim C6: fully transparent image. -/

/-- C6: a source whose pixels all have alpha 0 yields an output of identical
dimensions with every byte (R, G, B and alpha) exactly 0, and such pixels are
excluded from the statistics: the median and black-level stats fall back to
their defaults 0.5 and 0.05 over an empty sample. -/
theorem C6_transparent (src : ImageData) (p : LookParams)
    (h : ∀ pix < src.width * src.height, src.data (4 * pix + 3) = 0) :
    (applyLook src p).width = src.width ∧
    (applyLook src p).height = src.height ∧
    (∀ i < 4 * (src.width * src.height), (applyLook src p).data i = 0) ∧
    sourceMidL src.data (src.width * src.height) = 0.5 ∧
    sourceBlackL src.data (src.width * src.height) = 0.05 := by
  have hmasked : maskedPixels src.data (src.width * src.height) = [] := by
    rw [maskedPixels, List.filter_eq_nil]
    intro pix hpix
    rw [List.mem_range] at hpix
    simp [h pix hpix]
  refine ⟨rfl, rfl, ?_, ?_, ?_⟩
  · intro i hi
    have hpix : i / 4 < src.width * src.height := by omega
    have halpha : alphaBuf src (i / 4) = 0 := h (i / 4) hpix
    simp only [applyLook]
    rw [if_pos hi]
    simp only [applyLookPixelBytes, halpha]
    norm_num
  · simp [sourceMidL, hmasked]
  · simp [sourceBlackL, hmasked]

/-- Witness for C6 on a concrete 1x1 transparent image with nonzero RGB. -/
theorem C6_transparent_witness :
    (∀ pix < transparentImage1.width * transparentImage1.height,
      transparentImage1.data (4 * pix + 3) = 0) ∧
    ((applyLook transparentImage1 defaultLookParams).width = transparentImage1.width ∧
     (applyLook transparentImage1 defaultLookParams).height = transparentImage1.height ∧
     (∀ i < 4 * (transparentImage1.width * transparentImage1.height),
       (applyLook transparentImage1 defaultLookParams).data i = 0) ∧
     sourceMidL transparentImage1.data
       (transparentImage1.width * transparentImage1.height) = 0.5 ∧
     sourceBlackL transparentImage1.data
       (transparentImage1.width * transparentImage1.height) = 0.05) := by
  have hh : ∀ pix < transparentImage1.width * transparentImage1.height,
      transparentImage1.data (4 * pix + 3) = 0 := by
    intro pix hp
    have hp1 : pix < 1 := hp
    have : pix = 0 := Nat.lt_one_iff.mp hp1
    subst this
    rfl
  exact ⟨hh, C6_transparent transparentImage1 defaultLookParams hh⟩

/-! Claim C8: halation below threshold is the identity on pixel data. -/

theorem upsampleBilinear_zero (src : ℕ → ℝ) (sw sh width height : ℕ)
    (h : ∀ j < sw * sh, src j = 0) (i : ℕ) :
    upsampleBilinear src sw sh width height i = 0 := by
  have hrd : ∀ j, (if j < sw * sh then src j else 0) = 0 := by
    intro j
    split
    · exact h j ‹_›
    · rfl
  simp only [upsampleBilinear, hrd]
  ring

/-- C8: when highlightFill.strength > 0 and no downscaled masked cell's L
exceeds the computed highlight threshold, the halation stage copies every
byte of the frame unchanged. -/
theorem C8_halation_identity (frame : PixelFrameRGBA) (pp : PipelineParams)
    (g : LookParams) (hf : HighlightFill)
    (hg : pp.grading = some g) (hhf : g.highlightFill = some hf)
    (hs : 0 < hf.strength)
    (hthr : ∀ j < (halationDown frame).w * (halationDown frame).h,
      (halationDown frame).mask j = true →
        (halationDown frame).L j ≤ halationThreshold frame) :
    ∀ i < 4 * (frame.width * frame.height),
      (halation frame pp).data i = frame.data i := by
  intro i hi
  have hwd : ∀ j < (halationDown frame).w * (halationDown frame).h,
      (fun jj =>
        if ¬ (halationDown frame).mask jj ∨
            (halationDown frame).L jj ≤ halationThreshold frame then (0 : ℝ)
        else 0.3 + (1 - 0.3) *
          min 1 (localVariance (halationDown frame).L (halationDown frame).mask
              (halationDown frame).w (halationDown frame).h 3 jj *
            (if 1e-6 < ((List.range ((halationDown frame).w * (halationDown frame).h)).filter
                (fun i2 => (halationDown frame).mask i2 ∧
                  halationThreshold frame ≤ (halationDown frame).L i2)).foldr
                  (fun i2 acc => max (localVariance (halationDown frame).L
                    (halationDown frame).mask (halationDown frame).w
                    (halationDown frame).h 3 i2) acc) 0 then
              1 / ((List.range ((halationDown frame).w * (halationDown frame).h)).filter
                (fun i2 => (halationDown frame).mask i2 ∧
                  halationThreshold frame ≤ (halationDown frame).L i2)).foldr
                  (fun i2 acc => max (localVariance (halationDown frame).L
                    (halationDown frame).mask (halationDown frame).w
                    (halationDown frame).h 3 i2) acc) 0
            else 0))) j = 0 := by
    intro j hj
    by_cases hc : ¬ (halationDown frame).mask j ∨
        (halationDown frame).L j ≤ halationThreshold frame
    · simp only [if_pos hc]
    · exfalso
      push_neg at hc
      obtain ⟨hm, hlt⟩ := hc
      have hmt : (halationDown frame).mask j = true := by
        revert hm
        cases (halationDown frame).mask j <;> simp
      exact absurd (hthr j hj hmt) (not_le.mpr hlt)
  simp only [halation, hg, hhf]
  rw [if_neg (not_le.mpr hs)]
  simp only [if_pos hi]
  by_cases hc3 : i % 4 = 3
  · rw [if_pos hc3]
  · rw [if_neg hc3]
    by_cases hm : (128 : ℕ) ≤ frame.data (4 * (i / 4) + 3)
    · rw [if_neg (by simpa using hm)]
      have hz := upsampleBilinear_zero _ (halationDown frame).w (halationDown frame).h
        frame.width frame.height hwd (i / 4)
      rw [hz, mul_zero]
      rw [if_pos (by rw [min_eq_right (by norm_num : (0:ℝ) ≤ 1)]; norm_num)]
    · rw [if_pos (by simpa using hm)]

theorem blackFrame1_L_fn_zero (pix : ℕ) :
    (if 128 ≤ blackFrame1.data (4 * pix + 3) then pixelL blackFrame1.data pix else 0) = 0 := by
  rcases Nat.eq_zero_or_pos pix with h0 | hpos
  · subst h0
    have h1 : pixelL blackFrame1.data 0 = 0 := by
      have e : pixelL blackFrame1.data 0 = (srgb8ToOklab 0 0 0).L := rfl
      rw [e, srgb8ToOklab_zero]
    simp [h1]
  · have hz : blackFrame1.data (4 * pix + 3) = 0 := by
      have hne : 4 * pix + 3 ≠ 3 := by omega
      simp [blackFrame1, hne]
    simp [hz]

theorem downscaleL_L_zero (Lg : ℕ → ℝ) (mask : ℕ → Bool) (w h : ℕ)
    (hz : ∀ i, Lg i = 0) (j : ℕ) : (downscaleL Lg mask w h).L j = 0 := by
  simp only [downscaleL]
  split
  · rw [Finset.sum_eq_zero, zero_div]
    intro yy _
    rw [Finset.sum_eq_zero]
    intro xx _
    split
    · exact hz _
    · rfl
  · rfl

theorem C8_blackFrame1_thr :
    ∀ j < (halationDown blackFrame1).w * (halationDown blackFrame1).h,
      (halationDown blackFrame1).mask j = true →
      (halationDown blackFrame1).L j ≤ halationThreshold blackFrame1 := by
  intro j _ _
  have hL : (halationDown blackFrame1).L j = 0 := by
    rw [halationDown]
    exact downscaleL_L_zero _ _ _ _ blackFrame1_L_fn_zero j
  rw [hL]
  calc (0 : ℝ) ≤ 0.85 := by norm_num
    _ ≤ halationThreshold blackFrame1 := by
        rw [halationThreshold]; exact le_max_left _ _

/-- Witness for C8 on a 1x1 opaque black frame with highlightFill strength 1. -/
theorem C8_halation_identity_witness :
    (0 : ℝ) < (1 : ℝ) ∧
    (∀ j < (halationDown blackFrame1).w * (halationDown blackFrame1).h,
      (halationDown blackFrame1).mask j = true →
      (halationDown blackFrame1).L j ≤ halationThreshold blackFrame1) ∧
    (∀ i < 4 * (blackFrame1.width * blackFrame1.height),
      (halation blackFrame1 C8params).data i = blackFrame1.data i) :=
  ⟨by norm_num, C8_blackFrame1_thr,
    C8_halation_identity blackFrame1 C8params _ _ rfl rfl (by norm_num) C8_blackFrame1_thr⟩

/-! Claim C10: the fitted tone curve is monotone. -/

theorem getD_chain_mono (l : List ℝ)
    (h : ∀ k, k + 1 < l.length → l.getD k 0 ≤ l.getD (k + 1) 0) :
    ∀ i j, i ≤ j → j < l.length → l.getD i 0 ≤ l.getD j 0 := by
  intro i j hij hj
  induction j with
  | zero =>
    have : i = 0 := Nat.le_zero.mp hij
    subst this
    exact le_refl _
  | succ j ihj =>
    rcases Nat.lt_or_ge i (j + 1) with hlt | hge
    · have hij' : i ≤ j := Nat.lt_succ_iff.mp hlt
      calc l.getD i 0 ≤ l.getD j 0 := ihj hij' (by omega)
        _ ≤ l.getD (j + 1) 0 := h j hj
    · have : i = j + 1 := le_antisymm hij hge
      subst this
      exact le_refl _

theorem sortAsc_sorted (l : List ℝ) : (sortAsc l).Sorted (· ≤ ·) :=
  List.sorted_insertionSort _ l

theorem sortAsc_length (l : List ℝ) : (sortAsc l).length = l.length :=
  List.length_insertionSort _ l

theorem sortAsc_perm (l : List ℝ) : (sortAsc l).Perm l :=
  List.perm_insertionSort _ l

theorem sorted_getD_mono {l : List ℝ} (hs : l.Sorted (· ≤ ·)) {i j : ℕ} (d1 d2 : ℝ)
    (hij : i ≤ j) (hj : j < l.length) : l.getD i d1 ≤ l.getD j d2 := by
  rw [List.getD_eq_getElem l d1 (Nat.lt_of_le_of_lt hij hj), List.getD_eq_getElem l d2 hj]
  rcases eq_or_lt_of_le hij with rfl | hlt
  · exact le_refl _
  · exact List.pairwise_iff_getElem.mp hs i j (Nat.lt_of_le_of_lt hij hj) hj hlt

theorem piecewiseLinearScan_step (L : ℝ) (Lin Lout : List ℝ) (i : ℕ)
    (h : i + 1 < Lin.length) :
    piecewiseLinearScan L Lin Lout i =
      if Lin.getD i 0 ≤ L ∧ L ≤ Lin.getD (i + 1) 0 then
        Lout.getD i 0 + (L - Lin.getD i 0) / (Lin.getD (i + 1) 0 - Lin.getD i 0) *
          (Lout.getD (i + 1) 0 - Lout.getD i 0)
      else piecewiseLinearScan L Lin Lout (i + 1) := by
  rw [piecewiseLinearScan, dif_pos h]

theorem piecewiseLinearScan_last (L : ℝ) (Lin Lout : List ℝ) (i : ℕ)
    (h : ¬ i + 1 < Lin.length) :
    piecewiseLinearScan L Lin Lout i = Lout.getD (Lin.length - 1) 0 := by
  rw [piecewiseLinearScan, dif_neg h]

theorem scan_ge (L : ℝ) (Lin Lout : List ℝ)
    (hin : ∀ k, k + 1 < Lin.length → Lin.getD k 0 < Lin.getD (k + 1) 0)
    (hout : ∀ k, k + 1 < Lout.length → Lout.getD k 0 ≤ Lout.getD (k + 1) 0)
    (hlen : Lout.length = Lin.length) :
    ∀ d i, Lin.length - i = d → i < Lin.length → Lin.getD i 0 ≤ L →
      Lout.getD i 0 ≤ piecewiseLinearScan L Lin Lout i := by
  intro d
  induction d using Nat.strong_induction_on with
  | _ d ih =>
    intro i hd hi hLi
    by_cases h : i + 1 < Lin.length
    · rw [piecewiseLinearScan_step L Lin Lout i h]
      split_ifs with hseg
      · have hden : 0 < Lin.getD (i + 1) 0 - Lin.getD i 0 :=
          sub_pos.mpr (hin i h)
        have hnum : 0 ≤ L - Lin.getD i 0 := sub_nonneg.mpr hLi
        have hΔ : 0 ≤ Lout.getD (i + 1) 0 - Lout.getD i 0 :=
          sub_nonneg.mpr (hout i (by omega))
        have ht : 0 ≤ (L - Lin.getD i 0) / (Lin.getD (i + 1) 0 - Lin.getD i 0) :=
          div_nonneg hnum hden.le
        nlinarith [mul_nonneg ht hΔ]
      · have hnext : Lin.getD (i + 1) 0 ≤ L := by
          rcases not_and_or.mp hseg with hbad | hgt
          · exact absurd hLi hbad
          · exact le_of_lt (not_le.mp hgt)
        calc Lout.getD i 0 ≤ Lout.getD (i + 1) 0 := hout i (by omega)
          _ ≤ piecewiseLinearScan L Lin Lout (i + 1) :=
            ih (Lin.length - (i + 1)) (by omega) (i + 1) rfl h hnext
    · rw [piecewiseLinearScan_last L Lin Lout i h]
      have : i = Lin.length - 1 := by omega
      subst this
      exact le_refl _

theorem scan_le (L : ℝ) (Lin Lout : List ℝ)
    (hin : ∀ k, k + 1 < Lin.length → Lin.getD k 0 < Lin.getD (k + 1) 0)
    (hout : ∀ k, k + 1 < Lout.length → Lout.getD k 0 ≤ Lout.getD (k + 1) 0)
    (hlen : Lout.length = Lin.length) (hn : Lin.length ≠ 0) :
    ∀ d i, Lin.length - i = d → Lin.getD i 0 ≤ L →
      piecewiseLinearScan L Lin Lout i ≤ Lout.getD (Lin.length - 1) 0 := by
  intro d
  induction d using Nat.strong_induction_on with
  | _ d ih =>
    intro i hd hLi
    by_cases h : i + 1 < Lin.length
    · rw [piecewiseLinearScan_step L Lin Lout i h]
      split_ifs with hseg
      · have hden : 0 < Lin.getD (i + 1) 0 - Lin.getD i 0 :=
          sub_pos.mpr (hin i h)
        have ht1 : (L - Lin.getD i 0) / (Lin.getD (i + 1) 0 - Lin.getD i 0) ≤ 1 := by
          rw [div_le_one hden]
          linarith [hseg.2]
        have hΔ : 0 ≤ Lout.getD (i + 1) 0 - Lout.getD i 0 :=
          sub_nonneg.mpr (hout i (by omega))
        have hub : Lout.getD i 0 + (L - Lin.getD i 0) /
            (Lin.getD (i + 1) 0 - Lin.getD i 0) *
            (Lout.getD (i + 1) 0 - Lout.getD i 0) ≤ Lout.getD (i + 1) 0 := by
          nlinarith [mul_nonneg (sub_nonneg.mpr ht1) hΔ]
        calc Lout.getD i 0 + (L - Lin.getD i 0) /
            (Lin.getD (i + 1) 0 - Lin.getD i 0) *
            (Lout.getD (i + 1) 0 - Lout.getD i 0) ≤ Lout.getD (i + 1) 0 := hub
          _ ≤ Lout.getD (Lin.length - 1) 0 := by
            have hlb : i + 1 ≤ Lin.length - 1 := by omega
            have hub : Lin.length - 1 < Lout.length := by omega
            exact getD_chain_mono Lout hout (i + 1) (Lin.length - 1) hlb hub
      · have hnext : Lin.getD (i + 1) 0 ≤ L := by
          rcases not_and_or.mp hseg with hbad | hgt
          · exact absurd hLi hbad
          · exact le_of_lt (not_le.mp hgt)
        exact ih (Lin.length - (i + 1)) (by omega) (i + 1) rfl hnext
    · rw [piecewiseLinearScan_last L Lin Lout i h]

theorem scan_mono (x y : ℝ) (hxy : x ≤ y) (Lin Lout : List ℝ)
    (hin : ∀ k, k + 1 < Lin.length → Lin.getD k 0 < Lin.getD (k + 1) 0)
    (hout : ∀ k, k + 1 < Lout.length → Lout.getD k 0 ≤ Lout.getD (k + 1) 0)
    (hlen : Lout.length = Lin.length) :
    ∀ d i, Lin.length - i = d → i < Lin.length → Lin.getD i 0 ≤ x →
      piecewiseLinearScan x Lin Lout i ≤ piecewiseLinearScan y Lin Lout i := by
  intro d
  induction d using Nat.strong_induction_on with
  | _ d ih =>
    intro i hd hi hxi
    by_cases h : i + 1 < Lin.length
    · rw [piecewiseLinearScan_step x Lin Lout i h,
        piecewiseLinearScan_step y Lin Lout i h]
      have hyi : Lin.getD i 0 ≤ y := le_trans hxi hxy
      have hden : 0 < Lin.getD (i + 1) 0 - Lin.getD i 0 := sub_pos.mpr (hin i h)
      have hΔ : 0 ≤ Lout.getD (i + 1) 0 - Lout.getD i 0 :=
        sub_nonneg.mpr (hout i (by omega))
      by_cases hcx : Lin.getD i 0 ≤ x ∧ x ≤ Lin.getD (i + 1) 0
      · rw [if_pos hcx]
        by_cases hcy : Lin.getD i 0 ≤ y ∧ y ≤ Lin.getD (i + 1) 0
        · rw [if_pos hcy]
          have hfrac : 0 ≤ (y - x) / (Lin.getD (i + 1) 0 - Lin.getD i 0) :=
            div_nonneg (by linarith) hden.le
          have key : (y - Lin.getD i 0) / (Lin.getD (i + 1) 0 - Lin.getD i 0) *
              (Lout.getD (i + 1) 0 - Lout.getD i 0) -
              (x - Lin.getD i 0) / (Lin.getD (i + 1) 0 - Lin.getD i 0) *
              (Lout.getD (i + 1) 0 - Lout.getD i 0) =
              (y - x) / (Lin.getD (i + 1) 0 - Lin.getD i 0) *
              (Lout.getD (i + 1) 0 - Lout.getD i 0) := by
            ring
          nlinarith [mul_nonneg hfrac hΔ]
        · rw [if_neg hcy]
          have hy1 : Lin.getD (i + 1) 0 ≤ y := by
            rcases not_and_or.mp hcy with hbad | hgt
            · exact absurd hyi hbad
            · exact le_of_lt (not_le.mp hgt)
          have ht1 : (x - Lin.getD i 0) / (Lin.getD (i + 1) 0 - Lin.getD i 0) ≤ 1 := by
            rw [div_le_one hden]
            linarith [hcx.2]
          have hub : Lout.getD i 0 + (x - Lin.getD i 0) /
              (Lin.getD (i + 1) 0 - Lin.getD i 0) *
              (Lout.getD (i + 1) 0 - Lout.getD i 0) ≤ Lout.getD (i + 1) 0 := by
            nlinarith [mul_nonneg (sub_nonneg.mpr ht1) hΔ]
          calc Lout.getD i 0 + (x - Lin.getD i 0) /
              (Lin.getD (i + 1) 0 - Lin.getD i 0) *
              (Lout.getD (i + 1) 0 - Lout.getD i 0) ≤ Lout.getD (i + 1) 0 := hub
            _ ≤ piecewiseLinearScan y Lin Lout (i + 1) :=
              scan_ge y Lin Lout hin hout hlen (Lin.length - (i + 1)) (i + 1) rfl h hy1
      · rw [if_neg hcx]
        have hx1 : Lin.getD (i + 1) 0 < x := by
          rcases not_and_or.mp hcx with hbad | hgt
          · exact absurd hxi hbad
          · exact not_le.mp hgt
        have hcy : ¬ (Lin.getD i 0 ≤ y ∧ y ≤ Lin.getD (i + 1) 0) := by
          intro hcy
          linarith [hcy.2]
        rw [if_neg hcy]
        exact ih (Lin.length - (i + 1)) (by omega) (i + 1) rfl h hx1.le
    · rw [piecewiseLinearScan_last x Lin Lout i h,
        piecewiseLinearScan_last y Lin Lout i h]

theorem piecewiseLinear_monotone (Lin Lout : List ℝ)
    (hin : ∀ k, k + 1 < Lin.length → Lin.getD k 0 < Lin.getD (k + 1) 0)
    (hout : ∀ k, k + 1 < Lout.length → Lout.getD k 0 ≤ Lout.getD (k + 1) 0)
    (hlen : Lout.length = Lin.length) :
    Monotone (fun L => piecewiseLinear L Lin Lout) := by
  intro x y hxy
  simp only [piecewiseLinear]
  by_cases hn : Lin.length = 0
  · rw [if_pos hn, if_pos hn]
    exact hxy
  rw [if_neg hn, if_neg hn]
  by_cases hx0 : x ≤ Lin.getD 0 0
  · rw [if_pos hx0]
    by_cases hy0 : y ≤ Lin.getD 0 0
    · rw [if_pos hy0]
    · rw [if_neg hy0]
      by_cases hylast : Lin.getD (Lin.length - 1) 0 ≤ y
      · rw [if_pos hylast]
        rw [← hlen]
        exact getD_chain_mono Lout hout 0 (Lout.length - 1) (Nat.zero_le _) (by omega)
      · rw [if_neg hylast]
        exact scan_ge y Lin Lout hin hout hlen Lin.length 0 rfl (by omega)
          (le_of_lt (not_le.mp hy0))
  · rw [if_neg hx0]
    by_cases hxlast : Lin.getD (Lin.length - 1) 0 ≤ x
    · rw [if_pos hxlast]
      have hy0 : ¬ y ≤ Lin.getD 0 0 := fun hc => hx0 (le_trans hxy hc)
      rw [if_neg hy0, if_pos (le_trans hxlast hxy)]
    · rw [if_neg hxlast]
      have hy0 : ¬ y ≤ Lin.getD 0 0 := fun hc => hx0 (le_trans hxy hc)
      rw [if_neg hy0]
      by_cases hylast : Lin.getD (Lin.length - 1) 0 ≤ y
      · rw [if_pos hylast]
        exact scan_le x Lin Lout hin hout hlen hn Lin.length 0 rfl
          (le_of_lt (not_le.mp hx0))
      · rw [if_neg hylast]
        exact scan_mono x y hxy Lin Lout hin hout hlen Lin.length 0 rfl (by omega)
          (le_of_lt (not_le.mp hx0))

theorem fitToneCurve_Lin (ref : ImageData) : (fitToneCurve ref).L_in = toneAnchors := rfl

theorem fitToneCurve_Lout_length (ref : ImageData) :
    (fitToneCurve ref).L_out.length = 8 := by
  simp [fitToneCurve, toneAnchors]

theorem fitToneCurve_Lout_getD (ref : ImageData) (k : ℕ) (hk : k < 8) :
    (fitToneCurve ref).L_out.getD k 0 =
      min ((sortAsc (refLs ref)).getD
          (min (Nat.floor (tonePercentiles.getD k 0.5 * ((refLs ref).length : ℝ)))
            ((refLs ref).length - 1)) (toneAnchors.getD k 0))
        (if 0.92 < (sortAsc (refLs ref)).getD
            (Nat.floor (((refLs ref).length : ℝ) * 0.95)) 0.95 then (0.95 : ℝ) else 1) := by
  have hk8 : k < (fitToneCurve ref).L_out.length := by
    rw [fitToneCurve_Lout_length]; exact hk
  rw [List.getD_eq_getElem _ _ hk8]
  simp only [fitToneCurve]
  rw [List.getElem_map, List.getElem_range]

theorem toneAnchors_adjacent :
    ∀ k, k + 1 < toneAnchors.length → toneAnchors.getD k 0 < toneAnchors.getD (k + 1) 0 := by
  intro k hk
  have hk8 : k + 1 < 8 := by simpa [toneAnchors] using hk
  have hk7 : k < 7 := by omega
  interval_cases k <;> norm_num [toneAnchors]

/-- C10: for a reference with at least one alpha >= 128 pixel, the fitted
tone curve has strictly increasing L_in anchors and non-decreasing L_out
values, and the induced piecewise-linear lightness remap is monotone
non-decreasing. -/
theorem C10_toneCurve_monotone (ref : ImageData) (hm : refLs ref ≠ []) :
    (∀ k, k + 1 < (fitToneCurve ref).L_in.length →
      (fitToneCurve ref).L_in.getD k 0 < (fitToneCurve ref).L_in.getD (k + 1) 0) ∧
    (∀ k, k + 1 < (fitToneCurve ref).L_out.length →
      (fitToneCurve ref).L_out.getD k 0 ≤ (fitToneCurve ref).L_out.getD (k + 1) 0) ∧
    Monotone (fun L => piecewiseLinear L (fitToneCurve ref).L_in (fitToneCurve ref).L_out) := by
  have hmlen : 1 ≤ (refLs ref).length := List.length_pos.mpr hm
  have hout : ∀ k, k + 1 < (fitToneCurve ref).L_out.length →
      (fitToneCurve ref).L_out.getD k 0 ≤ (fitToneCurve ref).L_out.getD (k + 1) 0 := by
    intro k hk
    have hk8 : k + 1 < 8 := by rwa [fitToneCurve_Lout_length] at hk
    rw [fitToneCurve_Lout_getD ref k (by omega), fitToneCurve_Lout_getD ref (k + 1) hk8]
    apply min_le_min _ le_rfl
    have hidx : ∀ j : ℕ,
        min (Nat.floor (tonePercentiles.getD j 0.5 * ((refLs ref).length : ℝ)))
          ((refLs ref).length - 1) < (sortAsc (refLs ref)).length := by
      intro j
      rw [sortAsc_length]
      omega
    apply sorted_getD_mono (sortAsc_sorted (refLs ref)) _ _ _ (hidx (k + 1))
    apply min_le_min _ le_rfl
    apply Nat.floor_mono
    apply mul_le_mul_of_nonneg_right _ (Nat.cast_nonneg _)
    have hk7 : k < 7 := by omega
    interval_cases k <;> norm_num [tonePercentiles]
  refine ⟨?_, hout, ?_⟩
  · rw [fitToneCurve_Lin]
    exact toneAnchors_adjacent
  · apply piecewiseLinear_monotone
    · rw [fitToneCurve_Lin]
      exact toneAnchors_adjacent
    · exact hout
    · rw [fitToneCurve_Lin, fitToneCurve_Lout_length]
      rfl

/-- Witness for C10 on the concrete 1x1 opaque black reference. -/
theorem C10_toneCurve_monotone_witness :
    refLs blackImage1 ≠ [] ∧
    ((∀ k, k + 1 < (fitToneCurve blackImage1).L_in.length →
      (fitToneCurve blackImage1).L_in.getD k 0 <
        (fitToneCurve blackImage1).L_in.getD (k + 1) 0) ∧
    (∀ k, k + 1 < (fitToneCurve blackImage1).L_out.length →
      (fitToneCurve blackImage1).L_out.getD k 0 ≤
        (fitToneCurve blackImage1).L_out.getD (k + 1) 0) ∧
    Monotone (fun L => piecewiseLinear L (fitToneCurve blackImage1).L_in
      (fitToneCurve blackImage1).L_out)) := by
  have hne : refLs blackImage1 ≠ [] := by
    simp [refLs, maskedPixels, blackImage1]
  exact ⟨hne, C10_toneCurve_monotone blackImage1 hne⟩

/-! Claim C4: order statistics of the stage A4 pull. -/

theorem sorted_le_iff_countP :
    ∀ (l : List ℝ), l.Sorted (· ≤ ·) → ∀ (k : ℕ), k < l.length → ∀ t : ℝ,
      (l.getD k 0 ≤ t ↔ k + 1 ≤ l.countP (fun x => decide (x ≤ t))) := by
  intro l
  induction l with
  | nil =>
    intro _ k hk
    simp at hk
  | cons a l ih =>
    intro hs k hk t
    have ha := (List.sorted_cons.mp hs).1
    have hl := (List.sorted_cons.mp hs).2
    rw [List.countP_cons]
    simp only [decide_eq_true_eq]
    cases k with
    | zero =>
      simp only [List.getD_cons_zero]
      constructor
      · intro hat
        rw [if_pos hat]
        omega
      · intro hcnt
        by_contra hat
        push_neg at hat
        have h0 : l.countP (fun x => decide (x ≤ t)) = 0 := by
          rw [List.countP_eq_zero]
          intro x hx
          simp only [decide_eq_true_eq, not_le]
          exact lt_of_lt_of_le hat (ha x hx)
        rw [if_neg (not_le.mpr hat)] at hcnt
        omega
    | succ k =>
      simp only [List.getD_cons_succ]
      have hk' : k < l.length := by simpa using hk
      constructor
      · intro hle
        have hcnt := (ih hl k hk' t).mp hle
        have hmem : l.getD k 0 ∈ l := by
          rw [List.getD_eq_getElem l 0 hk']
          exact List.getElem_mem hk'
        have hat : a ≤ t := le_trans (ha _ hmem) hle
        rw [if_pos hat]
        omega
      · intro hcnt
        apply (ih hl k hk' t).mpr
        have h1 : (if a ≤ t then 1 else 0) ≤ 1 := by
          split <;> omega
        omega

theorem countP_map_le_of_pointwise (f g : ℕ → ℝ) (is : List ℕ) (t : ℝ)
    (h : ∀ i ∈ is, f i ≤ g i) :
    (is.map g).countP (fun x => decide (x ≤ t)) ≤
      (is.map f).countP (fun x => decide (x ≤ t)) := by
  induction is with
  | nil => simp
  | cons a is ih =>
    have hfa := h a (List.mem_cons_self a is)
    have ihh := ih (fun i hi => h i (List.mem_cons_of_mem _ hi))
    simp only [List.map_cons, List.countP_cons, decide_eq_true_eq]
    by_cases hga : g a ≤ t
    · rw [if_pos hga, if_pos (le_trans hfa hga)]
      omega
    · rw [if_neg hga]
      have hle : (if f a ≤ t then 1 else 0) ≤ 1 := by
        split <;> omega
      omega

theorem sorted_kth_mono_of_pointwise (f g : ℕ → ℝ) (is : List ℕ)
    (h : ∀ i ∈ is, f i ≤ g i) (k : ℕ) (hk : k < is.length) :
    (sortAsc (is.map f)).getD k 0 ≤ (sortAsc (is.map g)).getD k 0 := by
  have hlenf : k < (sortAsc (is.map f)).length := by
    rw [sortAsc_length, List.length_map]; exact hk
  have hleng : k < (sortAsc (is.map g)).length := by
    rw [sortAsc_length, List.length_map]; exact hk
  rw [sorted_le_iff_countP _ (sortAsc_sorted _) k hlenf]
  have h2 : k + 1 ≤ (sortAsc (is.map g)).countP
      (fun x => decide (x ≤ (sortAsc (is.map g)).getD k 0)) :=
    (sorted_le_iff_countP _ (sortAsc_sorted _) k hleng _).mp le_rfl
  calc k + 1
      ≤ (sortAsc (is.map g)).countP
          (fun x => decide (x ≤ (sortAsc (is.map g)).getD k 0)) := h2
    _ = (is.map g).countP
          (fun x => decide (x ≤ (sortAsc (is.map g)).getD k 0)) :=
        (sortAsc_perm _).countP_eq _
    _ ≤ (is.map f).countP
          (fun x => decide (x ≤ (sortAsc (is.map g)).getD k 0)) :=
        countP_map_le_of_pointwise f g is _ h
    _ = (sortAsc (is.map f)).countP
          (fun x => decide (x ≤ (sortAsc (is.map g)).getD k 0)) :=
        ((sortAsc_perm _).countP_eq _).symm

theorem sortAsc_map_comm (g : ℝ → ℝ) (vals : List ℝ)
    (hg : ∀ x ∈ vals, ∀ y ∈ vals, x ≤ y → g x ≤ g y) :
    sortAsc (vals.map g) = (sortAsc vals).map g := by
  have hperm : (sortAsc (vals.map g)).Perm ((sortAsc vals).map g) :=
    (sortAsc_perm _).trans ((sortAsc_perm vals).map g).symm
  have hs2 : ((sortAsc vals).map g).Sorted (· ≤ ·) := by
    rw [List.Sorted, List.pairwise_map]
    apply List.Pairwise.imp_of_mem _ (sortAsc_sorted vals)
    intro x y hx hy hxy
    exact hg x ((sortAsc_perm vals).mem_iff.mp hx) y ((sortAsc_perm vals).mem_iff.mp hy) hxy
  exact List.eq_of_perm_of_sorted hperm (sortAsc_sorted _) hs2

/-- Percentile index of percentileFromLGrid is in range for nonempty samples. -/
theorem percentile_idx_lt (len : ℕ) (hlen : 1 ≤ len) (p : ℝ) :
    Nat.floor (max 0 (min 1 p) * ((len : ℝ) - 1)) < len := by
  have h1 : max 0 (min 1 p) * ((len : ℝ) - 1) ≤ ((len : ℝ) - 1) := by
    have hc1 : max 0 (min 1 p) ≤ 1 := max_le (by norm_num) (min_le_left _ _)
    have hc0 : (0 : ℝ) ≤ max 0 (min 1 p) := le_max_left _ _
    have hcast : (1 : ℝ) ≤ (len : ℝ) := by exact_mod_cast hlen
    nlinarith [hcast]
  have h2 : ((len : ℝ) - 1) = ((len - 1 : ℕ) : ℝ) := by
    push_cast [Nat.cast_sub hlen]
    ring
  have h3 : Nat.floor (max 0 (min 1 p) * ((len : ℝ) - 1)) ≤ len - 1 := by
    calc Nat.floor (max 0 (min 1 p) * ((len : ℝ) - 1))
        ≤ Nat.floor (((len - 1 : ℕ) : ℝ)) := by
          apply Nat.floor_mono
          rw [← h2]
          exact h1
      _ = len - 1 := Nat.floor_natCast _
  omega

theorem percentile_mono_of_pointwise (f g : ℕ → ℝ) (mask : ℕ → Bool) (n : ℕ) (p : ℝ)
    (h : ∀ i, mask i = true → f i ≤ g i) :
    percentileFromLGrid f mask n p ≤ percentileFromLGrid g mask n p := by
  simp only [percentileFromLGrid]
  by_cases hemp : (((List.range n).filter (fun i => mask i)).map f).length = 0
  · rw [if_pos hemp, if_pos (by simpa using hemp)]
  · rw [if_neg hemp, if_neg (by simpa using hemp)]
    have hlen : 1 ≤ ((List.range n).filter (fun i => mask i)).length := by
      rw [List.length_map] at hemp
      omega
    have hk := percentile_idx_lt (((List.range n).filter (fun i => mask i)).map f).length
      (by rw [List.length_map]; exact hlen) p
    rw [List.length_map] at hk
    have hmem : ∀ i ∈ (List.range n).filter (fun i => mask i), f i ≤ g i := by
      intro i hi
      exact h i (List.mem_filter.mp hi).2
    have := sorted_kth_mono_of_pointwise f g _ hmem _ hk
    simpa [List.length_map] using this

theorem percentileFromLGrid_comm (g : ℝ → ℝ) (Lgrid B : ℕ → ℝ)
    (mask : ℕ → Bool) (n : ℕ) (p : ℝ)
    (hB : ∀ i, mask i = true → B i = g (Lgrid i))
    (hg : ∀ x ∈ ((List.range n).filter (fun i => mask i)).map Lgrid,
       ∀ y ∈ ((List.range n).filter (fun i => mask i)).map Lgrid, x ≤ y → g x ≤ g y)
    (hne : ((List.range n).filter (fun i => mask i)) ≠ []) :
    percentileFromLGrid B mask n p =
      g (percentileFromLGrid Lgrid mask n p) := by
  simp only [percentileFromLGrid]
  have hmapB : ((List.range n).filter (fun i => mask i)).map B =
      (((List.range n).filter (fun i => mask i)).map Lgrid).map g := by
    rw [List.map_map]
    apply List.map_congr_left
    intro i hi
    exact hB i (List.mem_filter.mp hi).2
  have hlen : 1 ≤ ((List.range n).filter (fun i => mask i)).length := by
    rcases List.length_pos.mpr hne with h
    omega
  rw [hmapB]
  rw [if_neg (by simp only [List.length_map]; omega),
    if_neg (by simp only [List.length_map]; omega)]
  rw [sortAsc_map_comm g _ hg]
  simp only [List.length_map]
  have hks : Nat.floor (max 0 (min 1 p) *
      (((((List.range n).filter (fun i => mask i)).length : ℕ) : ℝ) - 1)) <
      (sortAsc (((List.range n).filter (fun i => mask i)).map Lgrid)).length := by
    rw [sortAsc_length, List.length_map]
    exact percentile_idx_lt _ hlen p
  rw [List.getD_eq_getElem _ 0 (by rw [List.length_map]; exact hks),
    List.getElem_map, List.getD_eq_getElem _ 0 hks]

theorem clamp01_mono {x y : ℝ} (h : x ≤ y) : clamp01 x ≤ clamp01 y :=
  max_le_max le_rfl (min_le_min le_rfl h)

theorem clamp01_le_of {z x : ℝ} (hz : z ≤ x) (hx : 0 ≤ x) : clamp01 z ≤ x :=
  max_le hx (le_trans (min_le_right _ _) hz)

theorem le_clamp01_of {z v : ℝ} (hv : v ≤ z) (hv1 : v ≤ 1) : v ≤ clamp01 z :=
  le_trans (le_min hv1 hv) (le_max_right _ _)

theorem stageA4Pull_mono (bDelta c : ℝ) (wide : Bool) (hb : bDelta < 0) (hc : 0 < c)
    {x y : ℝ} (hx0 : 0 ≤ x) (hxy : x ≤ y) :
    stageA4Pull bDelta c wide x ≤ stageA4Pull bDelta c wide y := by
  simp only [stageA4Pull]
  by_cases hyc : y ≤ c
  · have hxc : x ≤ c := le_trans hxy hyc
    rw [if_pos hxc, if_pos hyc]
    apply clamp01_mono
    have hv0 : 0 ≤ 1 - y / c := by
      rw [sub_nonneg]
      exact (div_le_one hc).mpr hyc
    have huv : 1 - y / c ≤ 1 - x / c := by
      have hd : x / c ≤ y / c := by gcongr
      linarith
    cases wide with
    | false =>
      simp only [Bool.false_eq_true, if_false]
      have hsq : (1 - y / c) * (1 - y / c) ≤ (1 - x / c) * (1 - x / c) :=
        mul_le_mul huv huv hv0 (le_trans hv0 huv)
      have hmul := mul_le_mul_of_nonpos_left hsq hb.le
      linarith
    | true =>
      simp only [eq_self_iff_true, if_true]
      have hmul := mul_le_mul_of_nonpos_left huv hb.le
      linarith
  · rw [if_neg hyc]
    by_cases hxc : x ≤ c
    · rw [if_pos hxc]
      have hw0 : 0 ≤ (if wide = true then 1 - x / c else (1 - x / c) * (1 - x / c)) := by
        split
        · rw [sub_nonneg]
          exact (div_le_one hc).mpr hxc
        · exact mul_self_nonneg _
      have hz := mul_nonpos_of_nonpos_of_nonneg hb.le hw0
      exact le_trans (clamp01_le_of (by linarith) hx0) hxy
    · rw [if_neg hxc]
      exact hxy

theorem stageA4Pull_ge (bDelta c : ℝ) (wide : Bool) (hb : 0 ≤ bDelta) (hc : 0 < c)
    {v : ℝ} (hv0 : 0 ≤ v) (hv1 : v ≤ 1) : v ≤ stageA4Pull bDelta c wide v := by
  simp only [stageA4Pull]
  by_cases hvc : v ≤ c
  · rw [if_pos hvc]
    have hw0 : 0 ≤ (if wide = true then 1 - v / c else (1 - v / c) * (1 - v / c)) := by
      split
      · rw [sub_nonneg]
        exact (div_le_one hc).mpr hvc
      · exact mul_self_nonneg _
    have hz := mul_nonneg hb hw0
    exact le_clamp01_of (by linarith) hv1
  · rw [if_neg hvc]

theorem stageA4Ceiling_pos (bDelta cRefBlack blackRange : ℝ) :
    0 < stageA4Ceiling bDelta cRefBlack blackRange := by
  have hbase : (0.1 : ℝ) ≤ baseShadowCeilingOf blackRange := le_max_left _ _
  rw [stageA4Ceiling]
  split
  · exact lt_min (by norm_num) (by linarith)
  · linarith

/-- C4 (amended): if the clamped reference black anchor is at most 0.2 (as
applyLook guarantees), every masked luma value lies in [0,1], and the
pre-alignment 5th percentile exceeds the floor max(0, anchor - 0.03), then
the 5th percentile after stage A4 is at least that floor minus the 1e-5
renormalization tolerance. -/
theorem C4_black_floor_amended (nPix : ℕ) (mask : ℕ → Bool)
    (bDelta cRefBlack blackRange : ℝ) (Lin : ℕ → ℝ)
    (hcR : cRefBlack ≤ 0.2)
    (hrange : ∀ i, mask i = true → 0 ≤ Lin i ∧ Lin i ≤ 1)
    (hfloor : max 0 (cRefBlack - 0.03) <
      percentileFromLGrid Lin mask nPix 0.05) :
    max 0 (cRefBlack - 0.03) - 1e-5 ≤
      percentileFromLGrid (stageA4 nPix mask bDelta cRefBlack blackRange Lin)
        mask nPix 0.05 := by
  simp only [stageA4]
  by_cases hgate : 1e-3 < |bDelta|
  · rw [if_pos hgate]
    set pulled := stageA4Pulled mask bDelta cRefBlack blackRange Lin with hpulled
    set p5Before := percentileFromLGrid Lin mask nPix 0.05 with hp5B
    set p5After := percentileFromLGrid pulled mask nPix 0.05 with hp5A
    set minAllowed := max 0 (cRefBlack - 0.03) with hminA
    have hmin0 : (0 : ℝ) ≤ minAllowed := by
      rw [hminA]
      exact le_max_left _ _
    have hmin1 : minAllowed ≤ 1 := by
      rw [hminA]
      exact max_le (by norm_num) (by linarith)
    have hne : ((List.range nPix).filter (fun i => mask i)) ≠ [] := by
      intro hnil
      have h0 : p5Before = 0 := by
        rw [hp5B, percentileFromLGrid]
        simp [hnil]
      rw [h0] at hfloor
      linarith
    have hcpos := stageA4Ceiling_pos bDelta cRefBlack blackRange
    have hmem : ∀ x ∈ ((List.range nPix).filter (fun i => mask i)).map Lin,
        0 ≤ x ∧ x ≤ 1 := by
      intro x hx
      rcases List.mem_map.mp hx with ⟨i, hi, rfl⟩
      exact hrange i (List.mem_filter.mp hi).2
    rcases lt_or_le bDelta 0 with hneg | hpos
    · have hB : ∀ i, mask i = true → pulled i =
          stageA4Pull bDelta (stageA4Ceiling bDelta cRefBlack blackRange)
            (stageA4Wide bDelta cRefBlack) (Lin i) := by
        intro i hi
        rw [hpulled]
        simp [stageA4Pulled, hi]
      have hgmono : ∀ x ∈ ((List.range nPix).filter (fun i => mask i)).map Lin,
          ∀ y ∈ ((List.range nPix).filter (fun i => mask i)).map Lin, x ≤ y →
          stageA4Pull bDelta (stageA4Ceiling bDelta cRefBlack blackRange)
              (stageA4Wide bDelta cRefBlack) x ≤
            stageA4Pull bDelta (stageA4Ceiling bDelta cRefBlack blackRange)
              (stageA4Wide bDelta cRefBlack) y := by
        intro x hx y hy hxy
        exact stageA4Pull_mono _ _ _ hneg hcpos (hmem x hx).1 hxy
      have hcomm : p5After =
          stageA4Pull bDelta (stageA4Ceiling bDelta cRefBlack blackRange)
            (stageA4Wide bDelta cRefBlack) p5Before := by
        rw [hp5A, hp5B]
        exact percentileFromLGrid_comm _ Lin pulled mask nPix 0.05 hB hgmono hne
      by_cases hcond : p5After < minAllowed ∧ minAllowed < p5Before
      · rw [if_pos hcond]
        by_cases hdiff : 1e-5 < |p5After - p5Before|
        · rw [if_pos hdiff]
          set al := max 0 (min 1 ((minAllowed - p5Before) / (p5After - p5Before)))
            with hal
          have hden : p5After - p5Before < 0 := by
            have := hcond.1
            have := hcond.2
            linarith
          have hr0 : 0 ≤ (minAllowed - p5Before) / (p5After - p5Before) := by
            rw [div_nonneg_iff]
            right
            constructor
            · have := hcond.2
              linarith
            · exact hden.le
          have hr1 : (minAllowed - p5Before) / (p5After - p5Before) ≤ 1 := by
            by_contra hgt
            push_neg at hgt
            have hmul := mul_lt_mul_of_neg_right hgt hden
            rw [div_mul_cancel₀ _ hden.ne, one_mul] at hmul
            have := hcond.1
            linarith
          have halr : al = (minAllowed - p5Before) / (p5After - p5Before) := by
            rw [hal, min_eq_right hr1, max_eq_right hr0]
          have halm : al * (p5After - p5Before) = minAllowed - p5Before := by
            rw [halr, div_mul_cancel₀ _ hden.ne]
          have hal0 : 0 ≤ al := by
            rw [halr]
            exact hr0
          have hal1 : al ≤ 1 := by
            rw [halr]
            exact hr1
          have hB2 : ∀ i, mask i = true →
              (fun idx => if mask idx then
                  clamp01 (Lin idx + al * (pulled idx - Lin idx))
                else pulled idx) i =
              (fun v => clamp01 (v + al *
                (stageA4Pull bDelta (stageA4Ceiling bDelta cRefBlack blackRange)
                  (stageA4Wide bDelta cRefBlack) v - v))) (Lin i) := by
            intro i hi
            simp only [hi, if_pos]
            rw [hB i hi]
          have hHmono : ∀ x ∈ ((List.range nPix).filter (fun i => mask i)).map Lin,
              ∀ y ∈ ((List.range nPix).filter (fun i => mask i)).map Lin, x ≤ y →
              (fun v => clamp01 (v + al *
                (stageA4Pull bDelta (stageA4Ceiling bDelta cRefBlack blackRange)
                  (stageA4Wide bDelta cRefBlack) v - v))) x ≤
              (fun v => clamp01 (v + al *
                (stageA4Pull bDelta (stageA4Ceiling bDelta cRefBlack blackRange)
                  (stageA4Wide bDelta cRefBlack) v - v))) y := by
            intro x hx y hy hxy
            apply clamp01_mono
            have hg := hgmono x hx y hy hxy
            have h1 : (1 - al) * x ≤ (1 - al) * y :=
              mul_le_mul_of_nonneg_left hxy (by linarith)
            have h2 : al * stageA4Pull bDelta
                  (stageA4Ceiling bDelta cRefBlack blackRange)
                  (stageA4Wide bDelta cRefBlack) x ≤
                al * stageA4Pull bDelta
                  (stageA4Ceiling bDelta cRefBlack blackRange)
                  (stageA4Wide bDelta cRefBlack) y :=
              mul_le_mul_of_nonneg_left hg hal0
            nlinarith [h1, h2]
          have hfin : percentileFromLGrid
              (fun idx => if mask idx then
                  clamp01 (Lin idx + al * (pulled idx - Lin idx))
                else pulled idx) mask nPix 0.05 =
              clamp01 (p5Before + al *
                (stageA4Pull bDelta (stageA4Ceiling bDelta cRefBlack blackRange)
                  (stageA4Wide bDelta cRefBlack) p5Before - p5Before)) := by
            rw [hp5B]
            exact percentileFromLGrid_comm _ Lin _ mask nPix 0.05 hB2 hHmono hne
          rw [hfin, ← hcomm]
          rw [show p5Before + al * (p5After - p5Before) = minAllowed by linarith [halm]]
          rw [clamp01_of_mem hmin0 hmin1]
          linarith
        · rw [if_neg hdiff]
          push_neg at hdiff
          have habs := abs_le.mp hdiff
          have := hcond.2
          linarith [habs.1, habs.2]
      · rw [if_neg hcond]
        push_neg at hcond
        rcases lt_or_le p5After minAllowed with hlt | hge
        · exact absurd hfloor (by simpa using hcond hlt)
        · linarith
    · have hpt : ∀ i, mask i = true → Lin i ≤ pulled i := by
        intro i hi
        rw [hpulled]
        simp only [stageA4Pulled, hi, if_pos]
        exact stageA4Pull_ge _ _ _ hpos hcpos (hrange i hi).1 (hrange i hi).2
      have hle : p5Before ≤ p5After := by
        rw [hp5B, hp5A]
        exact percentile_mono_of_pointwise Lin pulled mask nPix 0.05 hpt
      have hcond : ¬(p5After < minAllowed ∧ minAllowed < p5Before) := by
        rintro ⟨h1, h2⟩
        linarith
      rw [if_neg hcond]
      linarith
  · rw [if_neg hgate]
    linarith

theorem srgb8ToLinear_255 : srgb8ToLinear 255 = 1 := by
  simp only [srgb8ToLinear]
  rw [if_neg (by norm_num)]
  rw [show (((255 : ℕ) : ℝ) / 255 + 0.055) / 1.055 = 1 by norm_num]
  exact Real.one_rpow _

theorem cbrt_le_one {x : ℝ} (h0 : 0 ≤ x) (h1 : x ≤ 1) : cbrt x ≤ 1 := by
  rw [cbrt_of_nonneg h0]
  exact Real.rpow_le_one h0 h1 (by norm_num)

theorem le_cbrt_self {x : ℝ} (h0 : 0 < x) (h1 : x ≤ 1) : x ≤ cbrt x := by
  rw [cbrt_of_nonneg h0.le]
  calc x = x ^ (1 : ℝ) := (Real.rpow_one x).symm
    _ ≤ x ^ ((1 : ℝ) / 3) := Real.rpow_le_rpow_of_exponent_ge h0 h1 (by norm_num)

theorem whiteImage1_mask : maskOf whiteImage1 0 = true := rfl

theorem whiteImage1_L : (pixelLab whiteImage1 0).L =
    0.2104542553 + 0.793617785 * cbrt 0.9999999999 - 0.0040720468 := by
  have h0 : whiteImage1.data (4 * 0) = 255 := rfl
  have h1 : whiteImage1.data (4 * 0 + 1) = 255 := rfl
  have h2 : whiteImage1.data (4 * 0 + 2) = 255 := rfl
  rw [pixelLab, h0, h1, h2]
  simp only [srgb8ToOklab, srgb8ToLinear_255]
  norm_num [cbrt_one]

theorem whiteImage1_L_bounds :
    0.999 ≤ (pixelLab whiteImage1 0).L ∧ (pixelLab whiteImage1 0).L ≤ 0.9999999935 := by
  rw [whiteImage1_L]
  have hlo : (0.9999999999 : ℝ) ≤ cbrt 0.9999999999 :=
    le_cbrt_self (by norm_num) (by norm_num)
  have hhi : cbrt (0.9999999999 : ℝ) ≤ 1 := cbrt_le_one (by norm_num) (by norm_num)
  constructor <;> nlinarith [hlo, hhi]

theorem whiteImage1_sourceBlackL :
    sourceBlackL whiteImage1.data 1 = (pixelLab whiteImage1 0).L := by
  have hmp : maskedPixels whiteImage1.data 1 = [0] := rfl
  rw [sourceBlackL, hmp]
  norm_num [pixelL, pixelLab, sortAsc, List.insertionSort, Nat.floor_eq_zero]

theorem C4_blackDelta : blackDelta whiteImage1 C4params =
    8 * (0.2 - (pixelLab whiteImage1 0).L) := by
  rw [blackDelta, clampedBlackStrength, clampedRefBlack]
  have h1 : C4params.blackStrength = some 8 := rfl
  have h2 : C4params.refBlackL = some 0.5 := rfl
  have hn : whiteImage1.width * whiteImage1.height = 1 := rfl
  rw [h1, h2, hn, whiteImage1_sourceBlackL]
  norm_num

theorem C4_bd_bounds : -6.4 ≤ blackDelta whiteImage1 C4params ∧
    blackDelta whiteImage1 C4params ≤ -6.392 := by
  rw [C4_blackDelta]
  constructor
  · linarith [whiteImage1_L_bounds.2]
  · linarith [whiteImage1_L_bounds.1]

theorem C4_Lsrc : LsrcBuf whiteImage1 C4params 0 = (pixelLab whiteImage1 0).L := by
  rw [LsrcBuf]
  simp only [whiteImage1_mask, if_true,
    exposureDelta_of_zero whiteImage1 C4params rfl]
  rw [add_zero]
  exact clamp01_of_mem (by linarith [whiteImage1_L_bounds.1])
    (by linarith [whiteImage1_L_bounds.2])

theorem C4_Ltone : LtoneBuf whiteImage1 C4params 0 = 0.5 := by
  have htc : C4params.toneCurve = some ⟨[0, 1], [0.5, 0.5]⟩ := rfl
  have hb := whiteImage1_L_bounds
  rw [LtoneBuf]
  simp only [whiteImage1_mask, if_true, C4_Lsrc, htc]
  rw [if_pos (by norm_num)]
  rw [piecewiseLinear]
  rw [if_neg (by norm_num)]
  rw [if_neg (by simp only [List.getD_cons_zero]; push_neg; linarith [hb.1])]
  rw [if_neg (by
    simp only [List.length_cons, List.length_nil, List.getD_cons_succ,
      List.getD_cons_zero]
    push_neg
    norm_num
    linarith [hb.2])]
  rw [piecewiseLinearScan_step _ _ _ 0 (by norm_num)]
  rw [if_pos (by
    simp only [List.getD_cons_zero, List.getD_cons_succ]
    exact ⟨by linarith [hb.1], by linarith [hb.2]⟩)]
  simp only [List.getD_cons_zero, List.getD_cons_succ]
  rw [show (0.5 : ℝ) + ((pixelLab whiteImage1 0).L - 0) / (1 - 0) * (0.5 - 0.5)
      = 0.5 by ring]
  exact clamp01_of_mem (by norm_num) (by norm_num)

theorem C4_lumaBlend : lumaBlendOf C4params = 1 := by
  have h : C4params.lumaStrength = some 1 := rfl
  rw [lumaBlendOf, lumaSOf, h]
  norm_num

theorem C4_LlumaA3 : LlumaA3Buf whiteImage1 C4params 0 = 0.5 := by
  rw [LlumaA3Buf, C4_lumaBlend]
  rw [if_pos (by norm_num)]
  rw [C4_Lsrc, C4_Ltone]
  rw [show (pixelLab whiteImage1 0).L + 1 * (0.5 - (pixelLab whiteImage1 0).L)
      = 0.5 by ring]
  exact clamp01_of_mem (by norm_num) (by norm_num)

theorem percentileFromLGrid_single (Lg : ℕ → ℝ) (mask : ℕ → Bool)
    (hm : mask 0 = true) (p : ℝ) : percentileFromLGrid Lg mask 1 p = Lg 0 := by
  rw [percentileFromLGrid]
  have hr : List.range 1 = [0] := rfl
  simp only [hr, List.filter_cons, hm, if_true, List.filter_nil,
    List.map_cons, List.map_nil, List.length_cons, List.length_nil]
  norm_num [sortAsc, List.insertionSort]

theorem C4_black_floor_amended_witness :
    (0.1 : ℝ) ≤ 0.2 ∧
    max 0 ((0.1 : ℝ) - 0.03) <
      percentileFromLGrid (fun _ => 0.5) (fun _ => true) 1 0.05 ∧
    max 0 ((0.1 : ℝ) - 0.03) - 1e-5 ≤
      percentileFromLGrid (stageA4 1 (fun _ => true) (-1) 0.1 0.6 (fun _ => 0.5))
        (fun _ => true) 1 0.05 :=
  ⟨by norm_num,
   by rw [percentileFromLGrid_single _ _ rfl]; norm_num,
   C4_black_floor_amended 1 (fun _ => true) (-1) 0.1 0.6 (fun _ => 0.5)
     (by norm_num) (fun i _ => by norm_num)
     (by rw [percentileFromLGrid_single _ _ rfl]; norm_num)⟩

theorem C4_refBlack : clampedRefBlack C4params = 0.2 := by
  rw [clampedRefBlack]
  have h : C4params.refBlackL = some 0.5 := rfl
  rw [h]
  norm_num

theorem C4_wide : stageA4Wide (blackDelta whiteImage1 C4params) 0.2 = false := by
  rw [stageA4Wide]
  simp only [decide_eq_false_iff_not]
  rintro ⟨-, h⟩
  norm_num at h

theorem C4_ceiling :
    stageA4Ceiling (blackDelta whiteImage1 C4params) 0.2 0.6 = 0.6 := by
  rw [stageA4Ceiling, C4_wide]
  rw [if_neg (by simp)]
  rw [baseShadowCeilingOf]
  norm_num

theorem C4_pull_val : stageA4Pull (blackDelta whiteImage1 C4params) 0.6 false 0.5 =
    0.5 + blackDelta whiteImage1 C4params * (1 / 36) := by
  have hbd := C4_bd_bounds
  simp only [stageA4Pull]
  rw [if_pos (by norm_num)]
  rw [if_neg (by simp)]
  rw [show ((1 : ℝ) - 0.5 / 0.6) * (1 - 0.5 / 0.6) = 1 / 36 by norm_num]
  exact clamp01_of_mem (by linarith [hbd.1]) (by linarith [hbd.2])

theorem C4_A4_val : LlumaA4Buf whiteImage1 C4params 0 =
    0.5 + blackDelta whiteImage1 C4params * (1 / 36) := by
  have hbd := C4_bd_bounds
  rw [LlumaA4Buf]
  have hn : whiteImage1.width * whiteImage1.height = 1 := rfl
  have hbr : C4params.blackRange.getD 0.6 = 0.6 := rfl
  rw [hn, C4_refBlack, hbr]
  simp only [stageA4]
  rw [if_pos (show (1e-3 : ℝ) < |blackDelta whiteImage1 C4params| by
    rw [abs_of_neg (by linarith [hbd.2])]
    linarith [hbd.2])]
  have hpul0 : stageA4Pulled (maskOf whiteImage1) (blackDelta whiteImage1 C4params)
      0.2 0.6 (LlumaA3Buf whiteImage1 C4params) 0 =
      0.5 + blackDelta whiteImage1 C4params * (1 / 36) := by
    simp only [stageA4Pulled, whiteImage1_mask, if_true]
    rw [C4_LlumaA3, C4_ceiling, C4_wide, C4_pull_val]
  have hp5A : percentileFromLGrid
      (stageA4Pulled (maskOf whiteImage1) (blackDelta whiteImage1 C4params)
        0.2 0.6 (LlumaA3Buf whiteImage1 C4params)) (maskOf whiteImage1) 1 0.05 =
      0.5 + blackDelta whiteImage1 C4params * (1 / 36) := by
    rw [percentileFromLGrid_single _ _ whiteImage1_mask, hpul0]
  have hp5B : percentileFromLGrid (LlumaA3Buf whiteImage1 C4params)
      (maskOf whiteImage1) 1 0.05 = 0.5 := by
    rw [percentileFromLGrid_single _ _ whiteImage1_mask, C4_LlumaA3]
  rw [hp5A, hp5B]
  rw [if_neg (by
    rintro ⟨h1, -⟩
    have hmx : (max 0 (0.2 - 0.03) : ℝ) = 0.17 := by norm_num
    rw [hmx] at h1
    linarith [hbd.1])]
  exact hpul0

/-- Claim C4: counterexample.  On the 1x1 opaque white image with a constant
tone curve at 0.5, refBlackL = 0.5 and blackStrength = 8, the pre-alignment
5th-percentile L (0.5) exceeds max(0, refBlackL - 0.03) = 0.47, yet after
stage A4 the 5th-percentile L is about 0.322, more than 0.03 below the
reference black anchor: the code clamps the anchor to 0.2 and only enforces
the floor max(0, 0.2 - 0.03). -/
theorem C4_counterexample :
    max 0 (C4params.refBlackL.getD 0.05 - 0.03) <
      percentileFromLGrid (LlumaA3Buf whiteImage1 C4params) (maskOf whiteImage1)
        (whiteImage1.width * whiteImage1.height) 0.05 ∧
    percentileFromLGrid (LlumaA4Buf whiteImage1 C4params) (maskOf whiteImage1)
      (whiteImage1.width * whiteImage1.height) 0.05 <
      C4params.refBlackL.getD 0.05 - 0.03 := by
  have hbd := C4_bd_bounds
  have hn : whiteImage1.width * whiteImage1.height = 1 := rfl
  have hrB : C4params.refBlackL.getD 0.05 = 0.5 := rfl
  rw [hn, hrB]
  rw [percentileFromLGrid_single _ _ whiteImage1_mask,
    percentileFromLGrid_single _ _ whiteImage1_mask]
  rw [C4_LlumaA3, C4_A4_val]
  constructor
  · norm_num
  · linarith [hbd.2]

/-! Claim C2: numeric round trip of the OKLab conversion. -/

theorem cbrt_nonneg {x : ℝ} (h : 0 ≤ x) : 0 ≤ cbrt x := by
  rw [cbrt_of_nonneg h]
  exact Real.rpow_nonneg h _

theorem cbrt_cube {x : ℝ} (h : 0 ≤ x) : cbrt x * cbrt x * cbrt x = x := by
  rw [cbrt_of_nonneg h]
  rw [show x ^ ((1 : ℝ) / 3) * x ^ ((1 : ℝ) / 3) * x ^ ((1 : ℝ) / 3)
      = (x ^ ((1 : ℝ) / 3)) ^ (3 : ℕ) by ring]
  rw [← Real.rpow_natCast (x ^ ((1 : ℝ) / 3)) 3, ← Real.rpow_mul h]
  norm_num

theorem srgb8ToLinear_nonneg (c : ℕ) : 0 ≤ srgb8ToLinear c := by
  simp only [srgb8ToLinear]
  split
  · positivity
  · exact Real.rpow_nonneg (by positivity) _

theorem srgb8ToLinear_le_one {c : ℕ} (h : c ≤ 255) : srgb8ToLinear c ≤ 1 := by
  have hc : ((c : ℕ) : ℝ) ≤ 255 := by exact_mod_cast h
  have hc0 : (0 : ℝ) ≤ (c : ℝ) := Nat.cast_nonneg c
  simp only [srgb8ToLinear]
  split
  · rw [div_div, div_le_one (by norm_num)]
    linarith
  · apply Real.rpow_le_one (by positivity)
    · rw [div_le_one (by norm_num), div_add' _ _ _ (by norm_num : (255:ℝ) ≠ 0),
        div_le_iff₀ (by norm_num : (0:ℝ) < 255)]
      linarith
    · norm_num

/-- The threshold power t^(5/12) for t = 0.0031308, bracketed by rationals
certified through 12th powers. -/
theorem t512_bounds : (0.09047 : ℝ) ≤ (0.0031308 : ℝ) ^ ((5 : ℝ) / 12) ∧
    (0.0031308 : ℝ) ^ ((5 : ℝ) / 12) ≤ 0.0905 := by
  have hx0 : (0 : ℝ) ≤ (0.0031308 : ℝ) ^ ((5 : ℝ) / 12) :=
    Real.rpow_nonneg (by norm_num) _
  have h12 : ((0.0031308 : ℝ) ^ ((5 : ℝ) / 12)) ^ (12 : ℕ) =
      (0.0031308 : ℝ) ^ (5 : ℕ) := by
    rw [← Real.rpow_natCast ((0.0031308 : ℝ) ^ ((5 : ℝ) / 12)) 12,
      ← Real.rpow_mul (by norm_num)]
    rw [show (5 : ℝ) / 12 * (12 : ℕ) = ((5 : ℕ) : ℝ) by norm_num]
    rw [Real.rpow_natCast]
  constructor
  · by_contra hlt
    push_neg at hlt
    have h1 : ((0.0031308 : ℝ) ^ ((5 : ℝ) / 12)) ^ (12 : ℕ) ≤
        (0.09047 : ℝ) ^ (12 : ℕ) := pow_le_pow_left₀ hx0 hlt.le 12
    rw [h12] at h1
    norm_num at h1
  · by_contra hlt
    push_neg at hlt
    have h1 : (0.0905 : ℝ) ^ (12 : ℕ) ≤
        ((0.0031308 : ℝ) ^ ((5 : ℝ) / 12)) ^ (12 : ℕ) :=
      pow_le_pow_left₀ (by norm_num) hlt.le 12
    rw [h12] at h1
    norm_num at h1

/-- Forward transfer followed by the unrounded backward transfer is exact on
every byte: the branch cut at 0.0031308 corresponds to the byte cut 10/11. -/
theorem forward_exact {r : ℕ} (hr : r ≤ 255) :
    linearToSrgb8Val (srgb8ToLinear r) = r / 255 := by
  have hc : ((r : ℕ) : ℝ) ≤ 255 := by exact_mod_cast hr
  have hc0 : (0 : ℝ) ≤ (r : ℝ) := Nat.cast_nonneg r
  rcases le_or_lt r 10 with h10 | h11
  · have hcr : ((r : ℕ) : ℝ) ≤ 10 := by exact_mod_cast h10
    simp only [srgb8ToLinear]
    rw [if_pos (by rw [div_le_iff₀ (by norm_num : (0:ℝ) < 255)]; linarith)]
    rw [linearToSrgb8Val]
    rw [if_pos (show (r : ℝ) / 255 / 12.92 ≤ 0.0031308 by
      rw [div_div, div_le_iff₀ (by norm_num : (0:ℝ) < 255 * 12.92)]; linarith)]
    field_simp
    ring
  · have hcr : (11 : ℝ) ≤ ((r : ℕ) : ℝ) := by exact_mod_cast h11
    simp only [srgb8ToLinear]
    rw [if_neg (by rw [not_le, lt_div_iff₀ (by norm_num : (0:ℝ) < 255)]; linarith)]
    set q : ℝ := ((r : ℝ) / 255 + 0.055) / 1.055 with hq
    have hq0 : 0 ≤ q := by rw [hq]; positivity
    have hq11 : (1001 : ℝ) / 10761 ≤ q := by
      rw [hq, div_le_div_iff (by norm_num) (by norm_num)]
      linarith
    have hq11pow : (0.0031308 : ℝ) < ((1001 : ℝ) / 10761) ^ (2.4 : ℝ) := by
      by_contra hle
      push_neg at hle
      have h5 : (((1001 : ℝ) / 10761) ^ (2.4 : ℝ)) ^ (5 : ℕ) ≤
          (0.0031308 : ℝ) ^ (5 : ℕ) :=
        pow_le_pow_left₀ (Real.rpow_nonneg (by norm_num) _) hle 5
      have hq12 : (((1001 : ℝ) / 10761) ^ (2.4 : ℝ)) ^ (5 : ℕ) =
          ((1001 : ℝ) / 10761) ^ (12 : ℕ) := by
        rw [← Real.rpow_natCast (((1001 : ℝ) / 10761) ^ (2.4 : ℝ)) 5,
          ← Real.rpow_mul (by norm_num)]
        rw [show (2.4 : ℝ) * ((5 : ℕ) : ℝ) = ((12 : ℕ) : ℝ) by norm_num]
        rw [Real.rpow_natCast]
      rw [hq12] at h5
      norm_num at h5
    have hgt : (0.0031308 : ℝ) < q ^ (2.4 : ℝ) :=
      lt_of_lt_of_le hq11pow (Real.rpow_le_rpow (by norm_num) hq11 (by norm_num))
    rw [linearToSrgb8Val, if_neg (not_le.mpr hgt)]
    rw [← Real.rpow_mul hq0, show (2.4 : ℝ) * (1 / 2.4) = 1 by norm_num,
      Real.rpow_one, hq]
    field_simp
    ring

/-- Slope bound for the power branch of the backward transfer above the
threshold: the 5/12 power grows at rate at most 12.1 there. -/
theorem rpow512_slope {x y : ℝ} (hx : 0.0031308 ≤ x) (hxy : x ≤ y) :
    y ^ ((5 : ℝ) / 12) - x ^ ((5 : ℝ) / 12) ≤ 12.1 * (y - x) := by
  have hx0 : (0 : ℝ) < x := lt_of_lt_of_le (by norm_num) hx
  have hy0 : (0 : ℝ) < y := lt_of_lt_of_le hx0 hxy
  have ht := t512_bounds
  have hA0 : (0 : ℝ) ≤ x ^ ((5 : ℝ) / 12) := Real.rpow_nonneg hx0.le _
  have hgm := Real.geom_mean_le_arith_mean2_weighted
    (by norm_num : (0:ℝ) ≤ 5 / 12) (by norm_num : (0:ℝ) ≤ 7 / 12)
    (le_of_lt (div_pos hy0 hx0)) zero_le_one (by norm_num)
  rw [Real.one_rpow, mul_one, mul_one] at hgm
  have hxyval : x * (y / x) = y := by field_simp
  have hsplit : y ^ ((5 : ℝ) / 12) = x ^ ((5 : ℝ) / 12) * (y / x) ^ ((5 : ℝ) / 12) := by
    rw [← Real.mul_rpow hx0.le (by positivity), hxyval]
  have step1 : y ^ ((5 : ℝ) / 12) ≤ x ^ ((5 : ℝ) / 12) * (5 / 12 * (y / x) + 7 / 12) := by
    rw [hsplit]
    exact mul_le_mul_of_nonneg_left hgm hA0
  have step2 : x ^ ((5 : ℝ) / 12) * (5 / 12 * (y / x) + 7 / 12) - x ^ ((5 : ℝ) / 12)
      = 5 / 12 * (x ^ ((5 : ℝ) / 12) * ((y - x) / x)) := by
    field_simp
    ring
  have hxb : x ^ ((5 : ℝ) / 12) ≤ ((0.0031308 : ℝ) ^ ((5 : ℝ) / 12) / 0.0031308) * x := by
    have hv1 : (1 : ℝ) ≤ x / 0.0031308 := (one_le_div (by norm_num)).mpr hx
    have hvpow : (x / 0.0031308) ^ ((5 : ℝ) / 12) ≤ x / 0.0031308 := by
      calc (x / 0.0031308) ^ ((5 : ℝ) / 12)
          ≤ (x / 0.0031308) ^ (1 : ℝ) :=
            Real.rpow_le_rpow_of_exponent_le hv1 (by norm_num)
        _ = x / 0.0031308 := Real.rpow_one _
    have hxsplit : x ^ ((5 : ℝ) / 12) =
        (0.0031308 : ℝ) ^ ((5 : ℝ) / 12) * (x / 0.0031308) ^ ((5 : ℝ) / 12) := by
      rw [← Real.mul_rpow (by norm_num) (by positivity)]
      rw [show (0.0031308 : ℝ) * (x / 0.0031308) = x by field_simp]
    rw [hxsplit]
    calc (0.0031308 : ℝ) ^ ((5 : ℝ) / 12) * (x / 0.0031308) ^ ((5 : ℝ) / 12)
        ≤ (0.0031308 : ℝ) ^ ((5 : ℝ) / 12) * (x / 0.0031308) :=
          mul_le_mul_of_nonneg_left hvpow (Real.rpow_nonneg (by norm_num) _)
      _ = ((0.0031308 : ℝ) ^ ((5 : ℝ) / 12) / 0.0031308) * x := by ring
  have hyx0 : (0 : ℝ) ≤ (y - x) / x := div_nonneg (by linarith) hx0.le
  have step3 : x ^ ((5 : ℝ) / 12) * ((y - x) / x) ≤
      ((0.0905 : ℝ) / 0.0031308) * x * ((y - x) / x) := by
    apply mul_le_mul_of_nonneg_right _ hyx0
    calc x ^ ((5 : ℝ) / 12)
        ≤ ((0.0031308 : ℝ) ^ ((5 : ℝ) / 12) / 0.0031308) * x := hxb
      _ ≤ ((0.0905 : ℝ) / 0.0031308) * x := by
          apply mul_le_mul_of_nonneg_right _ hx0.le
          rw [div_le_div_iff (by norm_num) (by norm_num)]
          nlinarith [ht.2]
  have step4 : ((0.0905 : ℝ) / 0.0031308) * x * ((y - x) / x) =
      (0.0905 / 0.0031308) * (y - x) := by
    field_simp
    ring
  have final : (5 : ℝ) / 12 * ((0.0905 / 0.0031308) * (y - x)) ≤ 12.1 * (y - x) := by
    nlinarith [sub_nonneg.mpr hxy]
  linarith [step1, step2, step3, step4, final]

/-- Monotone-case Lipschitz-with-jump bound for the backward transfer. -/
theorem linearToSrgb8Val_lip_le {x y : ℝ} (hxy : x ≤ y) :
    |linearToSrgb8Val x - linearToSrgb8Val y| ≤ 13 * (y - x) + 3e-5 := by
  have ht := t512_bounds
  rw [linearToSrgb8Val, linearToSrgb8Val]
  by_cases hxT : x ≤ 0.0031308
  · by_cases hyT : y ≤ 0.0031308
    · rw [if_pos hxT, if_pos hyT, abs_le]
      constructor <;> nlinarith
    · rw [if_pos hxT, if_neg hyT]
      push_neg at hyT
      have hs := rpow512_slope (le_refl (0.0031308 : ℝ)) hyT.le
      have hmono : (0.0031308 : ℝ) ^ ((5 : ℝ) / 12) ≤ y ^ ((5 : ℝ) / 12) :=
        Real.rpow_le_rpow (by norm_num) hyT.le (by norm_num)
      rw [show (1 : ℝ) / 2.4 = 5 / 12 by norm_num, abs_le]
      constructor <;> nlinarith [hs, hmono, ht.1, ht.2]
  · push_neg at hxT
    have hyT : ¬ y ≤ 0.0031308 := by push_neg; linarith
    rw [if_neg (not_le.mpr hxT), if_neg hyT]
    have hs := rpow512_slope hxT.le hxy
    have hmono : x ^ ((5 : ℝ) / 12) ≤ y ^ ((5 : ℝ) / 12) :=
      Real.rpow_le_rpow (by linarith) hxy (by norm_num)
    rw [show (1 : ℝ) / 2.4 = 5 / 12 by norm_num, abs_le]
    constructor <;> nlinarith [hs, hmono]

/-- Global Lipschitz-with-jump bound for the unrounded backward transfer. -/
theorem linearToSrgb8Val_lip (x y : ℝ) :
    |linearToSrgb8Val x - linearToSrgb8Val y| ≤ 13 * |x - y| + 3e-5 := by
  rcases le_total x y with h | h
  · have := linearToSrgb8Val_lip_le h
    rw [abs_sub_comm x y, abs_of_nonneg (sub_nonneg.mpr h)]
    exact this
  · have := linearToSrgb8Val_lip_le h
    rw [abs_sub_comm] at this
    rw [abs_of_nonneg (sub_nonneg.mpr h)]
    exact this

/-- If a linear value is within 4e-6 of the forward transfer of a byte, the
rounded backward conversion returns exactly that byte. -/
theorem byte_exact {r : ℕ} (hr : r ≤ 255) {x : ℝ}
    (hx : |x - srgb8ToLinear r| ≤ 4e-6) : linearToSrgb8 x = (r : ℤ) := by
  have hlip := linearToSrgb8Val_lip x (srgb8ToLinear r)
  have hfwd := forward_exact hr
  have hG : |linearToSrgb8Val x - (r : ℝ) / 255| ≤ 8.2e-5 := by
    rw [← hfwd]
    calc |linearToSrgb8Val x - linearToSrgb8Val (srgb8ToLinear r)|
        ≤ 13 * |x - srgb8ToLinear r| + 3e-5 := hlip
      _ ≤ 13 * 4e-6 + 3e-5 := by linarith
      _ ≤ 8.2e-5 := by norm_num
  have hr0 : (0 : ℝ) ≤ (r : ℝ) := Nat.cast_nonneg r
  have hr255 : (r : ℝ) ≤ 255 := by exact_mod_cast hr
  have habs := abs_le.mp hG
  rw [linearToSrgb8]
  have hv1 : linearToSrgb8Val x * 255 ≤ (r : ℝ) + 0.022 := by nlinarith [habs.2]
  have hv2 : (r : ℝ) - 0.022 ≤ linearToSrgb8Val x * 255 := by nlinarith [habs.1]
  have hcl1 : max 0 (min 255 (linearToSrgb8Val x * 255)) ≤ (r : ℝ) + 0.022 :=
    max_le (by linarith) (le_trans (min_le_right _ _) hv1)
  have hcl2 : (r : ℝ) - 0.022 ≤ max 0 (min 255 (linearToSrgb8Val x * 255)) :=
    le_trans (le_min (by linarith) hv2) (le_max_right _ _)
  rw [round_eq, Int.floor_eq_iff]
  constructor
  · push_cast
    linarith
  · push_cast
    linarith

theorem cube_close {u v : ℝ} (hv0 : 0 ≤ v) (hv1 : v ≤ 1) (h : |u - v| ≤ 1e-7) :
    |u * u * u - v * v * v| ≤ 4e-7 := by
  have h' := abs_le.mp h
  rw [abs_le]
  constructor <;>
    nlinarith [h'.1, h'.2, hv0, hv1, sq_nonneg (u - v), sq_nonneg (u + v),
      mul_nonneg hv0 hv0, sq_nonneg (u - v + 1e-7), sq_nonneg (u - v - 1e-7),
      mul_nonneg (mul_nonneg hv0 hv0) hv0]

/-- Numeric core of the round trip: if (u,v,w) are the cone cube roots of a
linear RGB triple in [0,1]^3 and (a',b') carry at most 1e-8 of slack, then
reconstructing the linear channels through the backward matrices lands within
4e-6 of the original channels. -/
theorem roundtrip_linear_close (lr lgv lbv u v w a' b' L : ℝ)
    (hlr0 : 0 ≤ lr) (hlr1 : lr ≤ 1) (hlg0 : 0 ≤ lgv) (hlg1 : lgv ≤ 1)
    (hlb0 : 0 ≤ lbv) (hlb1 : lbv ≤ 1)
    (hu0 : 0 ≤ u) (hu1 : u ≤ 1) (hv0 : 0 ≤ v) (hv1 : v ≤ 1)
    (hw0 : 0 ≤ w) (hw1 : w ≤ 1)
    (hu3 : u * u * u = 0.4122214708 * lr + 0.5363325363 * lgv + 0.0514459929 * lbv)
    (hv3 : v * v * v = 0.2119034982 * lr + 0.6806995451 * lgv + 0.1073969566 * lbv)
    (hw3 : w * w * w = 0.0883024619 * lr + 0.2817188376 * lgv + 0.6299787005 * lbv)
    (ha : |a' - (1.9779984951 * u - 2.428592205 * v + 0.4505937099 * w)| ≤ 1e-8)
    (hb : |b' - (0.0259040371 * u + 0.7827717662 * v - 0.808675766 * w)| ≤ 1e-8)
    (hL : L = 0.2104542553 * u + 0.793617785 * v - 0.0040720468 * w) :
    |4.0767416621 * ((L + 0.3963377774 * a' + 0.2158037573 * b') *
        (L + 0.3963377774 * a' + 0.2158037573 * b') *
        (L + 0.3963377774 * a' + 0.2158037573 * b')) -
      3.3077115913 * ((L - 0.1055613458 * a' - 0.0638541728 * b') *
        (L - 0.1055613458 * a' - 0.0638541728 * b') *
        (L - 0.1055613458 * a' - 0.0638541728 * b')) +
      0.2309699292 * ((L - 0.0894841775 * a' - 1.291485548 * b') *
        (L - 0.0894841775 * a' - 1.291485548 * b') *
        (L - 0.0894841775 * a' - 1.291485548 * b')) - lr| ≤ 4e-6 ∧
    |(-1.2684380046) * ((L + 0.3963377774 * a' + 0.2158037573 * b') *
        (L + 0.3963377774 * a' + 0.2158037573 * b') *
        (L + 0.3963377774 * a' + 0.2158037573 * b')) +
      2.6097574011 * ((L - 0.1055613458 * a' - 0.0638541728 * b') *
        (L - 0.1055613458 * a' - 0.0638541728 * b') *
        (L - 0.1055613458 * a' - 0.0638541728 * b')) -
      0.3413193965 * ((L - 0.0894841775 * a' - 1.291485548 * b') *
        (L - 0.0894841775 * a' - 1.291485548 * b') *
        (L - 0.0894841775 * a' - 1.291485548 * b')) - lgv| ≤ 4e-6 ∧
    |(-0.0041960863) * ((L + 0.3963377774 * a' + 0.2158037573 * b') *
        (L + 0.3963377774 * a' + 0.2158037573 * b') *
        (L + 0.3963377774 * a' + 0.2158037573 * b')) -
      0.7034186147 * ((L - 0.1055613458 * a' - 0.0638541728 * b') *
        (L - 0.1055613458 * a' - 0.0638541728 * b') *
        (L - 0.1055613458 * a' - 0.0638541728 * b')) +
      1.707614701 * ((L - 0.0894841775 * a' - 1.291485548 * b') *
        (L - 0.0894841775 * a' - 1.291485548 * b') *
        (L - 0.0894841775 * a' - 1.291485548 * b')) - lbv| ≤ 4e-6 := by
  have ha' := abs_le.mp ha
  have hb' := abs_le.mp hb
  set lc := L + 0.3963377774 * a' + 0.2158037573 * b' with hlcd
  set mc := L - 0.1055613458 * a' - 0.0638541728 * b' with hmcd
  set sc := L - 0.0894841775 * a' - 1.291485548 * b' with hscd
  have hlcu : |lc - u| ≤ 1e-7 := by
    rw [hlcd, hL, abs_le]
    constructor <;> linarith
  have hmcv : |mc - v| ≤ 1e-7 := by
    rw [hmcd, hL, abs_le]
    constructor <;> linarith
  have hscw : |sc - w| ≤ 1e-7 := by
    rw [hscd, hL, abs_le]
    constructor <;> linarith
  have hcu := abs_le.mp (cube_close hu0 hu1 hlcu)
  have hcv := abs_le.mp (cube_close hv0 hv1 hmcv)
  have hcw := abs_le.mp (cube_close hw0 hw1 hscw)
  rw [hu3] at hcu
  rw [hv3] at hcv
  rw [hw3] at hcw
  refine ⟨?_, ?_, ?_⟩ <;> rw [abs_le] <;> constructor <;>
    linarith [hcu.1, hcu.2, hcv.1, hcv.2, hcw.1, hcw.2]

/-- Full byte-level round trip with slack: srgb8ToOklab then oklabToSrgb8
(allowing up to 1e-8 perturbation of a and b) returns the original bytes. -/
theorem oklab_roundtrip_exact (r g b : ℕ) (hr : r ≤ 255) (hg : g ≤ 255)
    (hb : b ≤ 255) (a' b' : ℝ)
    (ha : |a' - (srgb8ToOklab r g b).a| ≤ 1e-8)
    (hbb : |b' - (srgb8ToOklab r g b).b| ≤ 1e-8) :
    oklabToSrgb8 (srgb8ToOklab r g b).L a' b' = ⟨(r : ℤ), (g : ℤ), (b : ℤ)⟩ := by
  have hlr0 := srgb8ToLinear_nonneg r
  have hlr1 := srgb8ToLinear_le_one hr
  have hlg0 := srgb8ToLinear_nonneg g
  have hlg1 := srgb8ToLinear_le_one hg
  have hlb0 := srgb8ToLinear_nonneg b
  have hlb1 := srgb8ToLinear_le_one hb
  have hl0 : (0:ℝ) ≤ 0.4122214708 * srgb8ToLinear r + 0.5363325363 * srgb8ToLinear g
      + 0.0514459929 * srgb8ToLinear b := by linarith
  have hl1 : 0.4122214708 * srgb8ToLinear r + 0.5363325363 * srgb8ToLinear g
      + 0.0514459929 * srgb8ToLinear b ≤ 1 := by linarith
  have hm0 : (0:ℝ) ≤ 0.2119034982 * srgb8ToLinear r + 0.6806995451 * srgb8ToLinear g
      + 0.1073969566 * srgb8ToLinear b := by linarith
  have hm1 : 0.2119034982 * srgb8ToLinear r + 0.6806995451 * srgb8ToLinear g
      + 0.1073969566 * srgb8ToLinear b ≤ 1 := by linarith
  have hs0 : (0:ℝ) ≤ 0.0883024619 * srgb8ToLinear r + 0.2817188376 * srgb8ToLinear g
      + 0.6299787005 * srgb8ToLinear b := by linarith
  have hs1 : 0.0883024619 * srgb8ToLinear r + 0.2817188376 * srgb8ToLinear g
      + 0.6299787005 * srgb8ToLinear b ≤ 1 := by linarith
  have hared : (srgb8ToOklab r g b).a =
      1.9779984951 * cbrt (0.4122214708 * srgb8ToLinear r + 0.5363325363 *
        srgb8ToLinear g + 0.0514459929 * srgb8ToLinear b)
      - 2.428592205 * cbrt (0.2119034982 * srgb8ToLinear r + 0.6806995451 *
        srgb8ToLinear g + 0.1073969566 * srgb8ToLinear b)
      + 0.4505937099 * cbrt (0.0883024619 * srgb8ToLinear r + 0.2817188376 *
        srgb8ToLinear g + 0.6299787005 * srgb8ToLinear b) := rfl
  have hbred : (srgb8ToOklab r g b).b =
      0.0259040371 * cbrt (0.4122214708 * srgb8ToLinear r + 0.5363325363 *
        srgb8ToLinear g + 0.0514459929 * srgb8ToLinear b)
      + 0.7827717662 * cbrt (0.2119034982 * srgb8ToLinear r + 0.6806995451 *
        srgb8ToLinear g + 0.1073969566 * srgb8ToLinear b)
      - 0.808675766 * cbrt (0.0883024619 * srgb8ToLinear r + 0.2817188376 *
        srgb8ToLinear g + 0.6299787005 * srgb8ToLinear b) := rfl
  have hLred : (srgb8ToOklab r g b).L =
      0.2104542553 * cbrt (0.4122214708 * srgb8ToLinear r + 0.5363325363 *
        srgb8ToLinear g + 0.0514459929 * srgb8ToLinear b)
      + 0.793617785 * cbrt (0.2119034982 * srgb8ToLinear r + 0.6806995451 *
        srgb8ToLinear g + 0.1073969566 * srgb8ToLinear b)
      - 0.0040720468 * cbrt (0.0883024619 * srgb8ToLinear r + 0.2817188376 *
        srgb8ToLinear g + 0.6299787005 * srgb8ToLinear b) := rfl
  have hcore := roundtrip_linear_close (srgb8ToLinear r) (srgb8ToLinear g)
    (srgb8ToLinear b)
    (cbrt (0.4122214708 * srgb8ToLinear r + 0.5363325363 * srgb8ToLinear g
      + 0.0514459929 * srgb8ToLinear b))
    (cbrt (0.2119034982 * srgb8ToLinear r + 0.6806995451 * srgb8ToLinear g
      + 0.1073969566 * srgb8ToLinear b))
    (cbrt (0.0883024619 * srgb8ToLinear r + 0.2817188376 * srgb8ToLinear g
      + 0.6299787005 * srgb8ToLinear b))
    a' b' ((srgb8ToOklab r g b).L)
    hlr0 hlr1 hlg0 hlg1 hlb0 hlb1
    (cbrt_nonneg hl0) (cbrt_le_one hl0 hl1)
    (cbrt_nonneg hm0) (cbrt_le_one hm0 hm1)
    (cbrt_nonneg hs0) (cbrt_le_one hs0 hs1)
    (cbrt_cube hl0) (cbrt_cube hm0) (cbrt_cube hs0)
    (by rw [← hared]; exact ha)
    (by rw [← hbred]; exact hbb)
    hLred
  have e1 : (oklabToSrgb8 (srgb8ToOklab r g b).L a' b').r = (r : ℤ) :=
    byte_exact hr hcore.1
  have e2 : (oklabToSrgb8 (srgb8ToOklab r g b).L a' b').g = (g : ℤ) :=
    byte_exact hg hcore.2.1
  have e3 : (oklabToSrgb8 (srgb8ToOklab r g b).L a' b').b = (b : ℤ) :=
    byte_exact hb hcore.2.2
  calc oklabToSrgb8 (srgb8ToOklab r g b).L a' b'
      = ⟨(oklabToSrgb8 (srgb8ToOklab r g b).L a' b').r,
        (oklabToSrgb8 (srgb8ToOklab r g b).L a' b').g,
        (oklabToSrgb8 (srgb8ToOklab r g b).L a' b').b⟩ := rfl
    _ = ⟨(r : ℤ), (g : ℤ), (b : ℤ)⟩ := by rw [e1, e2, e3]

/-- Claim C2: for every 8-bit triple (r,g,b), oklabToSrgb8 applied to
srgb8ToOklab (r,g,b) reproduces each channel within one 8-bit step (in fact
the round trip is exact: the reconstructed value stays within about 0.02 of
the original byte, so rounding returns it unchanged). -/
theorem C2_roundtrip (r g b : ℕ) (hr : r ≤ 255) (hg : g ≤ 255) (hb : b ≤ 255) :
    |(oklabToSrgb8 (srgb8ToOklab r g b).L (srgb8ToOklab r g b).a
        (srgb8ToOklab r g b).b).r - (r : ℤ)| ≤ 1 ∧
    |(oklabToSrgb8 (srgb8ToOklab r g b).L (srgb8ToOklab r g b).a
        (srgb8ToOklab r g b).b).g - (g : ℤ)| ≤ 1 ∧
    |(oklabToSrgb8 (srgb8ToOklab r g b).L (srgb8ToOklab r g b).a
        (srgb8ToOklab r g b).b).b - (b : ℤ)| ≤ 1 := by
  have h := oklab_roundtrip_exact r g b hr hg hb (srgb8ToOklab r g b).a
    (srgb8ToOklab r g b).b (by rw [sub_self, abs_zero]; norm_num)
    (by rw [sub_self, abs_zero]; norm_num)
  rw [h]
  norm_num

theorem C2_roundtrip_witness :
    ((200 : ℕ) ≤ 255 ∧ (3 : ℕ) ≤ 255 ∧ (255 : ℕ) ≤ 255) ∧
    (|(oklabToSrgb8 (srgb8ToOklab 200 3 255).L (srgb8ToOklab 200 3 255).a
        (srgb8ToOklab 200 3 255).b).r - (200 : ℤ)| ≤ 1 ∧
      |(oklabToSrgb8 (srgb8ToOklab 200 3 255).L (srgb8ToOklab 200 3 255).a
        (srgb8ToOklab 200 3 255).b).g - (3 : ℤ)| ≤ 1 ∧
      |(oklabToSrgb8 (srgb8ToOklab 200 3 255).L (srgb8ToOklab 200 3 255).a
        (srgb8ToOklab 200 3 255).b).b - (255 : ℤ)| ≤ 1) :=
  ⟨⟨by decide, by decide, by decide⟩,
    C2_roundtrip 200 3 255 (by decide) (by decide) (by decide)⟩

/-! Claim C1: identity grading. -/

theorem cbrt_mono {x y : ℝ} (hx : 0 ≤ x) (hxy : x ≤ y) : cbrt x ≤ cbrt y := by
  rw [cbrt_of_nonneg hx, cbrt_of_nonneg (le_trans hx hxy)]
  exact Real.rpow_le_rpow hx hxy (by norm_num)

theorem cbrt_mul {x y : ℝ} (hx : 0 ≤ x) (hy : 0 ≤ y) :
    cbrt (x * y) = cbrt x * cbrt y := by
  rw [cbrt_of_nonneg (mul_nonneg hx hy), cbrt_of_nonneg hx, cbrt_of_nonneg hy]
  exact Real.mul_rpow hx hy

theorem cbrt_of_cube {c : ℝ} (hc : 0 ≤ c) : cbrt (c * c * c) = c := by
  rw [cbrt_of_nonneg (by positivity)]
  rw [show c * c * c = c ^ (3 : ℕ) by ring, ← Real.rpow_natCast c 3,
    ← Real.rpow_mul hc]
  norm_num

theorem self_le_cbrt {x : ℝ} (h0 : 0 ≤ x) (h1 : x ≤ 1) : x ≤ cbrt x := by
  rcases eq_or_lt_of_le h0 with h | h
  · rw [← h, cbrt_zero]
  · exact le_cbrt_self h h1

/-- On [0,1], the cube root satisfies 1 - x^(1/3) >= (1 - x)/3. -/
theorem one_sub_cbrt_ge {x : ℝ} (h0 : 0 ≤ x) (h1 : x ≤ 1) :
    (1 - x) / 3 ≤ 1 - cbrt x := by
  have hy0 : 0 ≤ cbrt x := cbrt_nonneg h0
  have hy1 : cbrt x ≤ 1 := cbrt_le_one h0 h1
  have hy3 : cbrt x * cbrt x * cbrt x = x := cbrt_cube h0
  nlinarith [mul_nonneg (sq_nonneg (1 - cbrt x)) (by linarith : (0:ℝ) ≤ cbrt x + 2)]

/-- Any nonzero byte maps to a linear value of at least 0.0003. -/
theorem srgb8ToLinear_ge {c : ℕ} (h1 : 1 ≤ c) (h255 : c ≤ 255) :
    0.0003 ≤ srgb8ToLinear c := by
  have hc1 : (1 : ℝ) ≤ (c : ℝ) := by exact_mod_cast h1
  have hc255 : ((c : ℕ) : ℝ) ≤ 255 := by exact_mod_cast h255
  simp only [srgb8ToLinear]
  split
  · rw [div_div, le_div_iff₀ (by norm_num : (0:ℝ) < 255 * 12.92)]
    linarith
  · rename_i hbr
    push_neg at hbr
    have hq09 : (0.09 : ℝ) ≤ ((c : ℝ) / 255 + 0.055) / 1.055 := by
      rw [le_div_iff₀ (by norm_num : (0:ℝ) < 1.055)]
      linarith [hbr.le]
    have hq1 : ((c : ℝ) / 255 + 0.055) / 1.055 ≤ 1 := by
      rw [div_le_one (by norm_num : (0:ℝ) < 1.055), div_add' _ _ _
        (by norm_num : (255:ℝ) ≠ 0), div_le_iff₀ (by norm_num : (0:ℝ) < 255)]
      linarith
    have hq0 : (0 : ℝ) < ((c : ℝ) / 255 + 0.055) / 1.055 := by positivity
    calc (0.0003 : ℝ) ≤ (0.09 : ℝ) ^ (3 : ℕ) := by norm_num
      _ ≤ (((c : ℝ) / 255 + 0.055) / 1.055) ^ (3 : ℕ) :=
          pow_le_pow_left₀ (by norm_num) hq09 3
      _ = (((c : ℝ) / 255 + 0.055) / 1.055) ^ ((3 : ℕ) : ℝ) :=
          (Real.rpow_natCast _ 3).symm
      _ ≤ (((c : ℝ) / 255 + 0.055) / 1.055) ^ (2.4 : ℝ) :=
          Real.rpow_le_rpow_of_exponent_ge hq0 hq1 (by norm_num)

/-- Range facts for the OKLab L of any byte triple: L lies in [0,1], and a
pixel with any nonzero byte has L at least 0.001. -/
theorem srgb8ToOklab_L_props (r g b : ℕ) (hr : r ≤ 255) (hg : g ≤ 255)
    (hb : b ≤ 255) :
    0 ≤ (srgb8ToOklab r g b).L ∧ (srgb8ToOklab r g b).L ≤ 1 ∧
    ((1 ≤ r ∨ 1 ≤ g ∨ 1 ≤ b) → 0.001 ≤ (srgb8ToOklab r g b).L) := by
  have hlr0 := srgb8ToLinear_nonneg r
  have hlr1 := srgb8ToLinear_le_one hr
  have hlg0 := srgb8ToLinear_nonneg g
  have hlg1 := srgb8ToLinear_le_one hg
  have hlb0 := srgb8ToLinear_nonneg b
  have hlb1 := srgb8ToLinear_le_one hb
  have hLred : (srgb8ToOklab r g b).L =
      0.2104542553 * cbrt (0.4122214708 * srgb8ToLinear r + 0.5363325363 *
        srgb8ToLinear g + 0.0514459929 * srgb8ToLinear b)
      + 0.793617785 * cbrt (0.2119034982 * srgb8ToLinear r + 0.6806995451 *
        srgb8ToLinear g + 0.1073969566 * srgb8ToLinear b)
      - 0.0040720468 * cbrt (0.0883024619 * srgb8ToLinear r + 0.2817188376 *
        srgb8ToLinear g + 0.6299787005 * srgb8ToLinear b) := rfl
  have hl0 : (0:ℝ) ≤ 0.4122214708 * srgb8ToLinear r + 0.5363325363 * srgb8ToLinear g
      + 0.0514459929 * srgb8ToLinear b := by linarith
  have hl1 : 0.4122214708 * srgb8ToLinear r + 0.5363325363 * srgb8ToLinear g
      + 0.0514459929 * srgb8ToLinear b ≤ 1 := by linarith
  have hm0 : (0:ℝ) ≤ 0.2119034982 * srgb8ToLinear r + 0.6806995451 * srgb8ToLinear g
      + 0.1073969566 * srgb8ToLinear b := by linarith
  have hm1 : 0.2119034982 * srgb8ToLinear r + 0.6806995451 * srgb8ToLinear g
      + 0.1073969566 * srgb8ToLinear b ≤ 1 := by linarith
  have hs0 : (0:ℝ) ≤ 0.0883024619 * srgb8ToLinear r + 0.2817188376 * srgb8ToLinear g
      + 0.6299787005 * srgb8ToLinear b := by linarith
  have hs1 : 0.0883024619 * srgb8ToLinear r + 0.2817188376 * srgb8ToLinear g
      + 0.6299787005 * srgb8ToLinear b ≤ 1 := by linarith
  have hu0 := cbrt_nonneg hl0
  have hu1 := cbrt_le_one hl0 hl1
  have hv0 := cbrt_nonneg hm0
  have hv1 := cbrt_le_one hm0 hm1
  have hw0 := cbrt_nonneg hs0
  have hw1 := cbrt_le_one hs0 hs1
  have hsm : 0.0883024619 * srgb8ToLinear r + 0.2817188376 * srgb8ToLinear g
      + 0.6299787005 * srgb8ToLinear b ≤
      5.87 * (0.2119034982 * srgb8ToLinear r + 0.6806995451 * srgb8ToLinear g
        + 0.1073969566 * srgb8ToLinear b) := by linarith
  have hc587 : cbrt (5.87 : ℝ) ≤ 1.81 := by
    calc cbrt (5.87 : ℝ) ≤ cbrt (1.81 * 1.81 * 1.81) :=
        cbrt_mono (by norm_num) (by norm_num)
      _ = 1.81 := cbrt_of_cube (by norm_num)
  have hs_le : cbrt (0.0883024619 * srgb8ToLinear r + 0.2817188376 * srgb8ToLinear g
      + 0.6299787005 * srgb8ToLinear b) ≤
      1.81 * cbrt (0.2119034982 * srgb8ToLinear r + 0.6806995451 * srgb8ToLinear g
        + 0.1073969566 * srgb8ToLinear b) := by
    calc cbrt (0.0883024619 * srgb8ToLinear r + 0.2817188376 * srgb8ToLinear g
        + 0.6299787005 * srgb8ToLinear b)
        ≤ cbrt (5.87 * (0.2119034982 * srgb8ToLinear r + 0.6806995451 *
            srgb8ToLinear g + 0.1073969566 * srgb8ToLinear b)) := cbrt_mono hs0 hsm
      _ = cbrt (5.87 : ℝ) * cbrt (0.2119034982 * srgb8ToLinear r + 0.6806995451 *
            srgb8ToLinear g + 0.1073969566 * srgb8ToLinear b) :=
          cbrt_mul (by norm_num) hm0
      _ ≤ 1.81 * cbrt (0.2119034982 * srgb8ToLinear r + 0.6806995451 *
            srgb8ToLinear g + 0.1073969566 * srgb8ToLinear b) :=
          mul_le_mul_of_nonneg_right hc587 hv0
  refine ⟨?_, ?_, ?_⟩
  · rw [hLred]
    linarith [hs_le, hu0, hv0]
  · rw [hLred]
    have h3u := one_sub_cbrt_ge hl0 hl1
    have h3v := one_sub_cbrt_ge hm0 hm1
    have hwge := self_le_cbrt hs0 hs1
    linarith [h3u, h3v, hwge]
  · intro hnz
    have hmlow : 0.0003 * 0.1073969566 ≤ 0.2119034982 * srgb8ToLinear r
        + 0.6806995451 * srgb8ToLinear g + 0.1073969566 * srgb8ToLinear b := by
      rcases hnz with h | h | h
      · linarith [srgb8ToLinear_ge h hr]
      · linarith [srgb8ToLinear_ge h hg]
      · linarith [srgb8ToLinear_ge h hb]
    have hvlow : (0.031 : ℝ) ≤ cbrt (0.2119034982 * srgb8ToLinear r
        + 0.6806995451 * srgb8ToLinear g + 0.1073969566 * srgb8ToLinear b) := by
      calc (0.031 : ℝ) = cbrt (0.031 * 0.031 * 0.031) :=
          (cbrt_of_cube (by norm_num)).symm
        _ ≤ cbrt (0.2119034982 * srgb8ToLinear r + 0.6806995451 * srgb8ToLinear g
            + 0.1073969566 * srgb8ToLinear b) := by
          apply cbrt_mono (by norm_num)
          nlinarith [hmlow]
    rw [hLred]
    nlinarith [hs_le, hu0, hvlow, hv0]

theorem abs_le_chroma_a (a b : ℝ) : |a| ≤ chroma a b := by
  rw [chroma]
  calc |a| = Real.sqrt (a ^ 2) := (Real.sqrt_sq_eq_abs a).symm
    _ ≤ Real.sqrt (a * a + b * b) := Real.sqrt_le_sqrt (by nlinarith [sq_nonneg b])

theorem abs_le_chroma_b (a b : ℝ) : |b| ≤ chroma a b := by
  rw [chroma]
  calc |b| = Real.sqrt (b ^ 2) := (Real.sqrt_sq_eq_abs b).symm
    _ ≤ Real.sqrt (a * a + b * b) := Real.sqrt_le_sqrt (by nlinarith [sq_nonneg a])

theorem identity_satScale (L : ℝ) : satScale L 0 0 = 1 := by
  rw [satScale]
  rw [show (1 : ℝ) - 0 * (1 - L) ^ 2 - 0 * L ^ 2 = 1 by ring]
  norm_num

theorem identity_colorDensityScale (L : ℝ) : colorDensityScale L 1 1 = 1 := by
  simp only [colorDensityScale]
  ring

theorem flat_stageBScale (p : LookParams) (L C : ℝ)
    (h1 : p.saturation = ⟨0, 0, 1, 1⟩) (h2 : p.saturationByL = none)
    (h3 : p.refSaturation = none) (h4 : p.colorDensity = some 1) :
    stageBScale p L C = if 1e-8 < C then 1 else 0 := by
  simp only [stageBScale, h1, h2, h3, h4, Option.getD_some, Option.getD_none]
  rw [identity_satScale, identity_colorDensityScale]
  rw [if_neg (by norm_num : ¬ ((1:ℝ) < 1 ∧ (1:ℝ) < 1))]
  split <;> norm_num

theorem flat_stageBChroma (src : ImageData) (p : LookParams) (pix : ℕ)
    (h1 : p.saturation = ⟨0, 0, 1, 1⟩) (h2 : p.saturationByL = none)
    (h3 : p.refSaturation = none) (h4 : p.colorDensity = some 1)
    (h5 : p.colorMatchBands = none) (h6 : p.tintByL = none)
    (h7 : p.tint = 0) (h8 : p.warmth = 0)
    (h9 : p.shadowTint = ⟨0, 0⟩) (h10 : p.highlightTint = ⟨0, 0⟩) :
    stageBChroma src p pix =
      (if 1e-8 < chroma (aBuf src pix) (bBuf src pix) then aBuf src pix else 0,
       if 1e-8 < chroma (aBuf src pix) (bBuf src pix) then bBuf src pix else 0) := by
  have hucb : useColorBands p = false := by rw [useColorBands, h5]
  have hutb : useTintByL p = false := by rw [useTintByL, h6]
  simp only [stageBChroma, hucb, hutb, Bool.false_eq_true, if_false, h7,
    h8, h9, h10]
  rw [flat_stageBScale p _ _ h1 h2 h3 h4]
  by_cases hC : 1e-8 < chroma (aBuf src pix) (bBuf src pix)
  · simp only [if_pos hC, Prod.mk.injEq]
    constructor <;> ring
  · simp only [if_neg hC, Prod.mk.injEq]
    constructor <;> ring

theorem flat_stageBFinal (src : ImageData) (p : LookParams) (pix : ℕ)
    (h1 : p.saturation = ⟨0, 0, 1, 1⟩) (h2 : p.saturationByL = none)
    (h3 : p.refSaturation = none) (h4 : p.colorDensity = some 1)
    (h5 : p.colorMatchBands = none) (h6 : p.tintByL = none)
    (h7 : p.tint = 0) (h8 : p.warmth = 0)
    (h9 : p.shadowTint = ⟨0, 0⟩) (h10 : p.highlightTint = ⟨0, 0⟩)
    (h11 : p.colorStrength = some 1) (h12 : p.colorBandOverrides = none) :
    stageBFinal src p pix =
      (LfinalBuf src p pix,
       if 1e-8 < chroma (aBuf src pix) (bBuf src pix) then aBuf src pix else 0,
       if 1e-8 < chroma (aBuf src pix) (bBuf src pix) then bBuf src pix else 0) := by
  have hcs : colorSOf p = 1 := by
    rw [colorSOf, h11]
    norm_num
  simp only [stageBFinal, hcs,
    flat_stageBChroma src p pix h1 h2 h3 h4 h5 h6 h7 h8 h9 h10]
  have hns : ¬ (1e-3 : ℝ) < |(1:ℝ) - 1| := by norm_num
  rw [if_neg hns, if_neg hns]
  simp only [overridesApply, h12]

theorem identity_Lsrc (src : ImageData) (pix : ℕ) (hm : maskOf src pix = true)
    (h0 : 0 ≤ (pixelLab src pix).L) (h1 : (pixelLab src pix).L ≤ 1) :
    LsrcBuf src identityParams pix = (pixelLab src pix).L := by
  have hexp : exposureDelta src identityParams = 0 :=
    exposureDelta_of_zero _ _ rfl
  rw [LsrcBuf, if_pos hm, hexp, add_zero]
  exact clamp01_of_mem h0 h1

theorem identity_Ltone (src : ImageData) (pix : ℕ) (hm : maskOf src pix = true)
    (h0 : 0 ≤ (pixelLab src pix).L) (h1 : (pixelLab src pix).L ≤ 1) :
    LtoneBuf src identityParams pix = max 0.001 (pixelLab src pix).L := by
  have htc : identityParams.toneCurve = none := rfl
  have hsc : identityParams.shadowContrast = 1 := rfl
  have htone : identityParams.tone = ⟨0, 1, 1⟩ := rfl
  rw [LtoneBuf]
  simp only [hm, if_true, htc, identity_Lsrc src pix hm h0 h1]
  rw [lggPath, hsc, htone]
  rw [applyShadowContrast, if_pos (Or.inl rfl)]
  simp only [applyLGG]
  rw [Real.rpow_one]
  rw [show (pixelLab src pix).L * 1 + 0 = (pixelLab src pix).L by ring]
  rw [min_eq_right h1]

theorem identity_lumaBlend : lumaBlendOf identityParams = 1 := by
  have hls : lumaSOf identityParams = 1 := by
    rw [lumaSOf, show identityParams.lumaStrength = some 1 from rfl]
    norm_num
  rw [lumaBlendOf, hls, if_pos le_rfl]

theorem identity_LlumaA3 (src : ImageData) (pix : ℕ) (hm : maskOf src pix = true)
    (h0 : 0 ≤ (pixelLab src pix).L) (h1 : (pixelLab src pix).L ≤ 1) :
    LlumaA3Buf src identityParams pix = max 0.001 (pixelLab src pix).L := by
  rw [LlumaA3Buf, identity_lumaBlend]
  rw [if_pos (by norm_num)]
  rw [identity_Lsrc src pix hm h0 h1, identity_Ltone src pix hm h0 h1]
  rw [show (pixelLab src pix).L + 1 * (max 0.001 (pixelLab src pix).L -
      (pixelLab src pix).L) = max 0.001 (pixelLab src pix).L by ring]
  exact clamp01_of_mem (le_trans (by norm_num) (le_max_left _ _))
    (max_le (by norm_num) h1)

theorem identity_blackDelta (src : ImageData) :
    blackDelta src identityParams = 0 := by
  rw [blackDelta, clampedBlackStrength,
    show identityParams.blackStrength = some 0 from rfl]
  norm_num

theorem identity_Lfinal (src : ImageData) (pix : ℕ) (hm : maskOf src pix = true)
    (h0 : 0 ≤ (pixelLab src pix).L) (h1 : (pixelLab src pix).L ≤ 1) :
    LfinalBuf src identityParams pix = max 0.001 (pixelLab src pix).L := by
  have ha4 : LlumaA4Buf src identityParams pix = LlumaA3Buf src identityParams pix := by
    rw [LlumaA4Buf, identity_blackDelta]
    simp only [stageA4]
    rw [if_neg (by norm_num)]
  rw [LfinalBuf]
  simp only [show identityParams.microContrastMid = some 0 from rfl, Option.getD_some]
  rw [if_neg (by norm_num)]
  rw [ha4, identity_LlumaA3 src pix hm h0 h1]

theorem linearToSrgb8_small {x : ℝ} (h0 : 0 ≤ x) (h1 : x ≤ 1.6e-9) :
    linearToSrgb8 x = 0 := by
  rw [linearToSrgb8, linearToSrgb8Val]
  rw [if_pos (by linarith)]
  have hv0 : 0 ≤ x * 12.92 * 255 := by positivity
  have hv1 : x * 12.92 * 255 ≤ 0.01 := by nlinarith
  rw [min_eq_right (by linarith), max_eq_right hv0]
  rw [round_eq, Int.floor_eq_iff]
  constructor
  · push_cast
    linarith
  · push_cast
    linarith

theorem oklab_black_bytes : oklabToSrgb8 0.001 0 0 = ⟨0, 0, 0⟩ := by
  have hc : (0.001 : ℝ) + 0.3963377774 * 0 + 0.2158037573 * 0 = 0.001 := by norm_num
  have hm : (0.001 : ℝ) - 0.1055613458 * 0 - 0.0638541728 * 0 = 0.001 := by norm_num
  have hs : (0.001 : ℝ) - 0.0894841775 * 0 - 1.291485548 * 0 = 0.001 := by norm_num
  simp only [oklabToSrgb8, hc, hm, hs]
  have h1 : (4.0767416621 : ℝ) * (0.001 * 0.001 * 0.001) -
      3.3077115913 * (0.001 * 0.001 * 0.001) +
      0.2309699292 * (0.001 * 0.001 * 0.001) = 1e-9 := by norm_num
  have h2 : (-1.2684380046 : ℝ) * (0.001 * 0.001 * 0.001) +
      2.6097574011 * (0.001 * 0.001 * 0.001) -
      0.3413193965 * (0.001 * 0.001 * 0.001) = 1e-9 := by norm_num
  have h3 : (-0.0041960863 : ℝ) * (0.001 * 0.001 * 0.001) -
      0.7034186147 * (0.001 * 0.001 * 0.001) +
      1.707614701 * (0.001 * 0.001 * 0.001) = 1e-9 := by norm_num
  rw [h1, h2, h3]
  rw [linearToSrgb8_small (by norm_num) (by norm_num)]

theorem identity_pixelBytes (src : ImageData) (pix : ℕ)
    (hm : maskOf src pix = true)
    (hr : src.data (4 * pix) ≤ 255) (hg : src.data (4 * pix + 1) ≤ 255)
    (hb : src.data (4 * pix + 2) ≤ 255) :
    applyLookPixelBytes src identityParams pix =
      (src.data (4 * pix), src.data (4 * pix + 1), src.data (4 * pix + 2),
        src.data (4 * pix + 3)) := by
  have hprops := srgb8ToOklab_L_props (src.data (4 * pix)) (src.data (4 * pix + 1))
    (src.data (4 * pix + 2)) hr hg hb
  have hplab : pixelLab src pix = srgb8ToOklab (src.data (4 * pix))
      (src.data (4 * pix + 1)) (src.data (4 * pix + 2)) := rfl
  rw [← hplab] at hprops
  have h128 : (128 : ℕ) ≤ alphaBuf src pix := of_decide_eq_true hm
  have halpha : ¬ alphaBuf src pix < 128 := not_lt.mpr h128
  simp only [applyLookPixelBytes]
  rw [if_neg halpha]
  rw [flat_stageBFinal src identityParams pix rfl rfl rfl rfl rfl rfl rfl rfl
    rfl rfl rfl rfl]
  rw [identity_Lfinal src pix hm hprops.1 hprops.2.1]
  have haB : aBuf src pix = (pixelLab src pix).a := by rw [aBuf, if_pos hm]
  have hbB : bBuf src pix = (pixelLab src pix).b := by rw [bBuf, if_pos hm]
  have halB : alphaBuf src pix = src.data (4 * pix + 3) := rfl
  by_cases hz : src.data (4 * pix) = 0 ∧ src.data (4 * pix + 1) = 0 ∧
      src.data (4 * pix + 2) = 0
  · have hlab0 : pixelLab src pix = ⟨0, 0, 0⟩ := by
      rw [hplab, hz.1, hz.2.1, hz.2.2, srgb8ToOklab_zero]
    have hch : chroma (aBuf src pix) (bBuf src pix) = 0 := by
      rw [haB, hbB, hlab0, chroma]
      norm_num
    rw [hch]
    rw [if_neg (by norm_num), if_neg (by norm_num)]
    rw [hlab0]
    rw [show max 0.001 (Oklab.mk 0 0 0).L = 0.001 by norm_num]
    rw [oklab_black_bytes, halB, hz.1, hz.2.1, hz.2.2]
    rfl
  · have hnz : 1 ≤ src.data (4 * pix) ∨ 1 ≤ src.data (4 * pix + 1) ∨
        1 ≤ src.data (4 * pix + 2) := by omega
    have hL001 := hprops.2.2 hnz
    rw [max_eq_right hL001]
    have hCle : ∀ x : ℝ, (¬ 1e-8 < chroma (aBuf src pix) (bBuf src pix)) →
        |x| ≤ chroma (aBuf src pix) (bBuf src pix) → |(0 : ℝ) - x| ≤ 1e-8 := by
      intro x hC hle
      rw [zero_sub, abs_neg]
      linarith [not_lt.mp hC]
    have hsa : |(if 1e-8 < chroma (aBuf src pix) (bBuf src pix) then aBuf src pix
        else 0) - (srgb8ToOklab (src.data (4 * pix)) (src.data (4 * pix + 1))
          (src.data (4 * pix + 2))).a| ≤ 1e-8 := by
      rw [← hplab, ← haB]
      split
      · rw [sub_self, abs_zero]
        norm_num
      · rename_i hC
        exact hCle _ hC (abs_le_chroma_a _ (bBuf src pix))
    have hsb : |(if 1e-8 < chroma (aBuf src pix) (bBuf src pix) then bBuf src pix
        else 0) - (srgb8ToOklab (src.data (4 * pix)) (src.data (4 * pix + 1))
          (src.data (4 * pix + 2))).b| ≤ 1e-8 := by
      rw [← hplab, ← hbB]
      split
      · rw [sub_self, abs_zero]
        norm_num
      · rename_i hC
        exact hCle _ hC (abs_le_chroma_b (aBuf src pix) _)
    have hrt := oklab_roundtrip_exact (src.data (4 * pix)) (src.data (4 * pix + 1))
      (src.data (4 * pix + 2)) hr hg hb _ _ hsa hsb
    rw [hplab, hrt, halB]
    simp only [Int.toNat_natCast]

theorem applyLook_data_eq (src : ImageData) (p : LookParams) (pix : ℕ)
    (hpix : pix < src.width * src.height) :
    (applyLook src p).data (4 * pix) = (applyLookPixelBytes src p pix).1 ∧
    (applyLook src p).data (4 * pix + 1) = (applyLookPixelBytes src p pix).2.1 ∧
    (applyLook src p).data (4 * pix + 2) = (applyLookPixelBytes src p pix).2.2.1 ∧
    (applyLook src p).data (4 * pix + 3) = (applyLookPixelBytes src p pix).2.2.2 := by
  simp only [applyLook]
  refine ⟨?_, ?_, ?_, ?_⟩
  · rw [if_pos (by omega : 4 * pix < 4 * (src.width * src.height))]
    rw [show 4 * pix / 4 = pix by omega, show 4 * pix % 4 = 0 by omega]
    rw [if_pos rfl]
  · rw [if_pos (by omega : 4 * pix + 1 < 4 * (src.width * src.height))]
    rw [show (4 * pix + 1) / 4 = pix by omega,
      show (4 * pix + 1) % 4 = 1 by omega]
    rw [if_neg (by norm_num), if_pos rfl]
  · rw [if_pos (by omega : 4 * pix + 2 < 4 * (src.width * src.height))]
    rw [show (4 * pix + 2) / 4 = pix by omega,
      show (4 * pix + 2) % 4 = 2 by omega]
    rw [if_neg (by norm_num), if_neg (by norm_num), if_pos rfl]
  · rw [if_pos (by omega : 4 * pix + 3 < 4 * (src.width * src.height))]
    rw [show (4 * pix + 3) / 4 = pix by omega,
      show (4 * pix + 3) % 4 = 3 by omega]
    rw [if_neg (by norm_num), if_neg (by norm_num), if_neg (by norm_num)]

/-- C1 (amended): with exposure and black matching disabled on top of the
neutral defaults, applyLook preserves dimensions, passes every alpha byte
through unchanged, and reproduces the RGB bytes of every opaque
(alpha >= 128) pixel exactly (well within the claimed +-1). -/
theorem C1_identity_grading_amended (src : ImageData)
    (hbytes : ∀ i, src.data i ≤ 255) :
    (applyLook src identityParams).width = src.width ∧
    (applyLook src identityParams).height = src.height ∧
    ∀ pix < src.width * src.height,
      (applyLook src identityParams).data (4 * pix + 3) = src.data (4 * pix + 3) ∧
      (maskOf src pix = true →
        (applyLook src identityParams).data (4 * pix) = src.data (4 * pix) ∧
        (applyLook src identityParams).data (4 * pix + 1) = src.data (4 * pix + 1) ∧
        (applyLook src identityParams).data (4 * pix + 2) = src.data (4 * pix + 2)) := by
  refine ⟨rfl, rfl, ?_⟩
  intro pix hpix
  have hd := applyLook_data_eq src identityParams pix hpix
  constructor
  · rw [hd.2.2.2]
    by_cases hm : maskOf src pix = true
    · rw [identity_pixelBytes src pix hm (hbytes _) (hbytes _) (hbytes _)]
    · have hlt : alphaBuf src pix < 128 := by
        by_contra hge
        exact hm (decide_eq_true (not_lt.mp hge))
      simp only [applyLookPixelBytes]
      rw [if_pos hlt]
      rfl
  · intro hm
    have hp := identity_pixelBytes src pix hm (hbytes _) (hbytes _) (hbytes _)
    exact ⟨by rw [hd.1, hp], by rw [hd.2.1, hp], by rw [hd.2.2.1, hp]⟩

theorem C1_identity_grading_amended_witness :
    (∀ i, whiteImage1.data i ≤ 255) ∧
    ((applyLook whiteImage1 identityParams).width = whiteImage1.width ∧
    (applyLook whiteImage1 identityParams).height = whiteImage1.height ∧
    ∀ pix < whiteImage1.width * whiteImage1.height,
      (applyLook whiteImage1 identityParams).data (4 * pix + 3) =
        whiteImage1.data (4 * pix + 3) ∧
      (maskOf whiteImage1 pix = true →
        (applyLook whiteImage1 identityParams).data (4 * pix) =
          whiteImage1.data (4 * pix) ∧
        (applyLook whiteImage1 identityParams).data (4 * pix + 1) =
          whiteImage1.data (4 * pix + 1) ∧
        (applyLook whiteImage1 identityParams).data (4 * pix + 2) =
          whiteImage1.data (4 * pix + 2))) :=
  ⟨fun i => le_refl 255,
    C1_identity_grading_amended whiteImage1 (fun i => le_refl 255)⟩

theorem blackImage1_pixelL : pixelL blackImage1.data 0 = 0 := by
  have e : pixelL blackImage1.data 0 = (srgb8ToOklab 0 0 0).L := rfl
  rw [e, srgb8ToOklab_zero]

theorem blackImage1_sourceMidL : sourceMidL blackImage1.data 1 = 0 := by
  have hmp : maskedPixels blackImage1.data 1 = [0] := rfl
  rw [sourceMidL, hmp]
  norm_num [blackImage1_pixelL, sortAsc, List.insertionSort, Nat.floor_eq_zero]

theorem blackImage1_sourceBlackL : sourceBlackL blackImage1.data 1 = 0 := by
  have hmp : maskedPixels blackImage1.data 1 = [0] := rfl
  rw [sourceBlackL, hmp]
  norm_num [blackImage1_pixelL, sortAsc, List.insertionSort, Nat.floor_eq_zero]

theorem default_exposureDelta_black :
    exposureDelta blackImage1 defaultLookParams = 0.5 := by
  simp only [exposureDelta]
  have hn : blackImage1.width * blackImage1.height = 1 := rfl
  rw [hn, blackImage1_sourceMidL]
  have hms : clampedRefMidL defaultLookParams = 0.5 := by
    rw [clampedRefMidL, show defaultLookParams.refMidL = some 0.5 from rfl]
    norm_num
  have hes : clampedExposureStrength defaultLookParams = 1 := by
    rw [clampedExposureStrength,
      show defaultLookParams.exposureStrength = some 1 from rfl]
    norm_num
  rw [hms, hes, if_pos le_rfl]
  norm_num

theorem default_Lsrc_black : LsrcBuf blackImage1 defaultLookParams 0 = 0.5 := by
  rw [LsrcBuf, if_pos blackImage1_mask, blackImage1_lab,
    default_exposureDelta_black]
  rw [show (Oklab.mk (0:ℝ) 0 0).L + 0.5 = 0.5 by norm_num]
  exact clamp01_of_mem (by norm_num) (by norm_num)

theorem default_Ltone_black : LtoneBuf blackImage1 defaultLookParams 0 = 0.5 := by
  rw [LtoneBuf]
  simp only [blackImage1_mask, if_true,
    show defaultLookParams.toneCurve = none from rfl, default_Lsrc_black]
  rw [lggPath, show defaultLookParams.shadowContrast = (1:ℝ) from rfl,
    show defaultLookParams.tone = ⟨0, 1, 1⟩ from rfl]
  rw [applyShadowContrast, if_pos (Or.inl rfl)]
  simp only [applyLGG]
  rw [Real.rpow_one]
  norm_num

theorem default_lumaBlend : lumaBlendOf defaultLookParams = 1 := by
  have hls : lumaSOf defaultLookParams = 1 := by
    rw [lumaSOf, show defaultLookParams.lumaStrength = some 1 from rfl]
    norm_num
  rw [lumaBlendOf, hls, if_pos le_rfl]

theorem default_A3_black : LlumaA3Buf blackImage1 defaultLookParams 0 = 0.5 := by
  rw [LlumaA3Buf, default_lumaBlend, if_pos (by norm_num)]
  rw [default_Lsrc_black, default_Ltone_black]
  rw [show (0.5 : ℝ) + 1 * (0.5 - 0.5) = 0.5 by norm_num]
  exact clamp01_of_mem (by norm_num) (by norm_num)

theorem default_blackDelta_black :
    blackDelta blackImage1 defaultLookParams = 0.05 := by
  rw [blackDelta, clampedBlackStrength, clampedRefBlack,
    show defaultLookParams.blackStrength = some 1 from rfl,
    show defaultLookParams.refBlackL = some 0.05 from rfl]
  have hn : blackImage1.width * blackImage1.height = 1 := rfl
  rw [hn, blackImage1_sourceBlackL]
  norm_num

theorem default_A4_black :
    LlumaA4Buf blackImage1 defaultLookParams 0 = 0.5 + 0.05 * (1 / 36) := by
  rw [LlumaA4Buf]
  have hn : blackImage1.width * blackImage1.height = 1 := rfl
  have hcrb : clampedRefBlack defaultLookParams = 0.05 := by
    rw [clampedRefBlack, show defaultLookParams.refBlackL = some 0.05 from rfl]
    norm_num
  have hbr : defaultLookParams.blackRange.getD 0.6 = 0.6 := rfl
  rw [hn, hcrb, hbr, default_blackDelta_black]
  simp only [stageA4]
  rw [if_pos (by rw [show |(0.05:ℝ)| = 0.05 by rw [abs_of_pos]; norm_num]; norm_num)]
  have hwide : stageA4Wide 0.05 0.05 = false := by
    rw [stageA4Wide]
    simp only [decide_eq_false_iff_not]
    rintro ⟨h, -⟩
    norm_num at h
  have hceil : stageA4Ceiling 0.05 0.05 0.6 = 0.6 := by
    rw [stageA4Ceiling, hwide, if_neg (by simp), baseShadowCeilingOf]
    norm_num
  have hpull : stageA4Pull 0.05 0.6 false 0.5 = 0.5 + 0.05 * (1 / 36) := by
    simp only [stageA4Pull]
    rw [if_pos (by norm_num)]
    rw [if_neg (by simp)]
    rw [show ((1 : ℝ) - 0.5 / 0.6) * (1 - 0.5 / 0.6) = 1 / 36 by norm_num]
    exact clamp01_of_mem (by norm_num) (by norm_num)
  have hpul0 : stageA4Pulled (maskOf blackImage1) 0.05 0.05 0.6
      (LlumaA3Buf blackImage1 defaultLookParams) 0 = 0.5 + 0.05 * (1 / 36) := by
    simp only [stageA4Pulled, blackImage1_mask, if_true]
    rw [default_A3_black, hceil, hwide, hpull]
  have hp5A : percentileFromLGrid (stageA4Pulled (maskOf blackImage1) 0.05 0.05 0.6
      (LlumaA3Buf blackImage1 defaultLookParams)) (maskOf blackImage1) 1 0.05 =
      0.5 + 0.05 * (1 / 36) := by
    rw [percentileFromLGrid_single _ _ blackImage1_mask, hpul0]
  have hp5B : percentileFromLGrid (LlumaA3Buf blackImage1 defaultLookParams)
      (maskOf blackImage1) 1 0.05 = 0.5 := by
    rw [percentileFromLGrid_single _ _ blackImage1_mask, default_A3_black]
  rw [hp5A, hp5B]
  rw [if_neg (by
    rintro ⟨h1, -⟩
    rw [show (max 0 (0.05 - 0.03) : ℝ) = 0.02 by norm_num] at h1
    norm_num at h1)]
  exact hpul0

theorem default_Lfinal_black :
    LfinalBuf blackImage1 defaultLookParams 0 = 0.5 + 0.05 * (1 / 36) := by
  rw [LfinalBuf]
  simp only [show defaultLookParams.microContrastMid = some 0 from rfl,
    Option.getD_some]
  rw [if_neg (by norm_num)]
  exact default_A4_black

theorem default_stageB_black : stageBFinal blackImage1 defaultLookParams 0 =
    (0.5 + 0.05 * (1 / 36), 0, 0) := by
  rw [flat_stageBFinal blackImage1 defaultLookParams 0 rfl rfl rfl rfl rfl rfl
    rfl rfl rfl rfl rfl rfl]
  have ha0 : aBuf blackImage1 0 = 0 := by
    rw [aBuf, if_pos blackImage1_mask, blackImage1_lab]
  have hb0 : bBuf blackImage1 0 = 0 := by
    rw [bBuf, if_pos blackImage1_mask, blackImage1_lab]
  rw [ha0, hb0]
  have hch : chroma (0 : ℝ) 0 = 0 := by
    rw [chroma]
    norm_num
  rw [hch]
  rw [if_neg (by norm_num)]
  rw [default_Lfinal_black]

theorem default_black_byte :
    2 ≤ (oklabToSrgb8 (0.5 + 0.05 * (1 / 36)) 0 0).r.toNat := by
  have hc : (0.5 + 0.05 * (1 / 36) : ℝ) + 0.3963377774 * 0 + 0.2158037573 * 0 =
      0.5 + 0.05 * (1 / 36) := by ring
  have hm2 : (0.5 + 0.05 * (1 / 36) : ℝ) - 0.1055613458 * 0 - 0.0638541728 * 0 =
      0.5 + 0.05 * (1 / 36) := by ring
  have hs2 : (0.5 + 0.05 * (1 / 36) : ℝ) - 0.0894841775 * 0 - 1.291485548 * 0 =
      0.5 + 0.05 * (1 / 36) := by ring
  simp only [oklabToSrgb8, hc, hm2, hs2]
  rw [show (0.5 + 0.05 * (1 / 36) : ℝ) = 361 / 720 by norm_num]
  rw [show (4.0767416621 : ℝ) * ((361 / 720) * (361 / 720) * (361 / 720)) -
      3.3077115913 * ((361 / 720) * (361 / 720) * (361 / 720)) +
      0.2309699292 * ((361 / 720) * (361 / 720) * (361 / 720)) =
      47045881 / 373248000 by norm_num]
  rw [linearToSrgb8, linearToSrgb8Val, if_neg (by norm_num)]
  have hxv : (0.42 : ℝ) ≤ (47045881 / 373248000 : ℝ) ^ ((1 : ℝ) / 2.4) := by
    rw [show (1 : ℝ) / 2.4 = 5 / 12 by norm_num]
    by_contra hlt
    push_neg at hlt
    have h12 : ((47045881 / 373248000 : ℝ) ^ ((5 : ℝ) / 12)) ^ (12 : ℕ) =
        (47045881 / 373248000 : ℝ) ^ (5 : ℕ) := by
      rw [← Real.rpow_natCast ((47045881 / 373248000 : ℝ) ^ ((5 : ℝ) / 12)) 12,
        ← Real.rpow_mul (by norm_num)]
      rw [show (5 : ℝ) / 12 * ((12 : ℕ) : ℝ) = ((5 : ℕ) : ℝ) by norm_num,
        Real.rpow_natCast]
    have hle : ((47045881 / 373248000 : ℝ) ^ ((5 : ℝ) / 12)) ^ (12 : ℕ) ≤
        (0.42 : ℝ) ^ (12 : ℕ) :=
      pow_le_pow_left₀ (Real.rpow_nonneg (by norm_num) _) hlt.le 12
    rw [h12] at hle
    norm_num at hle
  have hx1 : (47045881 / 373248000 : ℝ) ^ ((1 : ℝ) / 2.4) ≤ 1 :=
    Real.rpow_le_one (by norm_num) (by norm_num) (by norm_num)
  have hv_lb : (98 : ℝ) ≤
      (1.055 * (47045881 / 373248000 : ℝ) ^ ((1 : ℝ) / 2.4) - 0.055) * 255 := by
    nlinarith [hxv]
  have hv_ub :
      (1.055 * (47045881 / 373248000 : ℝ) ^ ((1 : ℝ) / 2.4) - 0.055) * 255 ≤ 255 := by
    nlinarith [hx1]
  rw [min_eq_right hv_ub, max_eq_right (by linarith)]
  rw [round_eq]
  have hfl : (2 : ℤ) ≤
      ⌊(1.055 * (47045881 / 373248000 : ℝ) ^ ((1 : ℝ) / 2.4) - 0.055) * 255 + 1 / 2⌋ := by
    rw [Int.le_floor]
    push_cast
    linarith
  omega

/-- Claim C1: counterexample.  defaultLookParams is not an identity: it has
exposureStrength 1 with refMidL 0.5 and blackStrength 1, so on the 1x1 opaque
black image the exposure stage shifts the luma to 0.5 (then the black pull to
about 0.5014), and the output red byte is at least 2 (actually about 99),
deviating from the source byte 0 by more than 1. -/
theorem C1_counterexample :
    blackImage1.data 0 = 0 ∧
    1 < (applyLook blackImage1 defaultLookParams).data 0 := by
  constructor
  · rfl
  · have hd := (applyLook_data_eq blackImage1 defaultLookParams 0 (by decide)).1
    rw [show (0 : ℕ) = 4 * 0 from rfl, hd]
    simp only [applyLookPixelBytes]
    rw [if_neg (by decide)]
    rw [default_stageB_black]
    dsimp only
    have := default_black_byte
    omega

end
